import Mathlib

/-!
# MP-Gadget galactic winds: kick resolver and decoupled-state manager

A shallow embedding of the parts of `libgadget/winds.c` that resolve competing
wind kicks (`cmp_by_part_id`, the scan at the end of `winds_and_feedback`),
evolve the free-streaming timer (`winds_evolve`), report the decoupled state
(`winds_is_particle_decoupled`) and implement the subgrid kick
(`winds_make_after_sf`).

Conventions of the embedding.

* A C `double` is an exact rational number: the arithmetic of the source is
  kept operation by operation, rounding and the IEEE special values are not
  represented.  `isfinite` and the libm functions (`sin`, `cos`, `acos`, `exp`,
  `pow`) are fields of `Oracle`, so every theorem holds for all of them.  The
  subtraction `DelayTime - dtime` of `winds_evolve`, on whose rounding the strict
  decrease of the timer depends, is the field `sub_double` of `Oracle`.
* `P[i]` and `SPHP(i)` are one record, `Particle`; the particle table is a
  function from indices to particles and an assignment is `Function.update`.
* `endrun` is the error branch of `Except`, carrying the error number.
-/

namespace Winds

/-! ## Data model -/

/-- A C array `double[3]`. -/
structure Vec3 where
  x0 : ℚ
  x1 : ℚ
  x2 : ℚ
deriving DecidableEq

/-- The scalar product of two vectors. -/
def Vec3.dot (a b : Vec3) : ℚ := a.x0 * b.x0 + a.x1 * b.x1 + a.x2 * b.x2

/-- Fields of `struct WindParams` (the static `wind_params`). -/
structure WindParams where
  WindModel : Nat
  WindFreeTravelLength : ℚ
  WindFreeTravelDensFac : ℚ
  WindFreeTravelDensThresh : ℚ
  MaxWindFreeTravelTime : ℚ
  WindEfficiency : ℚ
  WindSpeed : ℚ
  WindEnergyFraction : ℚ
  WindSigma0 : ℚ
  WindSpeedFactor : ℚ
  MinWindVelocity : ℚ
  WindThermalFactor : ℚ
deriving DecidableEq

/-- The fields of `P[i]` and of its gas slot `SPHP(i)` that the wind code reads
or writes.  `Type_` is `P[i].Type` (0 gas, 1 dark matter, 4 star); `ID` is a
`MyIDType`, an unsigned 64-bit integer; `IsGarbage` and `Swallowed` are the
one-bit flags of the source; `Hsml` is the smoothing length. -/
structure Particle where
  Type_ : Nat
  ID : Nat
  Mass : ℚ
  Vel : Vec3
  TimeBin : Nat
  Ti_drift : Int
  Density : ℚ
  Entropy : ℚ
  DelayTime : ℚ
  IsGarbage : Bool := false
  Swallowed : Bool := false
  Hsml : ℚ := 0
deriving DecidableEq

/-- The `struct StarKick` of the source: a potential kick to a gas particle from
a newly formed star.  `part_index` is an index into the particle table `P` (the
neighbour index `other` of the tree walk, which is never negative for a visited
particle), hence a natural number; `StarID` is a `MyIDType`. -/
structure StarKick where
  part_index : Nat
  StarDistance : ℚ
  StarID : Nat
  StarKickVelocity : ℚ
  StarTherm : ℚ
deriving DecidableEq

/-- Functions the wind code calls that live outside `winds.c`: the hash-based
random number generator, libm, the time-bin manager, the density helper
`SPH_EOMDensity` and the constant `GAMMA_MINUS1` of `physconst.h`; and
`sub_double`, the subtraction of two doubles as the machine rounds it (an
operand below half an ulp of the other is absorbed), exact unless stated
otherwise. -/
structure Oracle where
  get_random_number : Nat → ℚ
  sin : ℚ → ℚ
  cos : ℚ → ℚ
  acos : ℚ → ℚ
  exp : ℚ → ℚ
  pow : ℚ → ℚ → ℚ
  M_PI : ℚ
  isfinite : ℚ → Bool
  GAMMA_MINUS1 : ℚ
  get_dloga_for_bin : Nat → Int → ℚ
  SPH_EOMDensity : Particle → ℚ
  sub_double : ℚ → ℚ → ℚ := fun x y => x - y

/-- Modelled from the spec: the flag values of `enum WindModel` are declared in
`winds.h`, which is not among the sources; the spec only says the model is a
runtime enumeration composed of bit flags.  Subgrid flag. -/
def WIND_SUBGRID : Nat := 1

/-- Modelled from the spec: bit flag of `enum WindModel` (declared in `winds.h`)
for models that decouple wind particles from the hydrodynamics. -/
def WIND_DECOUPLE_SPH : Nat := 2

/-- Modelled from the spec: bit flag of `enum WindModel` (declared in `winds.h`)
for the halo-scaling model. -/
def WIND_USE_HALO : Nat := 4

/-- Modelled from the spec: bit flag of `enum WindModel` (declared in `winds.h`)
for the fixed-efficiency model. -/
def WIND_FIXED_EFFICIENCY : Nat := 8

/-- Modelled from the spec: the macro `HAS(val, flag)`, declared outside
`winds.c`; it tests that every bit of `flag` is set in `val`. -/
def HAS (val flag : Nat) : Bool := (flag &&& val) == flag

/-- The macro `DMAX(x, y)`: `x > y ? x : y`. -/
def DMAX (x y : ℚ) : ℚ := if x > y then x else y

/-- Addition of unsigned 64-bit identifiers, `P[i].ID + c`. -/
def idplus (id c : Nat) : Nat := (id + c) % 2 ^ 64

/-! ## winds_is_particle_decoupled, winds_ever_decouple -/

/-- The source's `winds_is_particle_decoupled(i)`. -/
def winds_is_particle_decoupled (wp : WindParams) (P : Nat → Particle) (i : Nat) : Int :=
  if HAS wp.WindModel WIND_DECOUPLE_SPH = true ∧ (P i).Type_ = 0 ∧ (P i).DelayTime > 0 then 1
  else 0

/-- The source's `winds_ever_decouple()`: 1 if the winds ever decouple. -/
def winds_ever_decouple (wp : WindParams) : Int :=
  if wp.MaxWindFreeTravelTime > 0 then 1 else 0

/-! ## cmp_by_part_id -/

/-- The source's `cmp_by_part_id`: compare by particle index, then distance,
then star ID. -/
def cmp_by_part_id (stara starb : StarKick) : Int :=
  if stara.part_index > starb.part_index then 1
  else if stara.part_index < starb.part_index then -1
  else if stara.StarDistance > starb.StarDistance then 1
  else if stara.StarDistance < starb.StarDistance then -1
  else if stara.StarID > starb.StarID then 1
  else if stara.StarID < starb.StarID then -1
  else 0

/-- Postcondition of `qsort_openmp(kicks, nkicks, size, cmp_by_part_id)`: no
element of the array compares above its successor.  The sort itself is outside
`winds.c`; the theorems below hold for every ordering it may return. -/
def SortedKicks (s : List StarKick) : Prop :=
  s.Chain' (fun a b => cmp_by_part_id a b ≤ 0)

instance (s : List StarKick) : Decidable (SortedKicks s) := by
  unfold SortedKicks; infer_instance

/-! ## get_wind_dir -/

/-- The source's `get_wind_dir(i, dir)`: the direction written to `dir`. -/
def get_wind_dir (o : Oracle) (P : Nat → Particle) (i : Nat) : Vec3 :=
  let theta := o.acos (2 * o.get_random_number (idplus (P i).ID 3) - 1)
  let phi := 2 * o.M_PI * o.get_random_number (idplus (P i).ID 4)
  ⟨o.sin theta * o.cos phi, o.sin theta * o.sin phi, o.cos theta⟩

/-! ## The kick resolver of winds_and_feedback -/

/-- Loop variables of the resolver scan and the particle table.  `last_part` is
an integer: the source starts it at -1, which is the index of no particle. -/
structure ScanState where
  last_part : Int
  nkicked : Int
  P : Nat → Particle

/-- The block `if(v > 0 && Time > 0) { ... }` of the resolver, applied to the
target particle: velocity kick, entropy increment and timer. -/
def kick_particle (o : Oracle) (wp : WindParams) (Time : ℚ) (dir : Vec3) (k : StarKick)
    (p : Particle) : Particle :=
  let v := k.StarKickVelocity
  if v > 0 ∧ Time > 0 then
    let p1 : Particle :=
      { p with Vel := ⟨p.Vel.x0 + v * dir.x0, p.Vel.x1 + v * dir.x1, p.Vel.x2 + v * dir.x2⟩ }
    let enttou := o.pow (o.SPH_EOMDensity p1 / o.pow Time 3) o.GAMMA_MINUS1 / o.GAMMA_MINUS1
    let p2 : Particle := { p1 with Entropy := p1.Entropy + k.StarTherm / enttou }
    if winds_ever_decouple wp ≠ 0 then
      let delay := wp.WindFreeTravelLength / (v / Time)
      let delay := if delay > wp.MaxWindFreeTravelTime then wp.MaxWindFreeTravelTime else delay
      { p2 with DelayTime := delay }
    else p2
  else p

/-- The body of the resolver loop after the `continue` test, for a candidate
that is the first of its target: bookkeeping, kick, and the fatal check
`endrun(5, "Odd v ...")`. -/
def resolver_kick (o : Oracle) (wp : WindParams) (Time : ℚ) (st : ScanState) (k : StarKick) :
    Except Nat ScanState :=
  let other := k.part_index
  let dir := get_wind_dir o st.P other
  let v := k.StarKickVelocity
  let P1 := Function.update st.P other (kick_particle o wp Time dir k (st.P other))
  if v ≤ 0 ∨ o.isfinite v = false ∨ o.isfinite (P1 other).DelayTime = false then
    Except.error 5
  else
    Except.ok { last_part := (other : Int), nkicked := st.nkicked + 1, P := P1 }

/-- One iteration of the resolver loop `for(i = 0; i < priv->nkicks; i++)`. -/
def resolver_iter (o : Oracle) (wp : WindParams) (Time : ℚ) (st : ScanState) (k : StarKick) :
    Except Nat ScanState :=
  if (k.part_index : Int) = st.last_part then Except.ok st
  else resolver_kick o wp Time st k

/-- The resolver loop over the (sorted) kick buffer, from a given loop state. -/
def resolver_loop (o : Oracle) (wp : WindParams) (Time : ℚ) :
    ScanState → List StarKick → Except Nat ScanState
  | st, [] => Except.ok st
  | st, k :: ks =>
    match resolver_iter o wp Time st k with
    | Except.error e => Except.error e
    | Except.ok st1 => resolver_loop o wp Time st1 ks

/-- The resolver scan of `winds_and_feedback`: `last_part = -1`, `nkicked = 0`,
then the loop over the kick buffer. -/
def resolver_scan (o : Oracle) (wp : WindParams) (Time : ℚ) (P : Nat → Particle)
    (kicks : List StarKick) : Except Nat ScanState :=
  resolver_loop o wp Time { last_part := -1, nkicked := 0, P := P } kicks

/-- The three fields `cmp_by_part_id` compares. -/
def StarKick.key (k : StarKick) : Nat × ℚ × Nat :=
  (k.part_index, k.StarDistance, k.StarID)

/-- The candidates of a buffer that pass the test `part_index == last_part` of
the resolver loop, given the value `last` of `last_part` on entry: the
candidates the loop goes on to apply. -/
def kept_kicks : Int → List StarKick → List StarKick
  | _, [] => []
  | last, k :: ks =>
    if (k.part_index : Int) = last then kept_kicks last ks
    else k :: kept_kicks (k.part_index : Int) ks

/-- The resolver loop body run on every candidate of a list with no `continue`
test: the sequential application of the candidates. -/
def apply_kicks (o : Oracle) (wp : WindParams) (Time : ℚ) :
    ScanState → List StarKick → Except Nat ScanState
  | st, [] => Except.ok st
  | st, k :: ks =>
    match resolver_kick o wp Time st k with
    | Except.error e => Except.error e
    | Except.ok st1 => apply_kicks o wp Time st1 ks

/-- The target particle of candidate `k` after the kick block, computed from the
particle table `P` in which the target has not been kicked yet. -/
def resolved_particle (o : Oracle) (wp : WindParams) (Time : ℚ) (P : Nat → Particle)
    (k : StarKick) : Particle :=
  kick_particle o wp Time (get_wind_dir o P k.part_index) k (P k.part_index)

/-- The condition of the fatal check `v <= 0 || !isfinite(v) ||
!isfinite(DelayTime)` for candidate `k` applied on the particle table `P`. -/
def fatal_kick (o : Oracle) (wp : WindParams) (Time : ℚ) (P : Nat → Particle)
    (k : StarKick) : Prop :=
  k.StarKickVelocity ≤ 0 ∨ o.isfinite k.StarKickVelocity = false ∨
    o.isfinite (resolved_particle o wp Time P k).DelayTime = false

instance (o : Oracle) (wp : WindParams) (Time : ℚ) (P : Nat → Particle) (k : StarKick) :
    Decidable (fatal_kick o wp Time P k) := by
  unfold fatal_kick; infer_instance

/-! ## winds_evolve -/

/-- The source's `winds_evolve(i, a3inv, hubble)`.  The subtraction
`SPHP(i).DelayTime - dtime` is the subtraction of doubles `sub_double`. -/
def winds_evolve (o : Oracle) (wp : WindParams) (P : Nat → Particle) (i : Nat)
    (a3inv hubble : ℚ) : Nat → Particle :=
  let p := P i
  let p1 : Particle :=
    if p.DelayTime > 0 ∧ p.Density * a3inv < wp.WindFreeTravelDensThresh then
      { p with DelayTime := 0 }
    else p
  if p1.DelayTime > 0 then
    let p2 : Particle :=
      if p1.DelayTime > wp.MaxWindFreeTravelTime then
        { p1 with DelayTime := wp.MaxWindFreeTravelTime }
      else p1
    let dloga := o.get_dloga_for_bin p2.TimeBin p2.Ti_drift
    let dtime := dloga / hubble
    Function.update P i { p2 with DelayTime := DMAX (o.sub_double p2.DelayTime dtime) 0 }
  else Function.update P i p1

/-! ## winds_make_after_sf -/

/-- The source's `winds_make_after_sf(i, sm, atime)`: the particle table after
the call (the function always returns 0). -/
def winds_make_after_sf (o : Oracle) (wp : WindParams) (P : Nat → Particle) (i : Nat)
    (sm atime : ℚ) : Nat → Particle :=
  if HAS wp.WindModel WIND_SUBGRID = false ∨ winds_ever_decouple wp = 0 then P
  else
    let pw := wp.WindEfficiency * sm / (P i).Mass
    let prob := 1 - o.exp (-pw)
    if o.get_random_number (idplus (P i).ID 2) < prob then
      let dir := get_wind_dir o P i
      let p := P i
      let p1 : Particle :=
        { p with Vel := ⟨p.Vel.x0 + wp.WindSpeed * atime * dir.x0,
                         p.Vel.x1 + wp.WindSpeed * atime * dir.x1,
                         p.Vel.x2 + wp.WindSpeed * atime * dir.x2⟩ }
      Function.update P i { p1 with DelayTime := wp.WindFreeTravelLength / wp.WindSpeed }
    else P

/-! ## sfr_wind_feedback_ngbiter -/

/-- The number of trial radii, `#define NWINDHSML 5`. -/
def NWINDHSML : Nat := 5

/-- The target number of dark-matter neighbours, `#define NUMDMNGB 40`. -/
def NUMDMNGB : Nat := 40

/-- The tolerance on the neighbour count, `#define MAXDMDEVIATION 2`. -/
def MAXDMDEVIATION : Nat := 2

/-- Fields of `TreeWalkQueryWind`, the query a star sends through the tree walk
(without the base record of the tree walk); `DMRadius` has `NWINDHSML` entries. -/
structure TreeWalkQueryWind where
  ID : Nat
  Dt : ℚ
  Mass : ℚ
  Hsml : ℚ
  TotalWeight : ℚ
  DMRadius : Nat → ℚ
  Vdisp : ℚ
  Vel : Vec3

/-- The two values of the `symmetric` field of a neighbour iterator. -/
inductive NgbTreeFindSymmetric where
  | NGB_TREEFIND_SYMMETRIC
  | NGB_TREEFIND_ASYMMETRIC
deriving DecidableEq

/-- Fields of `iter->base` that the wind callbacks read or write: the visited
neighbour `other` (-1 on the first call, before any neighbour), its distance `r`
and separation `dist`, and the search radius, type mask and symmetry the
callback sets on the first call. -/
structure TreeWalkNgbIterWind where
  other : Int
  r : ℚ
  dist : Vec3
  Hsml : ℚ
  mask : Nat
  symmetric : NgbTreeFindSymmetric

/-- Fields of `struct WindPriv` other than the `Winddata` table: the kick buffer
`kicks` with its counter `nkicks` and capacity `maxkicks`, and the visit counter
`nvisited` of each thread, a C `int`.  The counter `nkicks` starts at 0 and only
grows, and the only use of `maxkicks` is the test `ikick >= maxkicks`, which for
a negative `maxkicks` is the test against 0: `maxkicks` is kept as the natural
number max(`maxkicks`, 0). -/
structure WindPriv where
  Time : ℚ
  hubble : ℚ
  kicks : Nat → StarKick
  nkicks : Nat
  maxkicks : Nat
  nvisited : Nat → Int

/-- The source's `sfr_wind_feedback_ngbiter(I, O, iter, lv)`: the iterator and
the private data after the call, or the error number of `endrun`.  The result
record `O` is not touched by this callback. -/
def sfr_wind_feedback_ngbiter (o : Oracle) (wp : WindParams) (P : Nat → Particle)
    (I : TreeWalkQueryWind) (iter : TreeWalkNgbIterWind) (priv : WindPriv) :
    Except Nat (TreeWalkNgbIterWind × WindPriv) :=
  if iter.other = -1 then
    Except.ok ({ iter with mask := 1,
                           symmetric := NgbTreeFindSymmetric.NGB_TREEFIND_ASYMMETRIC,
                           Hsml := I.Hsml }, priv)
  else
    let other := iter.other.toNat
    let r := iter.r
    if r > I.Hsml then Except.ok (iter, priv)
    else if (P other).DelayTime > 0 then Except.ok (iter, priv)
    else if I.TotalWeight = 0 ∨ I.Vdisp ≤ 0 then Except.ok (iter, priv)
    else if (P other).Type_ ≠ 0 ∨ (P other).IsGarbage = true ∨ (P other).Swallowed = true then
      Except.ok (iter, priv)
    else
      let utherm := wp.WindThermalFactor * (3 / 2) * I.Vdisp * I.Vdisp
      let model : Option (ℚ × ℚ) :=
        if HAS wp.WindModel WIND_FIXED_EFFICIENCY = true then
          some (wp.WindEfficiency, wp.WindSpeed * priv.Time)
        else if HAS wp.WindModel WIND_USE_HALO = true then
          some (1 / o.pow (I.Vdisp / priv.Time / wp.WindSigma0) 2, wp.WindSpeedFactor * I.Vdisp)
        else none
      match model with
      | none => Except.error 1
      | some (windeff, v0) =>
        let v := if v0 < wp.MinWindVelocity * priv.Time then wp.MinWindVelocity * priv.Time else v0
        let p := windeff * I.Mass / I.TotalWeight
        let random := o.get_random_number (idplus I.ID (P other).ID)
        if random < p ∧ v > 0 then
          let ikick := priv.nkicks
          if ikick ≥ priv.maxkicks then Except.error 5
          else
            Except.ok (iter,
              { priv with
                nkicks := ikick + 1
                kicks := Function.update priv.kicks ikick
                  { part_index := other, StarDistance := r, StarID := I.ID,
                    StarKickVelocity := v, StarTherm := utherm } })
        else Except.ok (iter, priv)

/-- The ejection efficiency as the claim words it: `WindEfficiency` in the
fixed-efficiency model, the inverse of `pow(Vdisp / Time / WindSigma0, 2)` in the
halo-scaling model. -/
def spec_wind_efficiency (o : Oracle) (wp : WindParams) (Time : ℚ) (I : TreeWalkQueryWind) : ℚ :=
  if HAS wp.WindModel WIND_FIXED_EFFICIENCY = true then wp.WindEfficiency
  else 1 / o.pow (I.Vdisp / Time / wp.WindSigma0) 2

/-- The wind speed of the model as the claim words it: `WindSpeed * Time` in the
fixed-efficiency model, `WindSpeedFactor * Vdisp` in the halo-scaling model. -/
def spec_model_speed (wp : WindParams) (Time : ℚ) (I : TreeWalkQueryWind) : ℚ :=
  if HAS wp.WindModel WIND_FIXED_EFFICIENCY = true then wp.WindSpeed * Time
  else wp.WindSpeedFactor * I.Vdisp

/-- The conditions of the claim under which a kick candidate is appended for the
star query `I` and the neighbour `n` at distance `r`. -/
def spec_candidate_accepted (o : Oracle) (wp : WindParams) (Time : ℚ) (P : Nat → Particle)
    (I : TreeWalkQueryWind) (n : Nat) (r : ℚ) : Prop :=
  r ≤ I.Hsml ∧
  (P n).Type_ = 0 ∧ (P n).IsGarbage = false ∧ (P n).Swallowed = false ∧
  (P n).DelayTime ≤ 0 ∧
  I.TotalWeight ≠ 0 ∧ I.Vdisp > 0 ∧
  o.get_random_number (idplus I.ID (P n).ID) <
    spec_wind_efficiency o wp Time I * I.Mass / I.TotalWeight ∧
  max (spec_model_speed wp Time I) (wp.MinWindVelocity * Time) > 0

instance (o : Oracle) (wp : WindParams) (Time : ℚ) (P : Nat → Particle)
    (I : TreeWalkQueryWind) (n : Nat) (r : ℚ) :
    Decidable (spec_candidate_accepted o wp Time P I n r) := by
  unfold spec_candidate_accepted; infer_instance

/-- The candidate `sfr_wind_feedback_ngbiter` writes into the buffer for the
star query `I` and the neighbour `n` at distance `r`, under one of the two wind
models: target, distance, star identifier, floored speed and thermal energy. -/
def feedback_kick (wp : WindParams) (Time : ℚ) (I : TreeWalkQueryWind) (n : Nat) (r : ℚ) :
    StarKick where
  part_index := n
  StarDistance := r
  StarID := I.ID
  StarKickVelocity := max (spec_model_speed wp Time I) (wp.MinWindVelocity * Time)
  StarTherm := wp.WindThermalFactor * (3 / 2) * I.Vdisp * I.Vdisp

/-! ## effdmradius, sfr_wind_weight_postprocess -/

/-- Fields of `struct winddata`, the WindSample of one star; the arrays have
`NWINDHSML` entries. -/
structure winddata where
  DMRadius : ℚ
  Left : ℚ
  Right : ℚ
  TotalWeight : ℚ
  Vdisp : ℚ
  V2sum : Nat → ℚ
  V1sum : Nat → Vec3
  Ngb : Nat → ℚ
  maxcmpte : Int

/-- The source's `effdmradius(place, i, tw)` for the WindSample `w` of the star
`place` in a box of size `BoxSize`: trial radius number `i`. -/
def effdmradius (o : Oracle) (BoxSize : ℚ) (w : winddata) (i : Nat) : ℚ :=
  let left := w.Left
  let right := w.Right
  let right := if right > (99 / 100) * BoxSize then w.DMRadius else right
  let left := if left = 0 then (1 / 10) * w.DMRadius else left
  let rvol := o.pow right 3
  let lvol := o.pow left 3
  o.pow ((1 * (i : ℚ) + 1) / (1 * (NWINDHSML : ℚ) + 1) * (rvol - lvol) + lvol) (1 / 3)

/-- The upper bound `effdmradius` interpolates to: `Right`, or `DMRadius` when
`Right` is above 0.99 of the box size. -/
def eff_right (BoxSize : ℚ) (w : winddata) : ℚ :=
  if w.Right > (99 / 100) * BoxSize then w.DMRadius else w.Right

/-- The lower bound `effdmradius` interpolates from: `Left`, or a tenth of
`DMRadius` when `Left` is 0. -/
def eff_left (w : winddata) : ℚ :=
  if w.Left = 0 then (1 / 10) * w.DMRadius else w.Left

/-- The source's `sfr_wind_copy(place, input, tw)`: the query filled in for the
star `place` with WindSample `w`.  The array `DMRadius` has `NWINDHSML` entries;
the function is 0 past them. -/
def sfr_wind_copy (o : Oracle) (BoxSize hubble : ℚ) (P : Nat → Particle) (place : Nat)
    (w : winddata) : TreeWalkQueryWind where
  ID := (P place).ID
  Dt := o.get_dloga_for_bin (P place).TimeBin (P place).Ti_drift / hubble
  Mass := (P place).Mass
  Hsml := (P place).Hsml
  TotalWeight := w.TotalWeight
  Vdisp := w.Vdisp
  Vel := (P place).Vel
  DMRadius := fun i => if i < NWINDHSML then effdmradius o BoxSize w i else 0

/-- What `ngb_narrow_down` hands back: its return value (the next radius), the
bracket it wrote through `right` and `left`, and the index it wrote through
`closeidx`. -/
structure NarrowDown where
  ret : ℚ
  Right : ℚ
  Left : ℚ
  close : Nat

/-- The fields of the `TreeWalk` that `sfr_wind_weight_postprocess` updates for
the calling thread: the redo queue `NPRedo[tid]` (whose length is `NPLeft[tid]`)
and the extreme neighbour counts. -/
structure TreeWalkRedo where
  NPRedo : List Nat
  maxnumngb : ℚ
  minnumngb : ℚ

/-- The source's `sfr_wind_weight_postprocess(i, tw)` on the WindSample `w` of
particle `i`.  `ngb_narrow_down` (called with the bracket, the trial radii, the
neighbour counts, `maxcmpt`, `NUMDMNGB` and the box size) and `sqrt` are outside
`winds.c` and are parameters. -/
def sfr_wind_weight_postprocess (o : Oracle) (sqrt : ℚ → ℚ)
    (ngb_narrow_down : ℚ → ℚ → List ℚ → (Nat → ℚ) → Int → Nat → ℚ → NarrowDown)
    (BoxSize : ℚ) (P : Nat → Particle) (i : Nat) (w : winddata) (tw : TreeWalkRedo) :
    Except Nat (winddata × TreeWalkRedo) :=
  if (P i).Type_ ≠ 4 then Except.error 23
  else
    let maxcmpt := w.maxcmpte
    let evaldmradius := (List.range maxcmpt.toNat).map (fun j => effdmradius o BoxSize w j)
    let nd := ngb_narrow_down w.Right w.Left evaldmradius w.Ngb maxcmpt NUMDMNGB BoxSize
    let w1 : winddata := { w with DMRadius := nd.ret, Right := nd.Right, Left := nd.Left }
    let close := nd.close
    let numngb := w1.Ngb close
    let branch : winddata × TreeWalkRedo :=
      if (numngb < ((NUMDMNGB - MAXDMDEVIATION : Nat) : ℚ) ∨
            numngb > ((NUMDMNGB + MAXDMDEVIATION : Nat) : ℚ)) ∧
          w1.Right - w1.Left > 1 / 100 then
        (w1, { tw with NPRedo := tw.NPRedo ++ [i] })
      else
        let vdisp := w1.V2sum close / numngb
        let vdisp := vdisp - o.pow ((w1.V1sum close).x0 / numngb) 2
        let vdisp := vdisp - o.pow ((w1.V1sum close).x1 / numngb) 2
        let vdisp := vdisp - o.pow ((w1.V1sum close).x2 / numngb) 2
        if vdisp > 0 then ({ w1 with Vdisp := sqrt (vdisp / 3) }, tw) else (w1, tw)
    let w2 := branch.1
    let tw1 := branch.2
    let tw2 : TreeWalkRedo :=
      if tw1.maxnumngb < numngb then { tw1 with maxnumngb := numngb } else tw1
    let tw3 : TreeWalkRedo :=
      if tw2.minnumngb > numngb then { tw2 with minnumngb := numngb } else tw2
    Except.ok (w2, tw3)

/-- The local `vdisp` of `sfr_wind_weight_postprocess` after the loop over the
three axes, for the chosen bucket `close` of the WindSample `w`:
`V2sum[close] / numngb` less `pow(V1sum[close][d] / numngb, 2)` for d = 0, 1, 2. -/
def postprocess_vdisp (o : Oracle) (w : winddata) (close : Nat) : ℚ :=
  let numngb := w.Ngb close
  let vdisp := w.V2sum close / numngb
  let vdisp := vdisp - o.pow ((w.V1sum close).x0 / numngb) 2
  let vdisp := vdisp - o.pow ((w.V1sum close).x1 / numngb) 2
  let vdisp := vdisp - o.pow ((w.V1sum close).x2 / numngb) 2
  vdisp

/-- The variance of the chosen bucket as the claim words it:
`(V2sum - |V1sum|^2 / N) / N`, with N the neighbour count of the bucket. -/
def spec_variance (w : winddata) (close : Nat) : ℚ :=
  (w.V2sum close -
    ((w.V1sum close).x0 ^ 2 + (w.V1sum close).x1 ^ 2 + (w.V1sum close).x2 ^ 2) /
      w.Ngb close) / w.Ngb close

/-- The call of `ngb_narrow_down` that `sfr_wind_weight_postprocess` makes on the
WindSample `w`. -/
def postprocess_narrow (o : Oracle)
    (ngb_narrow_down : ℚ → ℚ → List ℚ → (Nat → ℚ) → Int → Nat → ℚ → NarrowDown)
    (BoxSize : ℚ) (w : winddata) : NarrowDown :=
  ngb_narrow_down w.Right w.Left
    ((List.range w.maxcmpte.toNat).map (fun j => effdmradius o BoxSize w j))
    w.Ngb w.maxcmpte NUMDMNGB BoxSize

/-! ## sfr_wind_weight_ngbiter and the sizing of the kick buffer -/

/-- Fields of `TreeWalkResultWind`, the partial sums one tree walk returns for a
star (without the base record); the arrays have `NWINDHSML` entries. -/
structure TreeWalkResultWind where
  TotalWeight : ℚ
  V1sum : Nat → Vec3
  V2sum : Nat → ℚ
  Ngb : Nat → ℚ
  maxcmpte : Int

/-- The body of the loop over the active components in
`sfr_wind_weight_ngbiter` for a dark-matter neighbour at distance `r` whose
velocity relative to the star, with the Hubble flow added, is `vel`. -/
def dm_accumulate (I : TreeWalkQueryWind) (r : ℚ) (vel : Vec3) (O : TreeWalkResultWind)
    (i : Nat) : TreeWalkResultWind :=
  if r < I.DMRadius i then
    { O with
      Ngb := Function.update O.Ngb i (O.Ngb i + 1)
      V1sum := Function.update O.V1sum i
        ⟨(O.V1sum i).x0 + vel.x0, (O.V1sum i).x1 + vel.x1, (O.V1sum i).x2 + vel.x2⟩
      V2sum := Function.update O.V2sum i
        (O.V2sum i + vel.x0 * vel.x0 + vel.x1 * vel.x1 + vel.x2 * vel.x2) }
  else O

/-- The value of a C `int` (32 bits, two's complement) that an arithmetic
result `x` wraps to. -/
def wrap_int (x : Int) : Int := (x + 2147483648) % 4294967296 - 2147483648

/-- The source's `sfr_wind_weight_ngbiter(I, O, iter, lv)`, run by thread `tid`:
the result record, the iterator and the private data after the call.  The
increment of the `int` counter `nvisited[tid]` wraps. -/
def sfr_wind_weight_ngbiter (P : Nat → Particle) (I : TreeWalkQueryWind)
    (O : TreeWalkResultWind) (iter : TreeWalkNgbIterWind) (priv : WindPriv) (tid : Nat) :
    TreeWalkResultWind × TreeWalkNgbIterWind × WindPriv :=
  if iter.other = -1 then
    let hsearch := DMAX I.Hsml (I.DMRadius (NWINDHSML - 1))
    ({ O with maxcmpte := (NWINDHSML : Int) },
     { iter with Hsml := hsearch, mask := 1 + 2,
                 symmetric := NgbTreeFindSymmetric.NGB_TREEFIND_ASYMMETRIC },
     priv)
  else
    let other := iter.other.toNat
    let r := iter.r
    let dist := iter.dist
    let gas : Option (TreeWalkResultWind × WindPriv) :=
      if (P other).Type_ = 0 then
        if r > I.Hsml then none
        else if (P other).DelayTime > 0 then none
        else
          some ({ O with TotalWeight := O.TotalWeight + 1 * (P other).Mass },
                { priv with
                  nvisited :=
                    Function.update priv.nvisited tid (wrap_int (priv.nvisited tid + 1)) })
      else some (O, priv)
    match gas with
    | none => (O, iter, priv)
    | some (O1, priv1) =>
      let O2 : TreeWalkResultWind :=
        if (P other).Type_ = 1 then
          let atime := priv1.Time
          let vel : Vec3 :=
            ⟨(P other).Vel.x0 - I.Vel.x0 + priv1.hubble * atime * atime * dist.x0,
             (P other).Vel.x1 - I.Vel.x1 + priv1.hubble * atime * atime * dist.x1,
             (P other).Vel.x2 - I.Vel.x2 + priv1.hubble * atime * atime * dist.x2⟩
          (List.range O1.maxcmpte.toNat).foldl (dm_accumulate I r vel) O1
        else O1
      match (List.range NWINDHSML).find? (fun i => decide (O2.Ngb i > (NUMDMNGB : ℚ))) with
      | some i =>
        ({ O2 with maxcmpte := (i : Int) + 1 }, { iter with Hsml := I.DMRadius i }, priv1)
      | none => (O2, iter, priv1)

/-- The body of the loop over the components in `sfr_wind_reduce_weight`:
`TREEWALK_REDUCE` on the count, the second moment and the three first moments of
component `i`. -/
def reduce_component (TREEWALK_REDUCE : Int → ℚ → ℚ → ℚ) (O : TreeWalkResultWind)
    (mode : Int) (w : winddata) (i : Nat) : winddata :=
  { w with
    Ngb := Function.update w.Ngb i (TREEWALK_REDUCE mode (w.Ngb i) (O.Ngb i))
    V2sum := Function.update w.V2sum i (TREEWALK_REDUCE mode (w.V2sum i) (O.V2sum i))
    V1sum := Function.update w.V1sum i
      ⟨TREEWALK_REDUCE mode (w.V1sum i).x0 (O.V1sum i).x0,
       TREEWALK_REDUCE mode (w.V1sum i).x1 (O.V1sum i).x1,
       TREEWALK_REDUCE mode (w.V1sum i).x2 (O.V1sum i).x2⟩ }

/-- The source's `sfr_wind_reduce_weight(place, O, mode, tw)` on the WindSample
`w` of the star `place`.  `TREEWALK_REDUCE(A, B)` is a macro of `treewalk.h`,
which is not among the sources, and is a parameter: the value it assigns to A,
given the mode, A and B. -/
def sfr_wind_reduce_weight (TREEWALK_REDUCE : Int → ℚ → ℚ → ℚ) (w : winddata)
    (O : TreeWalkResultWind) (mode : Int) : winddata :=
  let w1 : winddata :=
    { w with TotalWeight := TREEWALK_REDUCE mode w.TotalWeight O.TotalWeight }
  let w2 : winddata :=
    if mode = 0 ∨ w1.maxcmpte > O.maxcmpte then { w1 with maxcmpte := O.maxcmpte } else w1
  (List.range O.maxcmpte.toNat).foldl (reduce_component TREEWALK_REDUCE O mode) w2

/-- The state of the component count of a per-query result that the weight
callback keeps up during a walk: the count is between 1 and `NWINDHSML`, and when
it is below `NWINDHSML` the neighbour count of its last component is above
`NUMDMNGB` (the component that made the callback shrink it). -/
def maxcmpte_ok (O : TreeWalkResultWind) : Prop :=
  1 ≤ O.maxcmpte ∧ O.maxcmpte ≤ (NWINDHSML : Int) ∧
    (O.maxcmpte = (NWINDHSML : Int) ∨ O.Ngb (O.maxcmpte.toNat - 1) > (NUMDMNGB : ℚ))

/-- The initialisation of the WindSample of a new star `n` in
`winds_and_feedback`. -/
def winddata_init (BoxSize : ℚ) (P : Nat → Particle) (n : Nat) (w : winddata) : winddata :=
  { w with DMRadius := 2 * (P n).Hsml, Left := 0, Right := BoxSize,
           maxcmpte := (NUMDMNGB : Int) }

/-- The loop `for (i = 1; i < omp_get_max_threads(); i++) nvisited[0] +=
nvisited[i];` of `winds_and_feedback`: the value of `nvisited[0]` after it.  The
counters are C `int`s and every addition wraps. -/
def sum_nvisited (nthreads : Nat) (nvisited : Nat → Int) : Int :=
  (List.range (nthreads - 1)).foldl (fun acc i => wrap_int (acc + nvisited (i + 1)))
    (nvisited 0)

/-- Modelled from the spec: a nearby particle as the neighbour traversal
primitive (`treewalk.c`, not among the sources) presents it to a callback; the
particle `other`, its distance `r` from the query and its separation `dist`. -/
structure Candidate where
  other : Nat
  r : ℚ
  dist : Vec3

/-- Modelled from the spec: the neighbour traversal primitive of `treewalk.c`,
which is not among the sources.  Per the spec it "invokes a callback once per
nearby candidate particle" for "a particle and a search radius": the particles
`cands` of the process are gone through in the order of the tree, and the
callback `cb` is invoked on each one whose type is in the mask of the iterator
and whose distance is within the search radius of the iterator, both as the
callback last set them (the weight callback clamps "the traversal's own search
radius" during the walk).  An abort of the callback ends the walk. -/
def treewalk_visit {σ : Type} (P : Nat → Particle)
    (cb : TreeWalkNgbIterWind → σ → Except Nat (TreeWalkNgbIterWind × σ)) :
    TreeWalkNgbIterWind → List Candidate → σ → Except Nat σ
  | _, [], s => Except.ok s
  | iter, c :: cs, s =>
    if (1 <<< (P c.other).Type_) &&& iter.mask ≠ 0 ∧ c.r ≤ iter.Hsml then
      match cb { iter with other := (c.other : Int), r := c.r, dist := c.dist } s with
      | Except.error e => Except.error e
      | Except.ok (iter1, s1) => treewalk_visit P cb iter1 cs s1
    else treewalk_visit P cb iter cs s

/-- Modelled from the spec: one query of the traversal primitive.  The callback
is first called with the marker "no candidate yet" (`other = -1`) to set the
search radius, the type mask and the symmetry, then the walk visits the
candidates. -/
def treewalk_query {σ : Type} (P : Nat → Particle)
    (cb : TreeWalkNgbIterWind → σ → Except Nat (TreeWalkNgbIterWind × σ))
    (cands : List Candidate) (s : σ) : Except Nat σ :=
  match cb { other := -1, r := 0, dist := ⟨0, 0, 0⟩, Hsml := 0, mask := 0,
             symmetric := NgbTreeFindSymmetric.NGB_TREEFIND_SYMMETRIC } s with
  | Except.error e => Except.error e
  | Except.ok (iter, s1) => treewalk_visit P cb iter cands s1

/-- The weight callback as a callback of `treewalk_visit`: the state is the
result record of the query and the private data; it never aborts. -/
def weight_callback (P : Nat → Particle) (I : TreeWalkQueryWind) (tid : Nat)
    (iter : TreeWalkNgbIterWind) (s : TreeWalkResultWind × WindPriv) :
    Except Nat (TreeWalkNgbIterWind × (TreeWalkResultWind × WindPriv)) :=
  Except.ok ((sfr_wind_weight_ngbiter P I s.1 iter s.2 tid).2.1,
    ((sfr_wind_weight_ngbiter P I s.1 iter s.2 tid).1,
     (sfr_wind_weight_ngbiter P I s.1 iter s.2 tid).2.2))

/-- A result record with every sum at zero, as a tree walk starts with. -/
def result_zero : TreeWalkResultWind :=
  ⟨0, fun _ => ⟨0, 0, 0⟩, fun _ => 0, fun _ => 0, 0⟩

/-- Modelled from the spec: the first round of `treewalk_do_hsml_loop` (not
among the sources) with the weight callback, over all new stars: each star `n`
sends the query `sfr_wind_copy` fills from its WindSample `W n`, thread
`thread_of n` walks the candidates `ngb n`.  Only the private data are kept
here; the result records go to `sfr_wind_reduce_weight`. -/
def weight_round (o : Oracle) (BoxSize : ℚ) (P : Nat → Particle)
    (ngb : Nat → List Candidate) (thread_of : Nat → Nat) (W : Nat → winddata) :
    List Nat → WindPriv → WindPriv
  | [], priv => priv
  | n :: ns, priv =>
    match treewalk_query P
        (weight_callback P (sfr_wind_copy o BoxSize priv.hubble P n (W n)) (thread_of n))
        (ngb n) (result_zero, priv) with
    | Except.error _ => weight_round o BoxSize P ngb thread_of W ns priv
    | Except.ok s => weight_round o BoxSize P ngb thread_of W ns s.2

/-- Modelled from the spec: `treewalk_run` (not among the sources) with the
feedback callback, over all new stars, on the same candidates. -/
def feedback_round (o : Oracle) (wp : WindParams) (BoxSize : ℚ) (P : Nat → Particle)
    (ngb : Nat → List Candidate) (W : Nat → winddata) :
    List Nat → WindPriv → Except Nat WindPriv
  | [], priv => Except.ok priv
  | n :: ns, priv =>
    match treewalk_query P
        (fun iter s =>
          sfr_wind_feedback_ngbiter o wp P (sfr_wind_copy o BoxSize priv.hubble P n (W n))
            iter s)
        (ngb n) priv with
    | Except.error e => Except.error e
    | Except.ok priv1 => feedback_round o wp BoxSize P ngb W ns priv1

/-- The part of `winds_and_feedback` that sizes and fills the kick buffer: the
WindSamples of the new stars are initialised and the visit counters zeroed; the
weight rounds run (the first over all new stars; the redo rounds of the tree
walk, outside `winds.c`, increment the counter of thread t another
`later_visits t` times and leave the WindSamples `Wf`); `maxkicks` is
`nvisited[0] + 2` after the summation loop, an `int` addition converted to the
64-bit `maxkicks`, and `nkicks` is 0; then the feedback round runs.  The result
is the private data before the sort, or the error number of `endrun`. -/
def winds_and_feedback_kicks (o : Oracle) (wp : WindParams) (BoxSize Time hubble : ℚ)
    (P : Nat → Particle) (ngb : Nat → List Candidate) (thread_of : Nat → Nat)
    (nthreads : Nat) (NewStars : List Nat) (W0 Wf : Nat → winddata)
    (later_visits : Nat → Nat) (kicks0 : Nat → StarKick) : Except Nat WindPriv :=
  let Winit : Nat → winddata :=
    fun n => if n ∈ NewStars then winddata_init BoxSize P n (W0 n) else W0 n
  let priv0 : WindPriv :=
    { Time := Time, hubble := hubble, kicks := kicks0, nkicks := 0, maxkicks := 0,
      nvisited := fun _ => 0 }
  let priv1 := weight_round o BoxSize P ngb thread_of Winit NewStars priv0
  let nvisited := fun t => wrap_int (priv1.nvisited t + (later_visits t : Int))
  let maxkicks := (wrap_int (sum_nvisited nthreads nvisited + 2)).toNat
  let priv2 : WindPriv := { priv1 with nvisited := nvisited, maxkicks := maxkicks, nkicks := 0 }
  feedback_round o wp BoxSize P ngb Wf NewStars priv2

/-- The gas neighbours among `cands` that both callbacks take into account for a
star of smoothing length `Hsml`: gas particles within `Hsml` without a positive
timer. -/
def eligible_gas (P : Nat → Particle) (Hsml : ℚ) (cands : List Candidate) : Nat :=
  cands.countP (fun c =>
    decide ((P c.other).Type_ = 0 ∧ c.r ≤ Hsml ∧ ¬ (P c.other).DelayTime > 0))

/-- The eligible gas neighbours of all the stars `stars`, each counted for each
star that has it among its candidates. -/
def total_eligible (P : Nat → Particle) (ngb : Nat → List Candidate) (stars : List Nat) :
    Nat :=
  (stars.map (fun n => eligible_gas P (P n).Hsml (ngb n))).sum

/-! ## Concrete inputs used by the witnesses -/

/-- An oracle with fixed answers: random draws are 1/4, `isfinite` holds of
every rational, the direction functions give the unit vector (0, 0, 1). -/
def oracle0 : Oracle where
  get_random_number := fun _ => 1 / 4
  sin := fun _ => 0
  cos := fun _ => 1
  acos := fun _ => 0
  exp := fun _ => 1 / 2
  pow := fun x _ => x
  M_PI := 3
  isfinite := fun _ => true
  GAMMA_MINUS1 := 2 / 3
  get_dloga_for_bin := fun _ _ => 1
  SPH_EOMDensity := fun p => p.Density

/-- Wind parameters with `flags` as the wind model, free-travel length 20,
maximum free-travel time 4, wind speed 2 and density threshold 1. -/
def params0 (flags : Nat) : WindParams where
  WindModel := flags
  WindFreeTravelLength := 20
  WindFreeTravelDensFac := 1
  WindFreeTravelDensThresh := 1
  MaxWindFreeTravelTime := 4
  WindEfficiency := 2
  WindSpeed := 2
  WindEnergyFraction := 1
  WindSigma0 := 1
  WindSpeedFactor := 1
  MinWindVelocity := 0
  WindThermalFactor := 1

/-- The parameters `params0 flags` with the maximum free-travel time set to 0,
so that `winds_ever_decouple` returns 0. -/
def params_nodecouple (flags : Nat) : WindParams :=
  { params0 flags with MaxWindFreeTravelTime := 0 }

/-- An oracle like `oracle0` with the time step `dloga` = 10^-17 and a
subtraction that returns its first operand when the second is below 2^-54 of it
and is exact otherwise: as doubles subtract, half an ulp of a positive double x
being at least 2^-54 x. -/
def oracle_absorb : Oracle :=
  { oracle0 with
    get_dloga_for_bin := fun _ _ => 1 / 10 ^ 17
    sub_double := fun x y => if 2 ^ 54 * y < x then x else x - y }

/-- An oracle like `oracle0` whose `isfinite` fails on every value above 100. -/
def oracle_bounded : Oracle :=
  { oracle0 with isfinite := fun x => decide (x ≤ 100) }

/-- A candidate for target 0 with speed 0. -/
def kickZero : StarKick := ⟨0, 1, 3, 0, 0⟩

/-- A candidate for target 0 with speed 200. -/
def kickFast : StarKick := ⟨0, 1, 3, 200, 0⟩

/-- A gas particle with the given density and timer, at rest. -/
def gas0 (density delay : ℚ) : Particle where
  Type_ := 0
  ID := 7
  Mass := 1
  Vel := ⟨0, 0, 0⟩
  TimeBin := 1
  Ti_drift := 0
  Density := density
  Entropy := 1
  DelayTime := delay

/-- Candidates as in the spec's example for one target (index 2): star 5 at
distance 1, stars 3 and 5 at distance 1/2; and one candidate for target 1. -/
def kickA : StarKick := ⟨2, 1, 5, 3, 0⟩

/-- See `kickA`: star 3 at distance 1/2 from target 2. -/
def kickB : StarKick := ⟨2, 1 / 2, 3, 2, 0⟩

/-- See `kickA`: star 5 at distance 1/2 from target 2. -/
def kickC : StarKick := ⟨2, 1 / 2, 5, 1, 0⟩

/-- See `kickA`: star 9 at distance 3 from target 1. -/
def kickD : StarKick := ⟨1, 3, 9, 2, 0⟩

/-- A star query: star 11 of mass 1 with smoothing length 10, total gas weight 4
and velocity dispersion 2. -/
def query0 : TreeWalkQueryWind where
  ID := 11
  Dt := 1
  Mass := 1
  Hsml := 10
  TotalWeight := 4
  DMRadius := fun _ => 0
  Vdisp := 2
  Vel := ⟨0, 0, 0⟩

/-- The iterator on a visit of neighbour 3 at distance `r`. -/
def iter0 (r : ℚ) : TreeWalkNgbIterWind where
  other := 3
  r := r
  dist := ⟨r, 0, 0⟩
  Hsml := 10
  mask := 1
  symmetric := NgbTreeFindSymmetric.NGB_TREEFIND_ASYMMETRIC

/-- Private data at scale factor 1 with an empty kick buffer of capacity
`cap`. -/
def priv0 (cap : Nat) : WindPriv where
  Time := 1
  hubble := 1
  kicks := fun _ => ⟨0, 0, 0, 0, 0⟩
  nkicks := 0
  maxkicks := cap
  nvisited := fun _ => 0

/-- The private data `priv0 4` after a candidate of star 11 for neighbour 3 at
distance 5, with speed 2 and thermal energy 6, has been appended. -/
def priv0_appended : WindPriv :=
  { priv0 4 with
    nkicks := 1
    kicks := Function.update (priv0 4).kicks 0
      { part_index := 3, StarDistance := 5, StarID := 11, StarKickVelocity := 2,
        StarTherm := 6 } }

/-- An oracle like `oracle0` whose `pow` is exact for the exponent 3 and the
identity for every other exponent (so `pow(1, 1/3) = 1` and `pow(0, 1/3) = 0` are
exact cube roots, and `pow(x, 1/3)` is strictly increasing). -/
def oracle_cube : Oracle :=
  { oracle0 with pow := fun x e => if e = 3 then x ^ 3 else x }

/-- A WindSample with the given bracket and radius, `ngb` dark-matter
neighbours in every bucket and all `NWINDHSML` components active. -/
def sample0 (left right dmradius ngb : ℚ) : winddata where
  DMRadius := dmradius
  Left := left
  Right := right
  TotalWeight := 4
  Vdisp := 0
  V2sum := fun _ => 12
  V1sum := fun _ => ⟨0, 0, 0⟩
  Ngb := fun _ => ngb
  maxcmpte := 5

/-- A stand-in for `ngb_narrow_down` that keeps the bracket, returns its
midpoint and chooses bucket 0. -/
def narrow_keep (right left : ℚ) (_radius : List ℚ) (_numNgb : Nat → ℚ) (_maxcmpt : Int)
    (_desnumngb : Nat) (_BoxSize : ℚ) : NarrowDown :=
  ⟨(left + right) / 2, right, left, 0⟩

/-- A star particle with smoothing length 10. -/
def star0 : Particle :=
  { gas0 5 0 with Type_ := 4, Hsml := 10 }

/-- An empty redo queue. -/
def redo0 : TreeWalkRedo := ⟨[], 0, 100⟩

/-- An oracle like `oracle0` whose `pow` is exact for the exponent 3 and, for
every other exponent, the larger of its argument and 1: a value that is not
below any number whose cube is at most the argument. -/
def oracle_root : Oracle :=
  { oracle0 with pow := fun x e => if e = 3 then x ^ 3 else max x 1 }

/-- A particle table with a new star of smoothing length 1 at index 0 and gas
particles without a timer everywhere else. -/
def parts0 (n : Nat) : Particle :=
  if n = 0 then { gas0 5 0 with Type_ := 4, Hsml := 1 } else gas0 5 0

/-- The candidates of every query: the gas particle 1 at distance 1/2. -/
def ngb0 (_ : Nat) : List Candidate := [⟨1, 1 / 2, ⟨1 / 2, 0, 0⟩⟩]

/-- A WindSample as the weight rounds leave it, with total weight 4 and velocity
dispersion 1. -/
def sample_done : winddata :=
  { sample0 0 2 1 40 with Vdisp := 1 }

/-- An oracle like `oracle0` whose `pow` is exact for the exponent 2 and the
identity for every other exponent. -/
def oracle_square : Oracle :=
  { oracle0 with pow := fun x e => if e = 2 then x ^ 2 else x }

/-- A stand-in for `sqrt` that is exact at 4 and the identity elsewhere. -/
def sqrt_four (x : ℚ) : ℚ := if x = 4 then 2 else x

/-- A WindSample with bracket [0, 100] and 40 dark-matter neighbours in every
bucket whose velocities sum to 0 and whose squared velocities sum to 480. -/
def sample_disp : winddata :=
  { sample0 0 100 20 40 with V2sum := fun _ => 480 }

/-- A WindSample as the weight rounds leave it for the star of `parts0` in a box
of size 100: bracket and radius as initialised, total weight 4, 40 dark-matter
neighbours in every bucket that all move with the star (both moment sums are 0);
the dispersion field, which neither the initialisation nor the weight rounds
write, holds the value 1 that was in the slot before. -/
def sample_stale : winddata :=
  { sample0 0 100 2 40 with Vdisp := 1, V2sum := fun _ => 0 }

/-- A particle table with distinct identifiers (index + 10): two stars of
smoothing length 1 at the indices 0 and 1, gas particles everywhere else. -/
def parts_uniq (n : Nat) : Particle :=
  if n < 2 then { gas0 5 0 with Type_ := 4, Hsml := 1, ID := n + 10 }
  else { gas0 5 0 with ID := n + 10 }

/-- The candidate the star `place` of `parts_uniq` generates, in the
fixed-efficiency model at scale factor 1, for the neighbour `n` at distance
`r`. -/
def kick_uniq (place n : Nat) (r : ℚ) : StarKick :=
  feedback_kick (params0 8) 1 (sfr_wind_copy oracle0 100 1 parts_uniq place sample_done) n r

end Winds

namespace TimeBinMgr

/-! ## timebinmgr.c: the table of sync points -/

/-- Fields of a `SyncPoint`: the logarithm of the scale factor, the output flags
and the integer time.  `inttime_t` is declared in `timebinmgr.h`, which is not
among the sources; it is an unbounded integer here. -/
structure SyncPoint where
  loga : ℚ
  write_snapshot : Int
  write_fof : Int
  ti : Int
deriving DecidableEq

/-- The static table `SyncPoints[8192]` with its length `NSyncPoints`.  The
capacity of the array is not represented. -/
structure SyncTable where
  SyncPoints : Nat → SyncPoint
  NSyncPoints : Nat

/-- The fields of the global `All` that `setup_sync_points` reads; the list
`OutputListTimes` has `OutputListLength` entries. -/
structure AllParams where
  TimeInit : ℚ
  TimeMax : ℚ
  OutputListTimes : List ℚ
  SnapshotWithFOF : Int

/-- The inner loop of `setup_sync_points`,
`for(j = j0; j < j0 + n; j++) if(loga <= SyncPoints[j].loga) break;`:
the value of `j` after the loop. -/
def scan_slot (S : Nat → SyncPoint) (loga : ℚ) : Nat → Nat → Nat
  | 0, j => j
  | n + 1, j => if loga ≤ (S j).loga then j else scan_slot S loga n (j + 1)

/-- The library call `memmove(&S[dest], &S[src], count * sizeof(S[0]))`: entry
`dest + m` receives the old entry `src + m` for every `m < count`. -/
def memmove_sync (S : Nat → SyncPoint) (dest src count : Nat) : Nat → SyncPoint :=
  fun k => if dest ≤ k ∧ k < dest + count then S (src + (k - dest)) else S k

/-- One iteration of the insertion loop of `setup_sync_points`, for the output
time whose logarithm is `loga`. -/
def insert_output (SnapshotWithFOF : Int) (tbl : SyncTable) (loga : ℚ) : SyncTable :=
  let j := scan_slot tbl.SyncPoints loga tbl.NSyncPoints 0
  if j = tbl.NSyncPoints then tbl
  else
    let tbl1 : SyncTable :=
      if loga = (tbl.SyncPoints j).loga then tbl
      else
        let S1 := memmove_sync tbl.SyncPoints j (j + 1) (tbl.NSyncPoints - j)
        { SyncPoints := Function.update S1 j { S1 j with loga := loga },
          NSyncPoints := tbl.NSyncPoints + 1 }
    let S2 := Function.update tbl1.SyncPoints j { tbl1.SyncPoints j with write_snapshot := 1 }
    let S3 :=
      if SnapshotWithFOF ≠ 0 then Function.update S2 j { S2 j with write_fof := 1 } else S2
    { SyncPoints := S3, NSyncPoints := tbl1.NSyncPoints }

/-- The source's `setup_sync_points()`.  `log` is the libm logarithm, `S0` the
content of the static array on entry, `TIMEBINS` the constant of
`timebinmgr.h`. -/
def setup_sync_points (log : ℚ → ℚ) (TIMEBINS : Nat) (All : AllParams)
    (S0 : Nat → SyncPoint) : SyncTable :=
  let Sa := Function.update S0 0 { S0 0 with loga := log All.TimeInit, write_snapshot := 0 }
  let Sb := Function.update Sa 1 { Sa 1 with loga := log All.TimeMax, write_snapshot := 1 }
  let tbl := (All.OutputListTimes.map log).foldl (insert_output All.SnapshotWithFOF)
    { SyncPoints := Sb, NSyncPoints := 2 }
  { SyncPoints := fun i =>
      if i < tbl.NSyncPoints then { tbl.SyncPoints i with ti := (i : Int) * 2 ^ TIMEBINS }
      else tbl.SyncPoints i,
    NSyncPoints := tbl.NSyncPoints }

/-- The loop of `find_next_sync_point`,
`for(i = i0; i < i0 + n; i++) if(SyncPoints[i].ti > ti) return &SyncPoints[i];`:
the index returned, or `none` for `NULL`. -/
def find_next_from (S : Nat → SyncPoint) (ti : Int) : Nat → Nat → Option Nat
  | 0, _ => none
  | n + 1, i => if (S i).ti > ti then some i else find_next_from S ti n (i + 1)

/-- The source's `find_next_sync_point(ti)`: the index of the sync point
returned, or `none` for `NULL`. -/
def find_next_sync_point (tbl : SyncTable) (ti : Int) : Option Nat :=
  find_next_from tbl.SyncPoints ti tbl.NSyncPoints 0

/-- The static array before any write: every field 0. -/
def zero_table : Nat → SyncPoint := fun _ => ⟨0, 0, 0, 0⟩

/-- A strictly increasing stand-in for the logarithm with value 0 at 1. -/
def log0 (x : ℚ) : ℚ := x - 1

/-- A run from `TimeInit = 1/10` to `TimeMax = 1` with the given output times
and no FOF output. -/
def run0 (times : List ℚ) : AllParams where
  TimeInit := 1 / 10
  TimeMax := 1
  OutputListTimes := times
  SnapshotWithFOF := 0

/-- The loop `while(ti_min > dti) ti_min >>= 1;` of `round_down_power_of_two`,
run for at most `fuel` tests of its condition: the value of `ti_min` when the
loop exits, or `none` when the fuel runs out first. -/
def round_down_loop : Nat → Int → Int → Option Int
  | 0, _, _ => none
  | fuel + 1, ti_min, dti =>
    if ti_min > dti then round_down_loop fuel (ti_min >>> (1 : Nat)) dti else some ti_min

/-- The source's `round_down_power_of_two(dti)`: `ti_min` starts at `TIMEBASE`, a
constant of `timebinmgr.h`, and is halved while it is above `dti`. -/
def round_down_power_of_two (fuel : Nat) (TIMEBASE dti : Int) : Option Int :=
  round_down_loop fuel TIMEBASE dti

end TimeBinMgr

namespace Winds

/-! ## Lemmas on the resolver scan -/

/-- The kick block never changes the identifier of a particle. -/
theorem kick_particle_ID (o : Oracle) (wp : WindParams) (Time : ℚ) (dir : Vec3) (k : StarKick)
    (p : Particle) : (kick_particle o wp Time dir k p).ID = p.ID := by
  unfold kick_particle
  simp only []
  split_ifs <;> rfl

/-- The resolver step in terms of `resolved_particle` and `fatal_kick`. -/
theorem resolver_kick_eq (o : Oracle) (wp : WindParams) (Time : ℚ) (st : ScanState)
    (k : StarKick) :
    resolver_kick o wp Time st k =
      if fatal_kick o wp Time st.P k then Except.error 5
      else Except.ok { last_part := (k.part_index : Int), nkicked := st.nkicked + 1,
                       P := Function.update st.P k.part_index
                              (resolved_particle o wp Time st.P k) } := by
  unfold resolver_kick fatal_kick resolved_particle
  simp only [Function.update_same]

/-- The resolver loop is the sequential application of the kept candidates. -/
theorem resolver_loop_eq_apply_kept (o : Oracle) (wp : WindParams) (Time : ℚ)
    (s : List StarKick) :
    ∀ st : ScanState,
      resolver_loop o wp Time st s = apply_kicks o wp Time st (kept_kicks st.last_part s) := by
  induction s with
  | nil => intro st; rfl
  | cons k ks ih =>
    intro st
    by_cases hk : (k.part_index : Int) = st.last_part
    · simp only [resolver_loop, resolver_iter, kept_kicks, hk, if_true]
      exact ih st
    · simp only [resolver_loop, resolver_iter, kept_kicks, hk, if_false, apply_kicks]
      rw [resolver_kick_eq]
      by_cases hf : fatal_kick o wp Time st.P k
      · simp only [hf, if_true]
      · simp only [hf, if_false]
        exact ih _

/-- A kick to another particle changes neither the outcome of candidate `k` nor
whether it is fatal. -/
theorem resolved_particle_update (o : Oracle) (wp : WindParams) (Time : ℚ)
    (P : Nat → Particle) (j : Nat) (p : Particle) (k : StarKick) (h : k.part_index ≠ j) :
    resolved_particle o wp Time (Function.update P j p) k = resolved_particle o wp Time P k := by
  unfold resolved_particle get_wind_dir
  simp only [Function.update_noteq h]

/-- See `resolved_particle_update`. -/
theorem fatal_kick_update (o : Oracle) (wp : WindParams) (Time : ℚ)
    (P : Nat → Particle) (j : Nat) (p : Particle) (k : StarKick) (h : k.part_index ≠ j) :
    fatal_kick o wp Time (Function.update P j p) k ↔ fatal_kick o wp Time P k := by
  unfold fatal_kick
  rw [resolved_particle_update o wp Time P j p k h]

/-- Applying candidates with pairwise distinct targets, none of them fatal:
the run returns, counts every candidate, gives each target the outcome of its
candidate and leaves every other particle alone. -/
theorem apply_kicks_ok (o : Oracle) (wp : WindParams) (Time : ℚ) (L : List StarKick) :
    ∀ st : ScanState, (L.map StarKick.part_index).Nodup →
      (∀ k ∈ L, ¬ fatal_kick o wp Time st.P k) →
      ∃ st1 : ScanState, apply_kicks o wp Time st L = Except.ok st1 ∧
        st1.nkicked = st.nkicked + L.length ∧
        (∀ k ∈ L, st1.P k.part_index = resolved_particle o wp Time st.P k) ∧
        (∀ q : Nat, q ∉ L.map StarKick.part_index → st1.P q = st.P q) := by
  induction L with
  | nil =>
    intro st _ _
    exact ⟨st, rfl, by simp, by simp, by simp⟩
  | cons k ks ih =>
    intro st hnd hnf
    rw [List.map_cons, List.nodup_cons] at hnd
    obtain ⟨hk, hnd1⟩ := hnd
    have hkf : ¬ fatal_kick o wp Time st.P k := hnf k (List.mem_cons_self _ _)
    have hne : ∀ c ∈ ks, c.part_index ≠ k.part_index := by
      intro c hc heq
      exact hk (heq ▸ List.mem_map_of_mem StarKick.part_index hc)
    obtain ⟨st1, h1, h2, h3, h4⟩ :=
      ih { last_part := (k.part_index : Int), nkicked := st.nkicked + 1,
           P := Function.update st.P k.part_index (resolved_particle o wp Time st.P k) }
        hnd1
        (by
          intro c hc
          rw [fatal_kick_update o wp Time st.P _ _ c (hne c hc)]
          exact hnf c (List.mem_cons_of_mem _ hc))
    refine ⟨st1, ?_, ?_, ?_, ?_⟩
    · simp only [apply_kicks]
      rw [resolver_kick_eq]
      simp only [hkf, if_false]
      exact h1
    · rw [h2]
      simp only [List.length_cons]
      push_cast
      ring
    · intro c hc
      rcases List.mem_cons.mp hc with rfl | hc1
      · rw [h4 _ hk]
        simp only [Function.update_same]
      · rw [h3 c hc1]
        exact resolved_particle_update o wp Time st.P _ _ c (hne c hc1)
    · intro q hq
      rw [List.map_cons, List.mem_cons, not_or] at hq
      rw [h4 q hq.2]
      simp only [Function.update_noteq hq.1]

/-- Applying candidates with pairwise distinct targets, one of them fatal: the
run aborts with error 5. -/
theorem apply_kicks_fatal (o : Oracle) (wp : WindParams) (Time : ℚ) (L : List StarKick) :
    ∀ st : ScanState, (L.map StarKick.part_index).Nodup →
      (∃ k ∈ L, fatal_kick o wp Time st.P k) →
      apply_kicks o wp Time st L = Except.error 5 := by
  induction L with
  | nil =>
    intro st _ h
    obtain ⟨k, hk, _⟩ := h
    simp at hk
  | cons k ks ih =>
    intro st hnd hf
    rw [List.map_cons, List.nodup_cons] at hnd
    obtain ⟨hk, hnd1⟩ := hnd
    simp only [apply_kicks]
    rw [resolver_kick_eq]
    by_cases hkf : fatal_kick o wp Time st.P k
    · simp only [hkf, if_true]
    · simp only [hkf, if_false]
      apply ih _ hnd1
      obtain ⟨c, hc, hcf⟩ := hf
      rcases List.mem_cons.mp hc with rfl | hc1
      · exact absurd hcf hkf
      · refine ⟨c, hc1, ?_⟩
        have hne : c.part_index ≠ k.part_index := by
          intro heq
          exact hk (heq ▸ List.mem_map_of_mem StarKick.part_index hc1)
        rw [fatal_kick_update o wp Time st.P _ _ c hne]
        exact hcf

/-! ## Lemmas on the comparator and the kept candidates -/

/-- What `cmp_by_part_id a b ≤ 0` says about the three key fields. -/
theorem cmp_by_part_id_le_iff (a b : StarKick) :
    cmp_by_part_id a b ≤ 0 ↔
      a.part_index < b.part_index ∨
        (a.part_index = b.part_index ∧
          (a.StarDistance < b.StarDistance ∨
            (a.StarDistance = b.StarDistance ∧ a.StarID ≤ b.StarID))) := by
  unfold cmp_by_part_id
  split_ifs with h1 h2 h3 h4 h5 h6
  · constructor
    · intro h; omega
    · rintro (h | ⟨h, _⟩) <;> omega
  · simp [h2]
  · have he : a.part_index = b.part_index := by omega
    constructor
    · intro h; omega
    · rintro (h | ⟨_, h | ⟨h, _⟩⟩)
      · omega
      · exact absurd h (not_lt.mpr h3.le)
      · exact absurd h3 (by rw [h]; exact lt_irrefl _)
  · have he : a.part_index = b.part_index := by omega
    simp [he, h4]
  · have he : a.part_index = b.part_index := by omega
    have hd : a.StarDistance = b.StarDistance := le_antisymm (not_lt.mp h3) (not_lt.mp h4)
    constructor
    · intro h; omega
    · rintro (h | ⟨_, h | ⟨_, h⟩⟩)
      · omega
      · exact absurd h (by rw [hd]; exact lt_irrefl _)
      · omega
  · have he : a.part_index = b.part_index := by omega
    have hd : a.StarDistance = b.StarDistance := le_antisymm (not_lt.mp h3) (not_lt.mp h4)
    simp [he, hd, h6.le]
  · have he : a.part_index = b.part_index := by omega
    have hd : a.StarDistance = b.StarDistance := le_antisymm (not_lt.mp h3) (not_lt.mp h4)
    have hi : a.StarID = b.StarID := by omega
    simp [he, hd, hi]

/-- A candidate never compares above itself. -/
theorem cmp_by_part_id_self (a : StarKick) : cmp_by_part_id a a ≤ 0 := by
  rw [cmp_by_part_id_le_iff]
  exact Or.inr ⟨rfl, Or.inr ⟨rfl, le_refl _⟩⟩

/-- The comparator is transitive. -/
theorem cmp_by_part_id_trans (a b c : StarKick) (hab : cmp_by_part_id a b ≤ 0)
    (hbc : cmp_by_part_id b c ≤ 0) : cmp_by_part_id a c ≤ 0 := by
  rw [cmp_by_part_id_le_iff] at hab hbc ⊢
  rcases hab with h1 | ⟨h1, h2⟩
  · rcases hbc with h3 | ⟨h3, _⟩
    · exact Or.inl (by omega)
    · exact Or.inl (by omega)
  · rcases hbc with h3 | ⟨h3, h4⟩
    · exact Or.inl (by omega)
    · refine Or.inr ⟨by omega, ?_⟩
      rcases h2 with h5 | ⟨h5, h6⟩
      · rcases h4 with h7 | ⟨h7, _⟩
        · exact Or.inl (lt_trans h5 h7)
        · exact Or.inl (h7 ▸ h5)
      · rcases h4 with h7 | ⟨h7, h8⟩
        · exact Or.inl (h5 ▸ h7)
        · exact Or.inr ⟨h5.trans h7, le_trans h6 h8⟩

/-- In a sorted buffer every candidate compares at or below every later one. -/
theorem sortedKicks_pairwise (s : List StarKick) (hs : SortedKicks s) :
    s.Pairwise (fun a b => cmp_by_part_id a b ≤ 0) := by
  haveI : IsTrans StarKick (fun a b => cmp_by_part_id a b ≤ 0) :=
    ⟨cmp_by_part_id_trans⟩
  exact List.chain'_iff_pairwise.mp hs

/-- Every kept candidate is a candidate of the buffer. -/
theorem kept_kicks_subset (s : List StarKick) :
    ∀ (last : Int), ∀ k ∈ kept_kicks last s, k ∈ s := by
  induction s with
  | nil => intro last k hk; simp [kept_kicks] at hk
  | cons a t ih =>
    intro last k hk
    by_cases ha : (a.part_index : Int) = last
    · simp only [kept_kicks, ha, if_true] at hk
      exact List.mem_cons_of_mem _ (ih last k hk)
    · simp only [kept_kicks, ha, if_false, List.mem_cons] at hk
      rcases hk with rfl | hk
      · exact List.mem_cons_self _ _
      · exact List.mem_cons_of_mem _ (ih _ k hk)

/-- On a sorted buffer whose targets are all at least `last`: a kept candidate
has a target other than `last` and compares below every candidate of the same
target; every target other than `last` has a kept candidate; and the targets of
the kept candidates are strictly increasing. -/
theorem kept_kicks_sorted (s : List StarKick) :
    ∀ (last : Int), s.Pairwise (fun a b => cmp_by_part_id a b ≤ 0) →
      (∀ c ∈ s, last ≤ (c.part_index : Int)) →
      (∀ k ∈ kept_kicks last s, (k.part_index : Int) ≠ last ∧
        ∀ c ∈ s, c.part_index = k.part_index → cmp_by_part_id k c ≤ 0) ∧
      (∀ c ∈ s, (c.part_index : Int) ≠ last →
        ∃ k ∈ kept_kicks last s, k.part_index = c.part_index) ∧
      ((kept_kicks last s).map StarKick.part_index).Pairwise (fun x y => x < y) := by
  induction s with
  | nil =>
    intro last _ _
    simp [kept_kicks]
  | cons a t ih =>
    intro last hs hl
    rw [List.pairwise_cons] at hs
    obtain ⟨hat, hst⟩ := hs
    have hle : ∀ c ∈ t, a.part_index ≤ c.part_index := by
      intro c hc
      have := (cmp_by_part_id_le_iff a c).mp (hat c hc)
      omega
    by_cases ha : (a.part_index : Int) = last
    · obtain ⟨h1, h2, h3⟩ := ih last hst (fun c hc => hl c (List.mem_cons_of_mem _ hc))
      simp only [kept_kicks, ha, if_true]
      refine ⟨?_, ?_, h3⟩
      · intro k hk
        refine ⟨(h1 k hk).1, ?_⟩
        intro c hc hck
        rcases List.mem_cons.mp hc with rfl | hc1
        · exfalso
          apply (h1 k hk).1
          rw [← hck]
          exact ha
        · exact (h1 k hk).2 c hc1 hck
      · intro c hc hcl
        rcases List.mem_cons.mp hc with rfl | hc1
        · exact absurd ha hcl
        · exact h2 c hc1 hcl
    · obtain ⟨h1, h2, h3⟩ := ih (a.part_index : Int) hst
        (fun c hc => by exact_mod_cast hle c hc)
      simp only [kept_kicks, ha, if_false]
      refine ⟨?_, ?_, ?_⟩
      · intro k hk
        rcases List.mem_cons.mp hk with rfl | hk1
        · refine ⟨ha, ?_⟩
          intro c hc _
          rcases List.mem_cons.mp hc with rfl | hc1
          · exact cmp_by_part_id_self _
          · exact hat c hc1
        · have hka : (k.part_index : Int) ≠ (a.part_index : Int) := (h1 k hk1).1
          have hkt : k ∈ t := kept_kicks_subset t _ k hk1
          have hkl : last ≤ (k.part_index : Int) := hl k (List.mem_cons_of_mem _ hkt)
          have hal : last ≤ (a.part_index : Int) := hl a (List.mem_cons_self _ _)
          have hak : a.part_index ≤ k.part_index := hle k hkt
          refine ⟨?_, ?_⟩
          · omega
          · intro c hc hck
            rcases List.mem_cons.mp hc with rfl | hc1
            · exfalso
              apply hka
              rw [hck]
            · exact (h1 k hk1).2 c hc1 hck
      · intro c hc _
        rcases List.mem_cons.mp hc with rfl | hc1
        · exact ⟨c, List.mem_cons_self _ _, rfl⟩
        · by_cases hca : (c.part_index : Int) = (a.part_index : Int)
          · exact ⟨a, List.mem_cons_self _ _, by exact_mod_cast hca.symm⟩
          · obtain ⟨k, hk, hkc⟩ := h2 c hc1 hca
            exact ⟨k, List.mem_cons_of_mem _ hk, hkc⟩
      · rw [List.map_cons, List.pairwise_cons]
        refine ⟨?_, h3⟩
        intro y hy
        obtain ⟨k, hk, rfl⟩ := List.mem_map.mp hy
        have hka : (k.part_index : Int) ≠ (a.part_index : Int) := (h1 k hk).1
        have hak : a.part_index ≤ k.part_index := hle k (kept_kicks_subset t _ k hk)
        omega

/-- Two orderings of the same elements that are both sorted by a relation that
is antisymmetric on those elements are the same list. -/
theorem sorted_perm_unique {α : Type} (r : α → α → Prop) :
    ∀ (l1 l2 : List α), l1.Perm l2 → l1.Pairwise r → l2.Pairwise r →
      (∀ a ∈ l1, ∀ b ∈ l1, r a b → r b a → a = b) → l1 = l2 := by
  intro l1
  induction l1 with
  | nil =>
    intro l2 hp _ _ _
    exact hp.nil_eq
  | cons a t ih =>
    intro l2 hp h1 h2 has
    cases l2 with
    | nil => exact absurd hp.eq_nil (List.cons_ne_nil _ _)
    | cons b u =>
      have hab : a = b := by
        have ha : a ∈ b :: u := hp.subset (List.mem_cons_self _ _)
        have hb : b ∈ a :: t := hp.symm.subset (List.mem_cons_self _ _)
        rcases List.mem_cons.mp ha with h | h
        · exact h
        · rcases List.mem_cons.mp hb with h3 | h3
          · exact h3.symm
          · exact has a (List.mem_cons_self _ _) b hb ((List.pairwise_cons.mp h1).1 b h3)
              ((List.pairwise_cons.mp h2).1 a h)
      subst hab
      congr 1
      exact ih u hp.cons_inv (List.pairwise_cons.mp h1).2 (List.pairwise_cons.mp h2).2
        (fun x hx y hy => has x (List.mem_cons_of_mem _ hx) y (List.mem_cons_of_mem _ hy))

/-- A run of `apply_kicks` that returns has counted every candidate. -/
theorem apply_kicks_nkicked (o : Oracle) (wp : WindParams) (Time : ℚ) (L : List StarKick) :
    ∀ st st1 : ScanState, apply_kicks o wp Time st L = Except.ok st1 →
      st1.nkicked = st.nkicked + L.length := by
  induction L with
  | nil =>
    intro st st1 h
    simp only [apply_kicks, Except.ok.injEq] at h
    subst h
    simp
  | cons k ks ih =>
    intro st st1 h
    simp only [apply_kicks] at h
    rw [resolver_kick_eq] at h
    by_cases hkf : fatal_kick o wp Time st.P k
    · simp [hkf] at h
    · simp only [hkf, if_false] at h
      rw [ih _ _ h]
      simp only [List.length_cons]
      push_cast
      ring

/-- The resolver scan on a sorted buffer: the kept candidates have pairwise
distinct targets. -/
theorem kept_kicks_nodup (s : List StarKick) (hs : SortedKicks s) :
    ((kept_kicks (-1) s).map StarKick.part_index).Nodup := by
  have h := (kept_kicks_sorted s (-1) (sortedKicks_pairwise s hs) (fun c _ => by omega)).2.2
  exact h.imp (fun hxy => Nat.ne_of_lt hxy)

/-- The resolver scan on a sorted buffer none of whose kept candidates is fatal
returns, with every kept candidate applied to its target exactly as computed from
the initial particle table, and every other particle untouched. -/
theorem resolver_scan_ok (o : Oracle) (wp : WindParams) (Time : ℚ) (P : Nat → Particle)
    (s : List StarKick) (hs : SortedKicks s)
    (hnf : ∀ k ∈ kept_kicks (-1) s, ¬ fatal_kick o wp Time P k) :
    ∃ st1 : ScanState, resolver_scan o wp Time P s = Except.ok st1 ∧
      st1.nkicked = (kept_kicks (-1) s).length ∧
      (∀ k ∈ kept_kicks (-1) s, st1.P k.part_index = resolved_particle o wp Time P k) ∧
      (∀ q : Nat, q ∉ (kept_kicks (-1) s).map StarKick.part_index → st1.P q = P q) := by
  obtain ⟨st1, h1, h2, h3, h4⟩ :=
    apply_kicks_ok o wp Time (kept_kicks (-1) s) { last_part := -1, nkicked := 0, P := P }
      (kept_kicks_nodup s hs) hnf
  refine ⟨st1, ?_, ?_, h3, h4⟩
  · unfold resolver_scan
    rw [resolver_loop_eq_apply_kept]
    exact h1
  · rw [h2]
    simp

/-- The resolver scan on a sorted buffer one of whose kept candidates is fatal
aborts with error 5. -/
theorem resolver_scan_fatal (o : Oracle) (wp : WindParams) (Time : ℚ) (P : Nat → Particle)
    (s : List StarKick) (hs : SortedKicks s)
    (hf : ∃ k ∈ kept_kicks (-1) s, fatal_kick o wp Time P k) :
    resolver_scan o wp Time P s = Except.error 5 := by
  unfold resolver_scan
  rw [resolver_loop_eq_apply_kept]
  exact apply_kicks_fatal o wp Time (kept_kicks (-1) s) { last_part := -1, nkicked := 0, P := P }
    (kept_kicks_nodup s hs) hf

/-- A resolver scan on a sorted buffer that returns had no fatal kept candidate. -/
theorem resolver_scan_ok_not_fatal (o : Oracle) (wp : WindParams) (Time : ℚ)
    (P : Nat → Particle) (s : List StarKick) (hs : SortedKicks s) (st1 : ScanState)
    (h : resolver_scan o wp Time P s = Except.ok st1) :
    ∀ k ∈ kept_kicks (-1) s, ¬ fatal_kick o wp Time P k := by
  intro k hk hf
  rw [resolver_scan_fatal o wp Time P s hs ⟨k, hk, hf⟩] at h
  cases h

/-- Candidates compare as equal or below each other both ways only if they agree
on the three key fields. -/
theorem cmp_by_part_id_antisymm_key (a b : StarKick) (hab : cmp_by_part_id a b ≤ 0)
    (hba : cmp_by_part_id b a ≤ 0) : a.key = b.key := by
  rw [cmp_by_part_id_le_iff] at hab hba
  have hp : a.part_index = b.part_index := by
    rcases hab with h | ⟨h, _⟩
    · rcases hba with h2 | ⟨h2, _⟩ <;> omega
    · exact h
  have hab2 : a.StarDistance < b.StarDistance ∨
      (a.StarDistance = b.StarDistance ∧ a.StarID ≤ b.StarID) := by
    rcases hab with h | ⟨_, h⟩
    · omega
    · exact h
  have hba2 : b.StarDistance < a.StarDistance ∨
      (b.StarDistance = a.StarDistance ∧ b.StarID ≤ a.StarID) := by
    rcases hba with h | ⟨_, h⟩
    · omega
    · exact h
  have hd : a.StarDistance = b.StarDistance := by
    rcases hab2 with h | ⟨h, _⟩
    · rcases hba2 with h2 | ⟨h2, _⟩
      · exact absurd h (not_lt.mpr h2.le)
      · exact h2.symm
    · exact h
  have hi : a.StarID = b.StarID := by
    rcases hab2 with h | ⟨_, h⟩
    · exact absurd hd (ne_of_lt h)
    · rcases hba2 with h2 | ⟨_, h2⟩
      · exact absurd hd.symm (ne_of_lt h2)
      · omega
  simp only [StarKick.key, hp, hd, hi]

/-- Whether one candidate compares at or below another depends on the key fields
only. -/
theorem cmp_by_part_id_le_key (a b c d : StarKick) (hac : a.key = c.key) (hbd : b.key = d.key) :
    cmp_by_part_id a b ≤ 0 ↔ cmp_by_part_id c d ≤ 0 := by
  simp only [StarKick.key, Prod.mk.injEq] at hac hbd
  obtain ⟨h1, h2, h3⟩ := hac
  obtain ⟨h4, h5, h6⟩ := hbd
  rw [cmp_by_part_id_le_iff, cmp_by_part_id_le_iff, h1, h2, h3, h4, h5, h6]

/-- Two sorted orderings of the same buffer carry the same keys at every
position. -/
theorem sorted_keys_unique (s1 s2 : List StarKick) (hp : s1.Perm s2) (hs1 : SortedKicks s1)
    (hs2 : SortedKicks s2) : s1.map StarKick.key = s2.map StarKick.key := by
  have hrel : ∀ s : List StarKick, SortedKicks s →
      (s.map StarKick.key).Pairwise
        (fun x y => ∀ a b : StarKick, a.key = x → b.key = y → cmp_by_part_id a b ≤ 0) := by
    intro s hs
    rw [List.pairwise_map]
    exact (sortedKicks_pairwise s hs).imp
      (fun {a b} hab c d hc hd => (cmp_by_part_id_le_key c d a b hc hd).mpr hab)
  apply sorted_perm_unique _ _ _ (hp.map _) (hrel s1 hs1) (hrel s2 hs2)
  intro x hx y hy hxy hyx
  obtain ⟨a, _, rfl⟩ := List.mem_map.mp hx
  obtain ⟨b, _, rfl⟩ := List.mem_map.mp hy
  exact cmp_by_part_id_antisymm_key a b (hxy a b rfl rfl) (hyx b a rfl rfl)

/-- The keys of the kept candidates depend on the keys of the buffer only. -/
theorem kept_kicks_map_key (s1 : List StarKick) :
    ∀ (s2 : List StarKick) (last : Int), s1.map StarKick.key = s2.map StarKick.key →
      (kept_kicks last s1).map StarKick.key = (kept_kicks last s2).map StarKick.key := by
  induction s1 with
  | nil =>
    intro s2 last h
    cases s2 with
    | nil => rfl
    | cons b u => simp at h
  | cons a t ih =>
    intro s2 last h
    cases s2 with
    | nil => simp at h
    | cons b u =>
      simp only [List.map_cons, List.cons.injEq] at h
      obtain ⟨hab, htu⟩ := h
      have hpi : a.part_index = b.part_index := by
        simp only [StarKick.key, Prod.mk.injEq] at hab
        exact hab.1
      by_cases ha : (a.part_index : Int) = last
      · have hb : (b.part_index : Int) = last := by rw [← hpi]; exact ha
        simp only [kept_kicks, ha, hb, if_true]
        exact ih u last htu
      · have hb : ¬ (b.part_index : Int) = last := by rw [← hpi]; exact ha
        simp only [kept_kicks, ha, hb, if_false, List.map_cons, hab, hpi]
        rw [ih u _ htu]

/-- The example buffer in sorted order. -/
theorem example_sorted : SortedKicks [kickD, kickB, kickC, kickA] := by
  unfold SortedKicks
  simp only [List.chain'_cons, List.chain'_singleton, and_true]
  norm_num [cmp_by_part_id, kickA, kickB, kickC, kickD]

/-! ## Lemmas on the feedback callback -/

/-- The speed floor `if(v < m) v = m` is the maximum of the two. -/
theorem speed_floor_eq_max (v m : ℚ) : (if v < m then m else v) = max v m := by
  by_cases h : v < m
  · rw [if_pos h, max_eq_right h.le]
  · rw [if_neg h, max_eq_left (not_lt.mp h)]

/-- The feedback callback on a visited neighbour under one of the two wind
models, written with the efficiency and the speed of the claim. -/
theorem sfr_wind_feedback_ngbiter_eq (o : Oracle) (wp : WindParams) (P : Nat → Particle)
    (I : TreeWalkQueryWind) (iter : TreeWalkNgbIterWind) (priv : WindPriv)
    (hne : ¬ iter.other = -1)
    (hmodel : HAS wp.WindModel WIND_FIXED_EFFICIENCY = true ∨
      HAS wp.WindModel WIND_USE_HALO = true) :
    sfr_wind_feedback_ngbiter o wp P I iter priv =
      if iter.r > I.Hsml then Except.ok (iter, priv)
      else if (P iter.other.toNat).DelayTime > 0 then Except.ok (iter, priv)
      else if I.TotalWeight = 0 ∨ I.Vdisp ≤ 0 then Except.ok (iter, priv)
      else if (P iter.other.toNat).Type_ ≠ 0 ∨ (P iter.other.toNat).IsGarbage = true ∨
          (P iter.other.toNat).Swallowed = true then
        Except.ok (iter, priv)
      else if o.get_random_number (idplus I.ID (P iter.other.toNat).ID) <
            spec_wind_efficiency o wp priv.Time I * I.Mass / I.TotalWeight ∧
          max (spec_model_speed wp priv.Time I) (wp.MinWindVelocity * priv.Time) > 0 then
        if priv.nkicks ≥ priv.maxkicks then Except.error 5
        else
          Except.ok (iter,
            { priv with
              nkicks := priv.nkicks + 1
              kicks := Function.update priv.kicks priv.nkicks
                { part_index := iter.other.toNat, StarDistance := iter.r, StarID := I.ID,
                  StarKickVelocity :=
                    max (spec_model_speed wp priv.Time I) (wp.MinWindVelocity * priv.Time),
                  StarTherm := wp.WindThermalFactor * (3 / 2) * I.Vdisp * I.Vdisp } })
      else Except.ok (iter, priv) := by
  unfold sfr_wind_feedback_ngbiter spec_wind_efficiency spec_model_speed
  simp only [hne, if_false]
  by_cases hfix : HAS wp.WindModel WIND_FIXED_EFFICIENCY = true
  · simp only [hfix, if_true, speed_floor_eq_max]
  · have hhalo : HAS wp.WindModel WIND_USE_HALO = true := by
      rcases hmodel with h | h
      · exact absurd h hfix
      · exact h
    have hfix1 : HAS wp.WindModel WIND_FIXED_EFFICIENCY = false := by
      simpa using hfix
    simp only [hfix1, hhalo, Bool.false_eq_true, if_true, if_false, speed_floor_eq_max]

/-- The feedback callback run on the example query: fixed-efficiency model,
neighbour 3 at distance 5, draw 1/4 below the probability 1/2. -/
theorem feedback_example_run :
    sfr_wind_feedback_ngbiter oracle0 (params0 8) (fun _ => gas0 5 0) query0 (iter0 5)
      (priv0 4) = Except.ok (iter0 5, priv0_appended) := by
  have hfix : HAS (params0 8).WindModel WIND_FIXED_EFFICIENCY = true := by decide
  rw [sfr_wind_feedback_ngbiter_eq oracle0 (params0 8) (fun _ => gas0 5 0) query0 (iter0 5)
    (priv0 4) (by decide) (Or.inl hfix)]
  unfold spec_wind_efficiency spec_model_speed priv0_appended
  rw [if_pos hfix, if_pos hfix]
  norm_num [iter0, query0, gas0, oracle0, params0, priv0]
  rfl

/-! ## Lemmas on the trial radii -/

/-- The trial radius in terms of the effective bounds, for a `pow` that is exact
on the exponent 3. -/
theorem effdmradius_eq (o : Oracle) (BoxSize : ℚ) (w : winddata) (i : Nat)
    (hpow3 : ∀ x : ℚ, o.pow x 3 = x ^ 3) :
    effdmradius o BoxSize w i =
      o.pow (eff_left w ^ 3 +
        ((i : ℚ) + 1) / ((NWINDHSML : ℚ) + 1) *
          (eff_right BoxSize w ^ 3 - eff_left w ^ 3)) (1 / 3) := by
  unfold effdmradius eff_left eff_right
  simp only [hpow3, one_mul]
  congr 1
  ring

/-- The interpolated volume grows with the index when the bounds are in order. -/
theorem trial_volume_strict_mono (l r : ℚ) (i j : Nat) (h0 : 0 ≤ l) (hlr : l < r)
    (hij : i < j) :
    l ^ 3 + ((i : ℚ) + 1) / ((NWINDHSML : ℚ) + 1) * (r ^ 3 - l ^ 3) <
      l ^ 3 + ((j : ℚ) + 1) / ((NWINDHSML : ℚ) + 1) * (r ^ 3 - l ^ 3) := by
  have hcube : l ^ 3 < r ^ 3 := pow_lt_pow_left₀ hlr h0 (by norm_num)
  have hpos : 0 < r ^ 3 - l ^ 3 := by linarith
  have hK : (0 : ℚ) < (NWINDHSML : ℚ) + 1 := by
    have : (0 : ℚ) ≤ (NWINDHSML : ℚ) := Nat.cast_nonneg _
    linarith
  have hfrac : ((i : ℚ) + 1) / ((NWINDHSML : ℚ) + 1) <
      ((j : ℚ) + 1) / ((NWINDHSML : ℚ) + 1) := by
    apply div_lt_div_of_pos_right _ hK
    have : (i : ℚ) < (j : ℚ) := by exact_mod_cast hij
    linarith
  have := mul_lt_mul_of_pos_right hfrac hpos
  linarith

/-- The interpolated volume is not negative when the bounds are in order. -/
theorem trial_volume_nonneg (l r : ℚ) (i : Nat) (h0 : 0 ≤ l) (hlr : l < r) :
    0 ≤ l ^ 3 + ((i : ℚ) + 1) / ((NWINDHSML : ℚ) + 1) * (r ^ 3 - l ^ 3) := by
  have hcube : l ^ 3 < r ^ 3 := pow_lt_pow_left₀ hlr h0 (by norm_num)
  have hl3 : 0 ≤ l ^ 3 := pow_nonneg h0 3
  have hfrac : 0 ≤ ((i : ℚ) + 1) / ((NWINDHSML : ℚ) + 1) := by
    apply div_nonneg
    · have : (0 : ℚ) ≤ (i : ℚ) := Nat.cast_nonneg _
      linarith
    · have : (0 : ℚ) ≤ (NWINDHSML : ℚ) := Nat.cast_nonneg _
      linarith
  have := mul_nonneg hfrac (by linarith : (0 : ℚ) ≤ r ^ 3 - l ^ 3)
  linarith

/-! ## Lemmas on the sizing of the kick buffer -/

/-- The weight callback on a visited neighbour `n`: the mask is kept; the search
radius is kept or clamped to one of the trial radii; and the visit counter of the
thread goes up by one exactly for a gas neighbour within the smoothing length of
the star without a positive timer. -/
theorem weight_ngbiter_visit (P : Nat → Particle) (I : TreeWalkQueryWind)
    (O : TreeWalkResultWind) (iter : TreeWalkNgbIterWind) (priv : WindPriv) (tid n : Nat)
    (hother : iter.other = (n : Int)) :
    ∃ (O1 : TreeWalkResultWind) (iter1 : TreeWalkNgbIterWind),
      sfr_wind_weight_ngbiter P I O iter priv tid =
        (O1, iter1,
          { priv with
            nvisited :=
              if (P n).Type_ = 0 ∧ iter.r ≤ I.Hsml ∧ ¬ (P n).DelayTime > 0 then
                Function.update priv.nvisited tid (wrap_int (priv.nvisited tid + 1))
              else priv.nvisited }) ∧
      iter1.mask = iter.mask ∧
      (iter1.Hsml = iter.Hsml ∨ ∃ i : Nat, i < NWINDHSML ∧ iter1.Hsml = I.DMRadius i) := by
  have hne : ¬ iter.other = -1 := by
    rw [hother]
    omega
  have htn : iter.other.toNat = n := by
    rw [hother]
    simp
  unfold sfr_wind_weight_ngbiter
  simp only [hne, if_false, htn]
  by_cases hcond : (P n).Type_ = 0 ∧ iter.r ≤ I.Hsml ∧ ¬ (P n).DelayTime > 0
  · rw [if_pos hcond]
    obtain ⟨ht, hr, hd⟩ := hcond
    have hr1 : ¬ iter.r > I.Hsml := not_lt.mpr hr
    have ht1 : ¬ (P n).Type_ = 1 := by omega
    rw [if_pos ht, if_neg hr1, if_neg hd]
    simp only [ht1, if_false]
    split
    · next i hf =>
      exact ⟨_, _, rfl, rfl,
        Or.inr ⟨i, List.mem_range.mp (List.mem_of_find?_eq_some hf), rfl⟩⟩
    · exact ⟨_, _, rfl, rfl, Or.inl rfl⟩
  · rw [if_neg hcond]
    by_cases ht : (P n).Type_ = 0
    · rw [if_pos ht]
      by_cases hr : iter.r > I.Hsml
      · rw [if_pos hr]
        exact ⟨O, iter, rfl, rfl, Or.inl rfl⟩
      · rw [if_neg hr]
        have hd : (P n).DelayTime > 0 := by
          by_contra hd
          exact hcond ⟨ht, not_lt.mp hr, hd⟩
        rw [if_pos hd]
        exact ⟨O, iter, rfl, rfl, Or.inl rfl⟩
    · rw [if_neg ht]
      by_cases ht1 : (P n).Type_ = 1
      · simp only [ht1, if_true]
        split
        · next i hf =>
          exact ⟨_, _, rfl, rfl,
            Or.inr ⟨i, List.mem_range.mp (List.mem_of_find?_eq_some hf), rfl⟩⟩
        · exact ⟨_, _, rfl, rfl, Or.inl rfl⟩
      · simp only [ht1, if_false]
        split
        · next i hf =>
          exact ⟨_, _, rfl, rfl,
            Or.inr ⟨i, List.mem_range.mp (List.mem_of_find?_eq_some hf), rfl⟩⟩
        · exact ⟨_, _, rfl, rfl, Or.inl rfl⟩

/-- Counting one more candidate. -/
theorem eligible_gas_cons (P : Nat → Particle) (Hsml : ℚ) (c : Candidate)
    (cs : List Candidate) :
    eligible_gas P Hsml (c :: cs) =
      eligible_gas P Hsml cs +
        (if (P c.other).Type_ = 0 ∧ c.r ≤ Hsml ∧ ¬ (P c.other).DelayTime > 0 then 1 else 0) := by
  unfold eligible_gas
  rw [List.countP_cons]
  simp only [decide_eq_true_eq]

/-- A value within the range of a C `int` is not changed by wrapping. -/
theorem wrap_int_of_range (x : Int) (h0 : -2147483648 ≤ x) (h1 : x < 2147483648) :
    wrap_int x = x := by
  unfold wrap_int
  omega

/-- A walk with the weight callback whose trial radii are all at least the
smoothing length of the star, started with a counter of the thread that is not
negative and far enough below 2^31: the walk returns, and the visit counter of
the thread has grown by the number of eligible gas neighbours among the
candidates, whatever the order in which the search radius was clamped. -/
theorem weight_walk_count (P : Nat → Particle) (I : TreeWalkQueryWind) (tid : Nat)
    (hrad : ∀ i : Nat, i < NWINDHSML → I.Hsml ≤ I.DMRadius i) :
    ∀ (cands : List Candidate) (iter : TreeWalkNgbIterWind) (O : TreeWalkResultWind)
      (priv : WindPriv), iter.mask = 3 → I.Hsml ≤ iter.Hsml →
      0 ≤ priv.nvisited tid →
      priv.nvisited tid + (eligible_gas P I.Hsml cands : Int) < 2147483648 →
      ∃ (O1 : TreeWalkResultWind) (priv1 : WindPriv),
        treewalk_visit P (weight_callback P I tid) iter cands (O, priv) =
          Except.ok (O1, priv1) ∧
        priv1.nvisited =
          Function.update priv.nvisited tid
            (priv.nvisited tid + (eligible_gas P I.Hsml cands : Int)) := by
  intro cands
  induction cands with
  | nil =>
    intro iter O priv _ _ _ _
    refine ⟨O, priv, rfl, ?_⟩
    simp [eligible_gas]
  | cons c cs ih =>
    intro iter O priv hmask hH h0 hlt
    rw [eligible_gas_cons] at hlt ⊢
    by_cases hvis : (1 <<< (P c.other).Type_) &&& iter.mask ≠ 0 ∧ c.r ≤ iter.Hsml
    · obtain ⟨O1, iter1, e1, hm1, hH1⟩ :=
        weight_ngbiter_visit P I O
          { iter with other := (c.other : Int), r := c.r, dist := c.dist } priv tid c.other rfl
      have hH2 : I.Hsml ≤ iter1.Hsml := by
        rcases hH1 with h | ⟨i, hi, h⟩
        · rw [h]
          exact hH
        · rw [h]
          exact hrad i hi
      by_cases hel : (P c.other).Type_ = 0 ∧ c.r ≤ I.Hsml ∧ ¬ (P c.other).DelayTime > 0
      · have hel1 : (P c.other).Type_ = 0 ∧
            ({ iter with other := (c.other : Int), r := c.r, dist := c.dist } :
              TreeWalkNgbIterWind).r ≤ I.Hsml ∧ ¬ (P c.other).DelayTime > 0 := hel
        rw [if_pos hel1] at e1
        rw [if_pos hel] at hlt ⊢
        push_cast at hlt ⊢
        have hw : wrap_int (priv.nvisited tid + 1) = priv.nvisited tid + 1 :=
          wrap_int_of_range _ (by omega) (by omega)
        rw [hw] at e1
        obtain ⟨O2, priv2, e2, hn2⟩ := ih iter1 O1
          { priv with
            nvisited := Function.update priv.nvisited tid (priv.nvisited tid + 1) }
          (hm1.trans hmask) hH2
          (by
            show 0 ≤ Function.update priv.nvisited tid (priv.nvisited tid + 1) tid
            rw [Function.update_same]
            omega)
          (by
            show Function.update priv.nvisited tid (priv.nvisited tid + 1) tid +
              (eligible_gas P I.Hsml cs : Int) < 2147483648
            rw [Function.update_same]
            omega)
        refine ⟨O2, priv2, ?_, ?_⟩
        · rw [treewalk_visit, if_pos hvis]
          simp only [weight_callback, e1]
          exact e2
        · rw [hn2]
          simp only [Function.update_same, Function.update_idem]
          have harith : priv.nvisited tid + 1 + (eligible_gas P I.Hsml cs : Int) =
              priv.nvisited tid + ((eligible_gas P I.Hsml cs : Int) + 1) := by omega
          rw [harith]
      · have hel1 : ¬ ((P c.other).Type_ = 0 ∧
            ({ iter with other := (c.other : Int), r := c.r, dist := c.dist } :
              TreeWalkNgbIterWind).r ≤ I.Hsml ∧ ¬ (P c.other).DelayTime > 0) := hel
        rw [if_neg hel1] at e1
        rw [if_neg hel] at hlt ⊢
        obtain ⟨O2, priv2, e2, hn2⟩ := ih iter1 O1 priv (hm1.trans hmask) hH2 h0
          (by simpa using hlt)
        refine ⟨O2, priv2, ?_, ?_⟩
        · rw [treewalk_visit, if_pos hvis]
          simp only [weight_callback, e1]
          exact e2
        · rw [hn2]
          simp
    · have hel : ¬ ((P c.other).Type_ = 0 ∧ c.r ≤ I.Hsml ∧ ¬ (P c.other).DelayTime > 0) := by
        rintro ⟨ht, hr, _⟩
        apply hvis
        refine ⟨?_, le_trans hr hH⟩
        rw [ht, hmask]
        decide
      rw [if_neg hel] at hlt ⊢
      obtain ⟨O2, priv2, e2, hn2⟩ := ih iter O priv hmask hH h0 (by simpa using hlt)
      refine ⟨O2, priv2, ?_, ?_⟩
      · rw [treewalk_visit, if_neg hvis]
        exact e2
      · rw [hn2]
        simp

/-- A query with the weight callback whose trial radii are all at least the
smoothing length of the star: see `weight_walk_count`. -/
theorem weight_query_count (P : Nat → Particle) (I : TreeWalkQueryWind) (tid : Nat)
    (hrad : ∀ i : Nat, i < NWINDHSML → I.Hsml ≤ I.DMRadius i)
    (cands : List Candidate) (O : TreeWalkResultWind) (priv : WindPriv)
    (h0 : 0 ≤ priv.nvisited tid)
    (hlt : priv.nvisited tid + (eligible_gas P I.Hsml cands : Int) < 2147483648) :
    ∃ (O1 : TreeWalkResultWind) (priv1 : WindPriv),
      treewalk_query P (weight_callback P I tid) cands (O, priv) = Except.ok (O1, priv1) ∧
      priv1.nvisited =
        Function.update priv.nvisited tid
          (priv.nvisited tid + (eligible_gas P I.Hsml cands : Int)) := by
  unfold treewalk_query
  simp only [weight_callback, sfr_wind_weight_ngbiter, if_true]
  apply weight_walk_count P I tid hrad
  · rfl
  · unfold DMAX
    split_ifs with h
    · exact le_refl _
    · exact hrad (NWINDHSML - 1) (by decide)
  · exact h0
  · exact hlt

/-- The feedback callback on a visited neighbour `n`: it either changes nothing,
or the neighbour is an eligible gas neighbour and the callback appends a
candidate, aborts for want of room, or aborts on an unknown wind model. -/
theorem feedback_visit_outcome (o : Oracle) (wp : WindParams) (P : Nat → Particle)
    (I : TreeWalkQueryWind) (iter : TreeWalkNgbIterWind) (priv : WindPriv) (n : Nat)
    (hother : iter.other = (n : Int)) :
    sfr_wind_feedback_ngbiter o wp P I iter priv = Except.ok (iter, priv) ∨
    (((P n).Type_ = 0 ∧ iter.r ≤ I.Hsml ∧ ¬ (P n).DelayTime > 0) ∧
      ((¬ (HAS wp.WindModel WIND_FIXED_EFFICIENCY = true ∨
            HAS wp.WindModel WIND_USE_HALO = true) ∧
          sfr_wind_feedback_ngbiter o wp P I iter priv = Except.error 1) ∨
        (priv.nkicks ≥ priv.maxkicks ∧
          sfr_wind_feedback_ngbiter o wp P I iter priv = Except.error 5) ∨
        (priv.nkicks < priv.maxkicks ∧
          ∃ k : StarKick, sfr_wind_feedback_ngbiter o wp P I iter priv =
            Except.ok (iter,
              { priv with nkicks := priv.nkicks + 1
                          kicks := Function.update priv.kicks priv.nkicks k })))) := by
  have hne : ¬ iter.other = -1 := by
    rw [hother]
    omega
  have htn : iter.other.toNat = n := by
    rw [hother]
    simp
  by_cases hmodel : HAS wp.WindModel WIND_FIXED_EFFICIENCY = true ∨
      HAS wp.WindModel WIND_USE_HALO = true
  · rw [sfr_wind_feedback_ngbiter_eq o wp P I iter priv hne hmodel, htn]
    by_cases c1 : iter.r > I.Hsml
    · rw [if_pos c1]
      exact Or.inl rfl
    · rw [if_neg c1]
      by_cases c2 : (P n).DelayTime > 0
      · rw [if_pos c2]
        exact Or.inl rfl
      · rw [if_neg c2]
        by_cases c3 : I.TotalWeight = 0 ∨ I.Vdisp ≤ 0
        · rw [if_pos c3]
          exact Or.inl rfl
        · rw [if_neg c3]
          by_cases c4 : (P n).Type_ ≠ 0 ∨ (P n).IsGarbage = true ∨ (P n).Swallowed = true
          · rw [if_pos c4]
            exact Or.inl rfl
          · rw [if_neg c4]
            push_neg at c4
            by_cases c5 : o.get_random_number (idplus I.ID (P n).ID) <
                spec_wind_efficiency o wp priv.Time I * I.Mass / I.TotalWeight ∧
                max (spec_model_speed wp priv.Time I) (wp.MinWindVelocity * priv.Time) > 0
            · rw [if_pos c5]
              right
              refine ⟨⟨c4.1, not_lt.mp c1, c2⟩, ?_⟩
              by_cases c6 : priv.nkicks ≥ priv.maxkicks
              · rw [if_pos c6]
                exact Or.inr (Or.inl ⟨c6, rfl⟩)
              · rw [if_neg c6]
                exact Or.inr (Or.inr ⟨not_le.mp c6, _, rfl⟩)
            · rw [if_neg c5]
              exact Or.inl rfl
  · have hfix : HAS wp.WindModel WIND_FIXED_EFFICIENCY = false := by
      cases h : HAS wp.WindModel WIND_FIXED_EFFICIENCY
      · rfl
      · exact absurd (Or.inl h) hmodel
    have hhalo : HAS wp.WindModel WIND_USE_HALO = false := by
      cases h : HAS wp.WindModel WIND_USE_HALO
      · rfl
      · exact absurd (Or.inr h) hmodel
    have hres : sfr_wind_feedback_ngbiter o wp P I iter priv =
        if iter.r > I.Hsml then Except.ok (iter, priv)
        else if (P n).DelayTime > 0 then Except.ok (iter, priv)
        else if I.TotalWeight = 0 ∨ I.Vdisp ≤ 0 then Except.ok (iter, priv)
        else if (P n).Type_ ≠ 0 ∨ (P n).IsGarbage = true ∨ (P n).Swallowed = true then
          Except.ok (iter, priv)
        else Except.error 1 := by
      unfold sfr_wind_feedback_ngbiter
      simp only [hne, if_false, htn, hfix, hhalo, Bool.false_eq_true]
    rw [hres]
    by_cases c1 : iter.r > I.Hsml
    · rw [if_pos c1]
      exact Or.inl rfl
    · rw [if_neg c1]
      by_cases c2 : (P n).DelayTime > 0
      · rw [if_pos c2]
        exact Or.inl rfl
      · rw [if_neg c2]
        by_cases c3 : I.TotalWeight = 0 ∨ I.Vdisp ≤ 0
        · rw [if_pos c3]
          exact Or.inl rfl
        · rw [if_neg c3]
          by_cases c4 : (P n).Type_ ≠ 0 ∨ (P n).IsGarbage = true ∨ (P n).Swallowed = true
          · rw [if_pos c4]
            exact Or.inl rfl
          · rw [if_neg c4]
            push_neg at c4
            exact Or.inr ⟨⟨c4.1, not_lt.mp c1, c2⟩, Or.inl ⟨hmodel, rfl⟩⟩

/-- A walk with the feedback callback: with room in the buffer for every
eligible gas neighbour among the candidates, the walk aborts only on an unknown
wind model; otherwise it returns, has appended at most that many candidates, and
has left the capacity as it was. -/
theorem feedback_walk_bound (o : Oracle) (wp : WindParams) (P : Nat → Particle)
    (I : TreeWalkQueryWind) :
    ∀ (cands : List Candidate) (iter : TreeWalkNgbIterWind) (priv : WindPriv),
      priv.nkicks + eligible_gas P I.Hsml cands ≤ priv.maxkicks →
      (¬ (HAS wp.WindModel WIND_FIXED_EFFICIENCY = true ∨
            HAS wp.WindModel WIND_USE_HALO = true) ∧
        treewalk_visit P (fun it s => sfr_wind_feedback_ngbiter o wp P I it s) iter cands priv =
          Except.error 1) ∨
      ∃ priv1 : WindPriv,
        treewalk_visit P (fun it s => sfr_wind_feedback_ngbiter o wp P I it s) iter cands priv =
          Except.ok priv1 ∧
        priv1.nkicks ≤ priv.nkicks + eligible_gas P I.Hsml cands ∧
        priv1.maxkicks = priv.maxkicks ∧ priv1.nvisited = priv.nvisited := by
  intro cands
  induction cands with
  | nil =>
    intro iter priv _
    exact Or.inr ⟨priv, rfl, Nat.le_add_right _ _, rfl, rfl⟩
  | cons c cs ih =>
    intro iter priv hroom
    rw [eligible_gas_cons] at hroom ⊢
    have hstay : ∀ it : TreeWalkNgbIterWind,
        (¬ (HAS wp.WindModel WIND_FIXED_EFFICIENCY = true ∨
              HAS wp.WindModel WIND_USE_HALO = true) ∧
          treewalk_visit P (fun it s => sfr_wind_feedback_ngbiter o wp P I it s) it cs priv =
            Except.error 1) ∨
        ∃ priv1 : WindPriv,
          treewalk_visit P (fun it s => sfr_wind_feedback_ngbiter o wp P I it s) it cs priv =
            Except.ok priv1 ∧
          priv1.nkicks ≤ priv.nkicks + (eligible_gas P I.Hsml cs +
            (if (P c.other).Type_ = 0 ∧ c.r ≤ I.Hsml ∧ ¬ (P c.other).DelayTime > 0 then 1
             else 0)) ∧
          priv1.maxkicks = priv.maxkicks ∧ priv1.nvisited = priv.nvisited := by
      intro it
      rcases ih it priv (by omega) with herr | ⟨priv1, e1, h1, h2⟩
      · exact Or.inl herr
      · exact Or.inr ⟨priv1, e1, by omega, h2⟩
    by_cases hvis : (1 <<< (P c.other).Type_) &&& iter.mask ≠ 0 ∧ c.r ≤ iter.Hsml
    · rw [treewalk_visit, if_pos hvis]
      rcases feedback_visit_outcome o wp P I
          { iter with other := (c.other : Int), r := c.r, dist := c.dist } priv c.other rfl
          with hsame | ⟨hel, ⟨hno, herr⟩ | hfull | ⟨hlt, k, happ⟩⟩
      · simp only [hsame]
        exact hstay _
      · simp only [herr]
        exact Or.inl ⟨hno, trivial⟩
      · exfalso
        have hel1 : (P c.other).Type_ = 0 ∧ c.r ≤ I.Hsml ∧ ¬ (P c.other).DelayTime > 0 := hel
        rw [if_pos hel1] at hroom
        have := hfull.1
        omega
      · have hel1 : (P c.other).Type_ = 0 ∧ c.r ≤ I.Hsml ∧ ¬ (P c.other).DelayTime > 0 := hel
        rw [if_pos hel1] at hroom ⊢
        simp only [happ]
        rcases ih
          { iter with other := (c.other : Int), r := c.r, dist := c.dist }
          { priv with nkicks := priv.nkicks + 1
                      kicks := Function.update priv.kicks priv.nkicks k }
          (by
            show priv.nkicks + 1 + eligible_gas P I.Hsml cs ≤ priv.maxkicks
            omega) with herr | ⟨priv1, e1, h1, h2⟩
        · exact Or.inl herr
        · refine Or.inr ⟨priv1, e1, ?_, h2⟩
          have h1b : priv1.nkicks ≤ priv.nkicks + 1 + eligible_gas P I.Hsml cs := h1
          omega
    · rw [treewalk_visit, if_neg hvis]
      exact hstay _

/-- A query with the feedback callback: see `feedback_walk_bound`. -/
theorem feedback_query_bound (o : Oracle) (wp : WindParams) (P : Nat → Particle)
    (I : TreeWalkQueryWind) (cands : List Candidate) (priv : WindPriv)
    (hroom : priv.nkicks + eligible_gas P I.Hsml cands ≤ priv.maxkicks) :
    (¬ (HAS wp.WindModel WIND_FIXED_EFFICIENCY = true ∨
          HAS wp.WindModel WIND_USE_HALO = true) ∧
      treewalk_query P (fun it s => sfr_wind_feedback_ngbiter o wp P I it s) cands priv =
        Except.error 1) ∨
    ∃ priv1 : WindPriv,
      treewalk_query P (fun it s => sfr_wind_feedback_ngbiter o wp P I it s) cands priv =
        Except.ok priv1 ∧
      priv1.nkicks ≤ priv.nkicks + eligible_gas P I.Hsml cands ∧
      priv1.maxkicks = priv.maxkicks ∧ priv1.nvisited = priv.nvisited := by
  unfold treewalk_query
  simp only [sfr_wind_feedback_ngbiter, if_true]
  exact feedback_walk_bound o wp P I cands _ priv hroom

/-- The feedback round over the new stars: with room in the buffer for every
eligible gas neighbour of every star, the round aborts only on an unknown wind
model; otherwise it returns, has appended at most that many candidates, and has
left the capacity as it was. -/
theorem feedback_round_bound (o : Oracle) (wp : WindParams) (BoxSize : ℚ)
    (P : Nat → Particle) (ngb : Nat → List Candidate) (W : Nat → winddata) :
    ∀ (ns : List Nat) (priv : WindPriv),
      priv.nkicks + total_eligible P ngb ns ≤ priv.maxkicks →
      (¬ (HAS wp.WindModel WIND_FIXED_EFFICIENCY = true ∨
            HAS wp.WindModel WIND_USE_HALO = true) ∧
        feedback_round o wp BoxSize P ngb W ns priv = Except.error 1) ∨
      ∃ priv1 : WindPriv,
        feedback_round o wp BoxSize P ngb W ns priv = Except.ok priv1 ∧
        priv1.nkicks ≤ priv.nkicks + total_eligible P ngb ns ∧
        priv1.maxkicks = priv.maxkicks ∧ priv1.nvisited = priv.nvisited := by
  intro ns
  induction ns with
  | nil =>
    intro priv _
    exact Or.inr ⟨priv, rfl, Nat.le_add_right _ _, rfl, rfl⟩
  | cons n ns ih =>
    intro priv hroom
    have htot : total_eligible P ngb (n :: ns) =
        eligible_gas P (P n).Hsml (ngb n) + total_eligible P ngb ns := by
      simp [total_eligible]
    rw [htot] at hroom ⊢
    rw [feedback_round]
    rcases feedback_query_bound o wp P (sfr_wind_copy o BoxSize priv.hubble P n (W n)) (ngb n)
        priv (by
          show priv.nkicks + eligible_gas P (P n).Hsml (ngb n) ≤ priv.maxkicks
          omega) with ⟨hno, herr⟩ | ⟨priv1, e1, h1, h2, h2v⟩
    · simp only [herr]
      exact Or.inl ⟨hno, trivial⟩
    · simp only [e1]
      have h1b : priv1.nkicks ≤ priv.nkicks + eligible_gas P (P n).Hsml (ngb n) := h1
      rcases ih priv1 (by omega) with herr | ⟨priv2, e2, h3, h4, h4v⟩
      · exact Or.inl herr
      · exact Or.inr ⟨priv2, e2, by omega, by omega, h4v.trans h2v⟩

/-- The sum of the visit counters over the threads as a finite sum, for
counters that are not negative and whose sum is below 2^31: no addition
wraps. -/
theorem sum_nvisited_eq (m : Nat) (nv : Nat → Int)
    (h0 : ∀ t : Nat, t < m + 1 → 0 ≤ nv t)
    (hlt : ∑ i in Finset.range (m + 1), nv i < 2147483648) :
    sum_nvisited (m + 1) nv = ∑ i in Finset.range (m + 1), nv i := by
  induction m with
  | zero => simp [sum_nvisited]
  | succ m ih =>
    rw [Finset.sum_range_succ] at hlt
    have hlast : 0 ≤ nv (m + 1) := h0 (m + 1) (by omega)
    have hpart : 0 ≤ ∑ i in Finset.range (m + 1), nv i :=
      Finset.sum_nonneg (fun i hi => h0 i (by
        have := Finset.mem_range.mp hi
        omega))
    have ih1 := ih (fun t ht => h0 t (by omega)) (by omega)
    rw [Finset.sum_range_succ, ← ih1]
    rw [← ih1] at hlt hpart
    have hstep : sum_nvisited (m + 1 + 1) nv =
        wrap_int (sum_nvisited (m + 1) nv + nv (m + 1)) := by
      unfold sum_nvisited
      simp only [Nat.add_sub_cancel]
      rw [List.range_succ, List.foldl_append]
      rfl
    rw [hstep]
    exact wrap_int_of_range _ (by omega) (by omega)

/-- The first weight round over the new stars, each with trial radii at least
its smoothing length, started with counters that are not negative and whose sum
with the number of eligible gas neighbours of all the stars is below 2^31: the
counters stay not negative and go up, in total, by that number. -/
theorem weight_round_count (o : Oracle) (BoxSize : ℚ) (P : Nat → Particle)
    (ngb : Nat → List Candidate) (thread_of : Nat → Nat) (nthreads : Nat)
    (W : Nat → winddata) :
    ∀ (ns : List Nat) (priv : WindPriv),
      (∀ n ∈ ns, thread_of n < nthreads) →
      (∀ n ∈ ns, ∀ i : Nat, i < NWINDHSML → (P n).Hsml ≤ effdmradius o BoxSize (W n) i) →
      (∀ t : Nat, 0 ≤ priv.nvisited t) →
      (∑ t in Finset.range nthreads, priv.nvisited t) + (total_eligible P ngb ns : Int) <
        2147483648 →
      (∀ t : Nat, 0 ≤ (weight_round o BoxSize P ngb thread_of W ns priv).nvisited t) ∧
      ∑ t in Finset.range nthreads,
          (weight_round o BoxSize P ngb thread_of W ns priv).nvisited t =
        (∑ t in Finset.range nthreads, priv.nvisited t) + (total_eligible P ngb ns : Int) := by
  intro ns
  induction ns with
  | nil =>
    intro priv _ _ h0 _
    refine ⟨h0, ?_⟩
    simp [weight_round, total_eligible]
  | cons n ns ih =>
    intro priv hth hrad h0 hlt
    have htot : total_eligible P ngb (n :: ns) =
        eligible_gas P (P n).Hsml (ngb n) + total_eligible P ngb ns := by
      simp [total_eligible]
    rw [htot] at hlt ⊢
    push_cast at hlt ⊢
    have hradI : ∀ i : Nat, i < NWINDHSML →
        (sfr_wind_copy o BoxSize priv.hubble P n (W n)).Hsml ≤
          (sfr_wind_copy o BoxSize priv.hubble P n (W n)).DMRadius i := by
      intro i hi
      show (P n).Hsml ≤ if i < NWINDHSML then effdmradius o BoxSize (W n) i else 0
      rw [if_pos hi]
      exact hrad n (List.mem_cons_self _ _) i hi
    have hmem : thread_of n ∈ Finset.range nthreads :=
      Finset.mem_range.mpr (hth n (List.mem_cons_self _ _))
    have hone : priv.nvisited (thread_of n) ≤ ∑ t in Finset.range nthreads, priv.nvisited t :=
      Finset.single_le_sum (fun t _ => h0 t) hmem
    obtain ⟨O1, priv1, e1, hn1⟩ := weight_query_count P
      (sfr_wind_copy o BoxSize priv.hubble P n (W n)) (thread_of n) hradI (ngb n)
      result_zero priv (h0 _) (by
        show priv.nvisited (thread_of n) + (eligible_gas P (P n).Hsml (ngb n) : Int) <
          2147483648
        omega)
    have hn1b : priv1.nvisited = Function.update priv.nvisited (thread_of n)
        (priv.nvisited (thread_of n) + (eligible_gas P (P n).Hsml (ngb n) : Int)) := hn1
    have h01 : ∀ t : Nat, 0 ≤ priv1.nvisited t := by
      intro t
      rw [hn1b]
      by_cases ht : t = thread_of n
      · rw [ht, Function.update_same]
        have := h0 (thread_of n)
        omega
      · rw [Function.update_noteq ht]
        exact h0 t
    have hsum1 : ∑ t in Finset.range nthreads, priv1.nvisited t =
        (∑ t in Finset.range nthreads, priv.nvisited t) +
          (eligible_gas P (P n).Hsml (ngb n) : Int) := by
      rw [hn1b, Finset.sum_update_of_mem hmem, ← Finset.add_sum_erase _ priv.nvisited hmem,
        Finset.sdiff_singleton_eq_erase]
      omega
    rw [weight_round]
    simp only [e1]
    obtain ⟨g0, gsum⟩ := ih priv1 (fun k hk => hth k (List.mem_cons_of_mem _ hk))
      (fun k hk => hrad k (List.mem_cons_of_mem _ hk)) h01 (by
        rw [hsum1]
        omega)
    refine ⟨g0, ?_⟩
    rw [gsum, hsum1]
    omega

/-- The trial radii of the first weight round of a new star are at least its
smoothing length, for a `pow` that is exact on the exponent 3 and whose value on
the exponent 1/3 is not below any number whose cube is at most the argument. -/
theorem first_round_radius (o : Oracle) (BoxSize : ℚ) (P : Nat → Particle) (n : Nat)
    (w : winddata) (i : Nat)
    (hpow3 : ∀ x : ℚ, o.pow x 3 = x ^ 3)
    (hcbrt : ∀ y h : ℚ, 0 ≤ h → h ^ 3 ≤ y → h ≤ o.pow y (1 / 3))
    (hbox : 0 < BoxSize) (hH : 0 ≤ (P n).Hsml) :
    (P n).Hsml ≤ effdmradius o BoxSize (winddata_init BoxSize P n w) i := by
  rw [effdmradius_eq o BoxSize _ i hpow3]
  apply hcbrt _ _ hH
  have hr : eff_right BoxSize (winddata_init BoxSize P n w) = 2 * (P n).Hsml := by
    unfold eff_right winddata_init
    have : BoxSize > 99 / 100 * BoxSize := by linarith
    simp only [this, if_true]
  have hl : eff_left (winddata_init BoxSize P n w) = 1 / 10 * (2 * (P n).Hsml) := by
    unfold eff_left winddata_init
    simp only [if_true]
  rw [hr, hl]
  have h3 : 0 ≤ (P n).Hsml ^ 3 := pow_nonneg hH 3
  have hi : (0 : ℚ) ≤ (i : ℚ) := Nat.cast_nonneg _
  have hN : ((NWINDHSML : Nat) : ℚ) = 5 := by norm_num [NWINDHSML]
  rw [hN]
  have key : (1 / 10 * (2 * (P n).Hsml)) ^ 3 +
      ((i : ℚ) + 1) / (5 + 1) * ((2 * (P n).Hsml) ^ 3 - (1 / 10 * (2 * (P n).Hsml)) ^ 3) -
      (P n).Hsml ^ 3 = (P n).Hsml ^ 3 * ((255 + 999 * (i : ℚ)) / 750) := by
    ring
  have hpos : 0 ≤ (P n).Hsml ^ 3 * ((255 + 999 * (i : ℚ)) / 750) := by
    apply mul_nonneg h3
    apply div_nonneg
    · linarith
    · norm_num
  linarith

/-- The kick buffer holds every candidate of the feedback round when the trial
radii of the first weight round of each new star are at least its smoothing
length and the visit counters do not overflow: the run aborts only on an unknown
wind model; otherwise it returns with the capacity equal to the sum of the visit
counters plus 2 and with at least 2 slots left. -/
theorem kick_buffer_bound_of_radii (o : Oracle) (wp : WindParams) (BoxSize Time hubble : ℚ)
    (P : Nat → Particle) (ngb : Nat → List Candidate) (thread_of : Nat → Nat)
    (nthreads : Nat) (NewStars : List Nat) (W0 Wf : Nat → winddata)
    (later_visits : Nat → Nat) (kicks0 : Nat → StarKick)
    (hpos : 0 < nthreads)
    (hth : ∀ n ∈ NewStars, thread_of n < nthreads)
    (hsmall : (total_eligible P ngb NewStars : Int) +
      (∑ t in Finset.range nthreads, (later_visits t : Int)) + 2 < 2147483648)
    (hrad : ∀ n ∈ NewStars, ∀ i : Nat, i < NWINDHSML →
      (P n).Hsml ≤ effdmradius o BoxSize (winddata_init BoxSize P n (W0 n)) i) :
    (¬ (HAS wp.WindModel WIND_FIXED_EFFICIENCY = true ∨
          HAS wp.WindModel WIND_USE_HALO = true) ∧
      winds_and_feedback_kicks o wp BoxSize Time hubble P ngb thread_of nthreads NewStars
        W0 Wf later_visits kicks0 = Except.error 1) ∨
    ∃ priv1 : WindPriv,
      winds_and_feedback_kicks o wp BoxSize Time hubble P ngb thread_of nthreads NewStars
        W0 Wf later_visits kicks0 = Except.ok priv1 ∧
      (priv1.maxkicks : Int) = sum_nvisited nthreads priv1.nvisited + 2 ∧
      priv1.nkicks + 2 ≤ priv1.maxkicks := by
  obtain ⟨m, rfl⟩ : ∃ m, nthreads = m + 1 := ⟨nthreads - 1, by omega⟩
  have hlater : 0 ≤ ∑ t in Finset.range (m + 1), (later_visits t : Int) :=
    Finset.sum_nonneg (fun t _ => Int.ofNat_nonneg _)
  have hradW : ∀ n ∈ NewStars, ∀ i : Nat, i < NWINDHSML →
      (P n).Hsml ≤ effdmradius o BoxSize
        ((fun n => if n ∈ NewStars then winddata_init BoxSize P n (W0 n) else W0 n) n) i := by
    intro n hn i hi
    simp only [hn, if_true]
    exact hrad n hn i hi
  obtain ⟨hnn, hcount⟩ := weight_round_count o BoxSize P ngb thread_of (m + 1)
    (fun n => if n ∈ NewStars then winddata_init BoxSize P n (W0 n) else W0 n) NewStars
    { Time := Time, hubble := hubble, kicks := kicks0, nkicks := 0, maxkicks := 0,
      nvisited := fun _ => 0 } hth hradW (fun _ => le_refl _)
    (by
      simp only [Finset.sum_const_zero]
      omega)
  simp only [Finset.sum_const_zero, zero_add] at hcount
  unfold winds_and_feedback_kicks
  dsimp only
  generalize weight_round o BoxSize P ngb thread_of
      (fun n => if n ∈ NewStars then winddata_init BoxSize P n (W0 n) else W0 n) NewStars
      { Time := Time, hubble := hubble, kicks := kicks0, nkicks := 0, maxkicks := 0,
        nvisited := fun _ => 0 } = pw at hnn hcount ⊢
  have hsumall : ∑ t in Finset.range (m + 1), (pw.nvisited t + (later_visits t : Int)) =
      (total_eligible P ngb NewStars : Int) +
        ∑ t in Finset.range (m + 1), (later_visits t : Int) := by
    rw [Finset.sum_add_distrib, hcount]
  have hterm : ∀ t : Nat, t < m + 1 →
      wrap_int (pw.nvisited t + (later_visits t : Int)) =
        pw.nvisited t + (later_visits t : Int) := by
    intro t ht
    have hle : pw.nvisited t + (later_visits t : Int) ≤
        ∑ t in Finset.range (m + 1), (pw.nvisited t + (later_visits t : Int)) :=
      Finset.single_le_sum
        (f := fun t => pw.nvisited t + (later_visits t : Int))
        (fun t _ => add_nonneg (hnn t) (Int.ofNat_nonneg _)) (Finset.mem_range.mpr ht)
    have h0 : 0 ≤ pw.nvisited t + (later_visits t : Int) :=
      add_nonneg (hnn t) (Int.ofNat_nonneg _)
    exact wrap_int_of_range _ (by omega) (by omega)
  have hsumw : ∑ t in Finset.range (m + 1),
      wrap_int (pw.nvisited t + (later_visits t : Int)) =
      (total_eligible P ngb NewStars : Int) +
        ∑ t in Finset.range (m + 1), (later_visits t : Int) := by
    rw [← hsumall]
    exact Finset.sum_congr rfl (fun t ht => hterm t (Finset.mem_range.mp ht))
  have hsum : sum_nvisited (m + 1)
      (fun t => wrap_int (pw.nvisited t + (later_visits t : Int))) =
      (total_eligible P ngb NewStars : Int) +
        ∑ t in Finset.range (m + 1), (later_visits t : Int) := by
    rw [sum_nvisited_eq m _ (fun t ht => by
      show 0 ≤ wrap_int (pw.nvisited t + (later_visits t : Int))
      rw [hterm t ht]
      exact add_nonneg (hnn t) (Int.ofNat_nonneg _)) (by
      rw [hsumw]
      omega), hsumw]
  have hmax : ((wrap_int (sum_nvisited (m + 1)
      (fun t => wrap_int (pw.nvisited t + (later_visits t : Int))) + 2)).toNat : Int) =
      sum_nvisited (m + 1)
        (fun t => wrap_int (pw.nvisited t + (later_visits t : Int))) + 2 := by
    have hw : wrap_int (sum_nvisited (m + 1)
        (fun t => wrap_int (pw.nvisited t + (later_visits t : Int))) + 2) =
        sum_nvisited (m + 1)
          (fun t => wrap_int (pw.nvisited t + (later_visits t : Int))) + 2 :=
      wrap_int_of_range _ (by omega) (by omega)
    rw [hw]
    exact Int.toNat_of_nonneg (by omega)
  rcases feedback_round_bound o wp BoxSize P ngb Wf NewStars
      { pw with
        nvisited := fun t => wrap_int (pw.nvisited t + (later_visits t : Int))
        maxkicks := (wrap_int (sum_nvisited (m + 1)
          (fun t => wrap_int (pw.nvisited t + (later_visits t : Int))) + 2)).toNat
        nkicks := 0 }
      (show 0 + total_eligible P ngb NewStars ≤
          (wrap_int (sum_nvisited (m + 1)
            (fun t => wrap_int (pw.nvisited t + (later_visits t : Int))) + 2)).toNat from by
        have := hsum
        omega) with herr | ⟨priv1, e1, h1, h2, h3⟩
  · exact Or.inl herr
  · refine Or.inr ⟨priv1, e1, ?_, ?_⟩
    · rw [h2, h3]
      exact hmax
    · rw [h2]
      have h1b : priv1.nkicks ≤ 0 + total_eligible P ngb NewStars := h1
      show priv1.nkicks + 2 ≤
        (wrap_int (sum_nvisited (m + 1)
          (fun t => wrap_int (pw.nvisited t + (later_visits t : Int))) + 2)).toNat
      have := hsum
      omega

/-! ## Lemmas on the dispersion resolver -/

/-- The WindSample and the redo queue that `sfr_wind_weight_postprocess` leaves
for a star: the bracket and radius are those of `ngb_narrow_down`; a re-queued
star keeps its dispersion; a finalised star gets `sqrt(vdisp / 3)` when the local
`vdisp` is positive and keeps its dispersion otherwise. -/
theorem postprocess_sample (o : Oracle) (sqrt : ℚ → ℚ)
    (ngb_narrow_down : ℚ → ℚ → List ℚ → (Nat → ℚ) → Int → Nat → ℚ → NarrowDown)
    (BoxSize : ℚ) (P : Nat → Particle) (i : Nat) (w : winddata) (tw : TreeWalkRedo)
    (hstar : (P i).Type_ = 4) :
    ∃ (w1 : winddata) (tw1 : TreeWalkRedo),
      sfr_wind_weight_postprocess o sqrt ngb_narrow_down BoxSize P i w tw =
        Except.ok (w1, tw1) ∧
      w1.TotalWeight = w.TotalWeight ∧
      (tw1.NPRedo =
        if (w.Ngb (postprocess_narrow o ngb_narrow_down BoxSize w).close < 38 ∨
              w.Ngb (postprocess_narrow o ngb_narrow_down BoxSize w).close > 42) ∧
            (postprocess_narrow o ngb_narrow_down BoxSize w).Right -
              (postprocess_narrow o ngb_narrow_down BoxSize w).Left > 1 / 100
        then tw.NPRedo ++ [i] else tw.NPRedo) ∧
      (w1.Vdisp =
        if (w.Ngb (postprocess_narrow o ngb_narrow_down BoxSize w).close < 38 ∨
              w.Ngb (postprocess_narrow o ngb_narrow_down BoxSize w).close > 42) ∧
            (postprocess_narrow o ngb_narrow_down BoxSize w).Right -
              (postprocess_narrow o ngb_narrow_down BoxSize w).Left > 1 / 100
        then w.Vdisp
        else if postprocess_vdisp o w (postprocess_narrow o ngb_narrow_down BoxSize w).close > 0
          then sqrt (postprocess_vdisp o w
            (postprocess_narrow o ngb_narrow_down BoxSize w).close / 3)
          else w.Vdisp) := by
  have h38 : ((NUMDMNGB - MAXDMDEVIATION : Nat) : ℚ) = 38 := by
    norm_num [NUMDMNGB, MAXDMDEVIATION]
  have h42 : ((NUMDMNGB + MAXDMDEVIATION : Nat) : ℚ) = 42 := by
    norm_num [NUMDMNGB, MAXDMDEVIATION]
  unfold sfr_wind_weight_postprocess postprocess_narrow postprocess_vdisp
  simp only [hstar, ne_eq, not_true_eq_false, if_false, h38, h42]
  generalize ngb_narrow_down w.Right w.Left
      ((List.range w.maxcmpte.toNat).map (fun j => effdmradius o BoxSize w j))
      w.Ngb w.maxcmpte NUMDMNGB BoxSize = nd
  by_cases hc : (w.Ngb nd.close < 38 ∨ w.Ngb nd.close > 42) ∧ nd.Right - nd.Left > 1 / 100
  · simp only [hc, and_self, if_true]
    refine ⟨_, _, rfl, rfl, ?_, rfl⟩
    split_ifs <;> rfl
  · simp only [hc, if_false]
    generalize w.V2sum nd.close / w.Ngb nd.close -
      o.pow ((w.V1sum nd.close).x0 / w.Ngb nd.close) 2 -
      o.pow ((w.V1sum nd.close).x1 / w.Ngb nd.close) 2 -
      o.pow ((w.V1sum nd.close).x2 / w.Ngb nd.close) 2 = v
    by_cases hv : v > 0
    · simp only [hv, if_true]
      refine ⟨_, _, rfl, rfl, ?_, rfl⟩
      split_ifs <;> rfl
    · simp only [hv, if_false]
      refine ⟨_, _, rfl, rfl, ?_, rfl⟩
      split_ifs <;> rfl

/-- The local `vdisp` of the resolver is the variance of the claim, for a `pow`
that is exact on the exponent 2 and a bucket that is not empty. -/
theorem postprocess_vdisp_eq (o : Oracle) (w : winddata) (close : Nat)
    (hpow2 : ∀ x : ℚ, o.pow x 2 = x ^ 2) (hN : w.Ngb close ≠ 0) :
    postprocess_vdisp o w close = spec_variance w close := by
  unfold postprocess_vdisp spec_variance
  simp only [hpow2]
  field_simp
  ring

/-- A finalised star whose local `vdisp` is not positive keeps the dispersion
its WindSample held on entry. -/
theorem postprocess_keeps_dispersion (o : Oracle) (sqrt : ℚ → ℚ)
    (ngb_narrow_down : ℚ → ℚ → List ℚ → (Nat → ℚ) → Int → Nat → ℚ → NarrowDown)
    (BoxSize : ℚ) (P : Nat → Particle) (i : Nat) (w : winddata) (tw : TreeWalkRedo)
    (hstar : (P i).Type_ = 4)
    (hvar : ¬ postprocess_vdisp o w (postprocess_narrow o ngb_narrow_down BoxSize w).close > 0) :
    ∃ (w1 : winddata) (tw1 : TreeWalkRedo),
      sfr_wind_weight_postprocess o sqrt ngb_narrow_down BoxSize P i w tw =
        Except.ok (w1, tw1) ∧
      w1.TotalWeight = w.TotalWeight ∧ w1.Vdisp = w.Vdisp := by
  obtain ⟨w1, tw1, e1, e2, _, e4⟩ :=
    postprocess_sample o sqrt ngb_narrow_down BoxSize P i w tw hstar
  refine ⟨w1, tw1, e1, e2, ?_⟩
  rw [e4, if_neg hvar]
  split_ifs <;> rfl

/-- The initialisation of a WindSample in `winds_and_feedback` writes neither the
dispersion nor the total weight. -/
theorem winddata_init_keeps_dispersion (BoxSize : ℚ) (P : Nat → Particle) (n : Nat)
    (w : winddata) :
    (winddata_init BoxSize P n w).Vdisp = w.Vdisp ∧
    (winddata_init BoxSize P n w).TotalWeight = w.TotalWeight :=
  ⟨rfl, rfl⟩

/-- A star whose query carries a dispersion that is not positive gets no kick
candidate: the feedback callback returns on a visited neighbour without touching
the buffer and without abort, whatever the wind model. -/
theorem feedback_skips_nonpositive_dispersion (o : Oracle) (wp : WindParams)
    (P : Nat → Particle) (I : TreeWalkQueryWind) (iter : TreeWalkNgbIterWind)
    (priv : WindPriv) (hne : ¬ iter.other = -1) (hV : I.Vdisp ≤ 0) :
    sfr_wind_feedback_ngbiter o wp P I iter priv = Except.ok (iter, priv) := by
  unfold sfr_wind_feedback_ngbiter
  simp only [hne, if_false]
  by_cases c1 : iter.r > I.Hsml
  · rw [if_pos c1]
  · rw [if_neg c1]
    by_cases c2 : (P iter.other.toNat).DelayTime > 0
    · rw [if_pos c2]
    · rw [if_neg c2, if_pos (Or.inr hV)]

/-- A call of the feedback callback that returns has either left the private
data as they were, or found room and appended one candidate of positive speed in
slot `nkicks`. -/
theorem feedback_ok_outcome (o : Oracle) (wp : WindParams) (P : Nat → Particle)
    (I : TreeWalkQueryWind) (iter iter1 : TreeWalkNgbIterWind) (priv priv1 : WindPriv)
    (h : sfr_wind_feedback_ngbiter o wp P I iter priv = Except.ok (iter1, priv1)) :
    priv1 = priv ∨
    (priv.nkicks < priv.maxkicks ∧
      ∃ k : StarKick, k.StarKickVelocity > 0 ∧
        priv1 = { priv with nkicks := priv.nkicks + 1
                            kicks := Function.update priv.kicks priv.nkicks k }) := by
  have hsame : (Except.ok (iter, priv) : Except Nat (TreeWalkNgbIterWind × WindPriv)) =
      Except.ok (iter1, priv1) → priv1 = priv := by
    intro hc
    simp only [Except.ok.injEq, Prod.mk.injEq] at hc
    exact hc.2.symm
  by_cases hs : iter.other = -1
  · left
    unfold sfr_wind_feedback_ngbiter at h
    simp only [hs, if_true, Except.ok.injEq, Prod.mk.injEq] at h
    exact h.2.symm
  · by_cases hmodel : HAS wp.WindModel WIND_FIXED_EFFICIENCY = true ∨
        HAS wp.WindModel WIND_USE_HALO = true
    · rw [sfr_wind_feedback_ngbiter_eq o wp P I iter priv hs hmodel] at h
      by_cases c1 : iter.r > I.Hsml
      · rw [if_pos c1] at h
        exact Or.inl (hsame h)
      · rw [if_neg c1] at h
        by_cases c2 : (P iter.other.toNat).DelayTime > 0
        · rw [if_pos c2] at h
          exact Or.inl (hsame h)
        · rw [if_neg c2] at h
          by_cases c3 : I.TotalWeight = 0 ∨ I.Vdisp ≤ 0
          · rw [if_pos c3] at h
            exact Or.inl (hsame h)
          · rw [if_neg c3] at h
            by_cases c4 : (P iter.other.toNat).Type_ ≠ 0 ∨
                (P iter.other.toNat).IsGarbage = true ∨ (P iter.other.toNat).Swallowed = true
            · rw [if_pos c4] at h
              exact Or.inl (hsame h)
            · rw [if_neg c4] at h
              by_cases c5 : o.get_random_number (idplus I.ID (P iter.other.toNat).ID) <
                  spec_wind_efficiency o wp priv.Time I * I.Mass / I.TotalWeight ∧
                  max (spec_model_speed wp priv.Time I) (wp.MinWindVelocity * priv.Time) > 0
              · rw [if_pos c5] at h
                by_cases c6 : priv.nkicks ≥ priv.maxkicks
                · rw [if_pos c6] at h
                  cases h
                · rw [if_neg c6] at h
                  simp only [Except.ok.injEq, Prod.mk.injEq] at h
                  exact Or.inr ⟨not_le.mp c6, _, c5.2, h.2.symm⟩
              · rw [if_neg c5] at h
                exact Or.inl (hsame h)
    · have h1 : HAS wp.WindModel WIND_FIXED_EFFICIENCY = false := by
        cases hh : HAS wp.WindModel WIND_FIXED_EFFICIENCY
        · rfl
        · exact absurd (Or.inl hh) hmodel
      have h2 : HAS wp.WindModel WIND_USE_HALO = false := by
        cases hh : HAS wp.WindModel WIND_USE_HALO
        · rfl
        · exact absurd (Or.inr hh) hmodel
      unfold sfr_wind_feedback_ngbiter at h
      simp only [hs, if_false, h1, h2, Bool.false_eq_true] at h
      split_ifs at h
      all_goals exact Or.inl (hsame h)

/-- The feedback callback on a visited neighbour `n` for which the conditions of
acceptance hold, under one of the two wind models: it aborts when the buffer is
full and otherwise writes the candidate into slot `nkicks` and raises the
counter. -/
theorem feedback_accepted_eq (o : Oracle) (wp : WindParams) (P : Nat → Particle)
    (I : TreeWalkQueryWind) (iter : TreeWalkNgbIterWind) (priv : WindPriv) (n : Nat)
    (hother : iter.other = (n : Int))
    (hmodel : HAS wp.WindModel WIND_FIXED_EFFICIENCY = true ∨
      HAS wp.WindModel WIND_USE_HALO = true)
    (hacc : spec_candidate_accepted o wp priv.Time P I n iter.r) :
    sfr_wind_feedback_ngbiter o wp P I iter priv =
      if priv.nkicks ≥ priv.maxkicks then Except.error 5
      else
        Except.ok (iter,
          { priv with
            nkicks := priv.nkicks + 1
            kicks := Function.update priv.kicks priv.nkicks
              { part_index := n, StarDistance := iter.r, StarID := I.ID,
                StarKickVelocity :=
                  max (spec_model_speed wp priv.Time I) (wp.MinWindVelocity * priv.Time),
                StarTherm := wp.WindThermalFactor * (3 / 2) * I.Vdisp * I.Vdisp } }) := by
  have hne : ¬ iter.other = -1 := by
    rw [hother]
    omega
  have htn : iter.other.toNat = n := by
    rw [hother]
    simp
  obtain ⟨h1, h2, h3, h4, h5, h6, h7, h8, h9⟩ := hacc
  have hr : ¬ iter.r > I.Hsml := not_lt.mpr h1
  have hd : ¬ (P n).DelayTime > 0 := not_lt.mpr h5
  have hw : ¬ (I.TotalWeight = 0 ∨ I.Vdisp ≤ 0) := by
    rintro (h | h)
    · exact h6 h
    · exact absurd h7 (not_lt.mpr h)
  have ht : ¬ ((P n).Type_ ≠ 0 ∨ (P n).IsGarbage = true ∨ (P n).Swallowed = true) := by
    rintro (h | h | h)
    · exact h h2
    · rw [h3] at h
      cases h
    · rw [h4] at h
      cases h
  rw [sfr_wind_feedback_ngbiter_eq o wp P I iter priv hne hmodel, htn, if_neg hr, if_neg hd,
    if_neg hw, if_neg ht, if_pos ⟨h8, h9⟩]

/-- A call of the feedback callback that returns has either left the private
data as they were, or appended the candidate `feedback_kick` of the query and the
visited neighbour in slot `nkicks`. -/
theorem feedback_ok_appended (o : Oracle) (wp : WindParams) (P : Nat → Particle)
    (I : TreeWalkQueryWind) (iter iter1 : TreeWalkNgbIterWind) (priv priv1 : WindPriv)
    (h : sfr_wind_feedback_ngbiter o wp P I iter priv = Except.ok (iter1, priv1)) :
    priv1 = priv ∨
    priv1 = { priv with
      nkicks := priv.nkicks + 1
      kicks := Function.update priv.kicks priv.nkicks
        (feedback_kick wp priv.Time I iter.other.toNat iter.r) } := by
  have hsame : (Except.ok (iter, priv) : Except Nat (TreeWalkNgbIterWind × WindPriv)) =
      Except.ok (iter1, priv1) → priv1 = priv := by
    intro hc
    simp only [Except.ok.injEq, Prod.mk.injEq] at hc
    exact hc.2.symm
  by_cases hs : iter.other = -1
  · left
    unfold sfr_wind_feedback_ngbiter at h
    simp only [hs, if_true, Except.ok.injEq, Prod.mk.injEq] at h
    exact h.2.symm
  · by_cases hmodel : HAS wp.WindModel WIND_FIXED_EFFICIENCY = true ∨
        HAS wp.WindModel WIND_USE_HALO = true
    · rw [sfr_wind_feedback_ngbiter_eq o wp P I iter priv hs hmodel] at h
      by_cases c1 : iter.r > I.Hsml
      · rw [if_pos c1] at h
        exact Or.inl (hsame h)
      · rw [if_neg c1] at h
        by_cases c2 : (P iter.other.toNat).DelayTime > 0
        · rw [if_pos c2] at h
          exact Or.inl (hsame h)
        · rw [if_neg c2] at h
          by_cases c3 : I.TotalWeight = 0 ∨ I.Vdisp ≤ 0
          · rw [if_pos c3] at h
            exact Or.inl (hsame h)
          · rw [if_neg c3] at h
            by_cases c4 : (P iter.other.toNat).Type_ ≠ 0 ∨
                (P iter.other.toNat).IsGarbage = true ∨ (P iter.other.toNat).Swallowed = true
            · rw [if_pos c4] at h
              exact Or.inl (hsame h)
            · rw [if_neg c4] at h
              by_cases c5 : o.get_random_number (idplus I.ID (P iter.other.toNat).ID) <
                  spec_wind_efficiency o wp priv.Time I * I.Mass / I.TotalWeight ∧
                  max (spec_model_speed wp priv.Time I) (wp.MinWindVelocity * priv.Time) > 0
              · rw [if_pos c5] at h
                by_cases c6 : priv.nkicks ≥ priv.maxkicks
                · rw [if_pos c6] at h
                  cases h
                · rw [if_neg c6] at h
                  simp only [Except.ok.injEq, Prod.mk.injEq] at h
                  exact Or.inr h.2.symm
              · rw [if_neg c5] at h
                exact Or.inl (hsame h)
    · have h1 : HAS wp.WindModel WIND_FIXED_EFFICIENCY = false := by
        cases hh : HAS wp.WindModel WIND_FIXED_EFFICIENCY
        · rfl
        · exact absurd (Or.inl hh) hmodel
      have h2 : HAS wp.WindModel WIND_USE_HALO = false := by
        cases hh : HAS wp.WindModel WIND_USE_HALO
        · rfl
        · exact absurd (Or.inr hh) hmodel
      unfold sfr_wind_feedback_ngbiter at h
      simp only [hs, if_false, h1, h2, Bool.false_eq_true] at h
      split_ifs at h
      all_goals exact Or.inl (hsame h)

/-- Candidates that stars of distinct identifiers generate in one feedback event
and that agree on target, distance and star identifier are the same candidate. -/
theorem feedback_kick_key_inj (o : Oracle) (wp : WindParams) (BoxSize Time hubble : ℚ)
    (P : Nat → Particle) (W : Nat → winddata)
    (huniq : ∀ a b : Nat, (P a).ID = (P b).ID → a = b)
    (pa pb na nb : Nat) (ra rb : ℚ)
    (hk : (feedback_kick wp Time (sfr_wind_copy o BoxSize hubble P pa (W pa)) na ra).key =
      (feedback_kick wp Time (sfr_wind_copy o BoxSize hubble P pb (W pb)) nb rb).key) :
    feedback_kick wp Time (sfr_wind_copy o BoxSize hubble P pa (W pa)) na ra =
      feedback_kick wp Time (sfr_wind_copy o BoxSize hubble P pb (W pb)) nb rb := by
  simp only [StarKick.key, feedback_kick, Prod.mk.injEq] at hk
  obtain ⟨h1, h2, h3⟩ := hk
  have hp : pa = pb := huniq pa pb h3
  subst hp
  rw [h1, h2]

/-! ## Lemmas on the component count -/

/-- One step of the accumulation over the components keeps the component count
and lowers no neighbour count. -/
theorem dm_accumulate_keeps (I : TreeWalkQueryWind) (r : ℚ) (vel : Vec3)
    (O : TreeWalkResultWind) (i : Nat) :
    (dm_accumulate I r vel O i).maxcmpte = O.maxcmpte ∧
    ∀ j : Nat, O.Ngb j ≤ (dm_accumulate I r vel O i).Ngb j := by
  unfold dm_accumulate
  by_cases h : r < I.DMRadius i
  · rw [if_pos h]
    refine ⟨rfl, fun j => ?_⟩
    dsimp only
    by_cases hj : j = i
    · rw [hj, Function.update_same]
      linarith
    · rw [Function.update_noteq hj]
  · rw [if_neg h]
    exact ⟨rfl, fun j => le_refl _⟩

/-- The accumulation over a list of components keeps the component count and
lowers no neighbour count. -/
theorem dm_accumulate_foldl_keeps (I : TreeWalkQueryWind) (r : ℚ) (vel : Vec3) :
    ∀ (l : List Nat) (O : TreeWalkResultWind),
      (l.foldl (dm_accumulate I r vel) O).maxcmpte = O.maxcmpte ∧
      ∀ j : Nat, O.Ngb j ≤ (l.foldl (dm_accumulate I r vel) O).Ngb j := by
  intro l
  induction l with
  | nil =>
    intro O
    exact ⟨rfl, fun j => le_refl _⟩
  | cons a t ih =>
    intro O
    obtain ⟨h1, h2⟩ := dm_accumulate_keeps I r vel O a
    obtain ⟨h3, h4⟩ := ih (dm_accumulate I r vel O a)
    rw [List.foldl_cons]
    exact ⟨h3.trans h1, fun j => le_trans (h2 j) (h4 j)⟩

/-- The early-exit shrink when a component is found above the target: the new
count is that component plus one, within the bounds and not above the old
count. -/
theorem shrink_found (O O2 : TreeWalkResultWind)
    (hN : ∀ j : Nat, O.Ngb j ≤ O2.Ngb j) (hok : maxcmpte_ok O) (i : Nat)
    (hf : (List.range NWINDHSML).find? (fun i => decide (O2.Ngb i > (NUMDMNGB : ℚ))) =
      some i) :
    maxcmpte_ok { O2 with maxcmpte := (i : Int) + 1 } ∧ (i : Int) + 1 ≤ O.maxcmpte := by
  rw [List.find?_range_eq_some] at hf
  obtain ⟨hp, hi, hmin⟩ := hf
  have hi5 : i < NWINDHSML := List.mem_range.mp hi
  have hpi : O2.Ngb i > (NUMDMNGB : ℚ) := by simpa using hp
  obtain ⟨h1, h5, hlast⟩ := hok
  have hN5 : (NWINDHSML : Int) = 5 := rfl
  have hi5b : i < 5 := hi5
  constructor
  · refine ⟨by show (1 : Int) ≤ (i : Int) + 1; omega,
      by show (i : Int) + 1 ≤ (NWINDHSML : Int); omega, Or.inr ?_⟩
    show O2.Ngb (((i : Int) + 1).toNat - 1) > (NUMDMNGB : ℚ)
    have hidx : ((i : Int) + 1).toNat - 1 = i := by omega
    rw [hidx]
    exact hpi
  · rcases hlast with h | h
    · omega
    · have hgt : O2.Ngb (O.maxcmpte.toNat - 1) > (NUMDMNGB : ℚ) :=
        lt_of_lt_of_le h (hN _)
      by_contra hcon
      have hlt : O.maxcmpte.toNat - 1 < i := by omega
      have := hmin _ hlt
      simp only [Bool.not_eq_true', decide_eq_false_iff_not] at this
      exact this hgt

/-- The early-exit shrink when no component is above the target: the count is
unchanged and within the bounds. -/
theorem shrink_not_found (O O2 : TreeWalkResultWind) (hm : O2.maxcmpte = O.maxcmpte)
    (hN : ∀ j : Nat, O.Ngb j ≤ O2.Ngb j) (hok : maxcmpte_ok O)
    (hf : (List.range NWINDHSML).find? (fun i => decide (O2.Ngb i > (NUMDMNGB : ℚ))) =
      none) :
    maxcmpte_ok O2 ∧ O2.maxcmpte ≤ O.maxcmpte := by
  rw [List.find?_range_eq_none] at hf
  obtain ⟨h1, h5, hlast⟩ := hok
  have hN5 : (NWINDHSML : Int) = 5 := rfl
  refine ⟨⟨by rw [hm]; exact h1, by rw [hm]; exact h5, ?_⟩, by rw [hm]⟩
  rcases hlast with h | h
  · left
    rw [hm]
    exact h
  · exfalso
    have hgt : O2.Ngb (O.maxcmpte.toNat - 1) > (NUMDMNGB : ℚ) :=
      lt_of_lt_of_le h (hN _)
    have hidx : O.maxcmpte.toNat - 1 < NWINDHSML := by
      show O.maxcmpte.toNat - 1 < 5
      omega
    have := hf _ hidx
    simp only [Bool.not_eq_true', decide_eq_false_iff_not] at this
    exact this hgt

/-- A call of the weight callback on a visited neighbour keeps the state
`maxcmpte_ok` of the result record and does not raise the component count. -/
theorem weight_ngbiter_maxcmpte (P : Nat → Particle) (I : TreeWalkQueryWind)
    (O : TreeWalkResultWind) (iter : TreeWalkNgbIterWind) (priv : WindPriv) (tid : Nat)
    (hne : ¬ iter.other = -1) (hok : maxcmpte_ok O) :
    maxcmpte_ok (sfr_wind_weight_ngbiter P I O iter priv tid).1 ∧
    (sfr_wind_weight_ngbiter P I O iter priv tid).1.maxcmpte ≤ O.maxcmpte := by
  unfold sfr_wind_weight_ngbiter
  simp only [hne, if_false]
  by_cases ht : (P iter.other.toNat).Type_ = 0
  · rw [if_pos ht]
    by_cases hr : iter.r > I.Hsml
    · rw [if_pos hr]
      exact ⟨hok, le_refl _⟩
    · rw [if_neg hr]
      by_cases hd : (P iter.other.toNat).DelayTime > 0
      · rw [if_pos hd]
        exact ⟨hok, le_refl _⟩
      · rw [if_neg hd]
        have ht1 : ¬ (P iter.other.toNat).Type_ = 1 := by omega
        simp only [ht1, if_false]
        split
        · next i hf =>
          exact shrink_found O _ (fun j => le_refl _) hok i hf
        · next hf =>
          exact shrink_not_found O _ rfl (fun j => le_refl _) hok hf
  · rw [if_neg ht]
    by_cases ht1 : (P iter.other.toNat).Type_ = 1
    · simp only [ht1, if_true]
      split
      · next i hf =>
        exact shrink_found O _ (dm_accumulate_foldl_keeps I _ _ _ O).2 hok i hf
      · next hf =>
        exact shrink_not_found O _ (dm_accumulate_foldl_keeps I _ _ _ O).1
          (dm_accumulate_foldl_keeps I _ _ _ O).2 hok hf
    · simp only [ht1, if_false]
      split
      · next i hf =>
        exact shrink_found O _ (fun j => le_refl _) hok i hf
      · next hf =>
        exact shrink_not_found O _ rfl (fun j => le_refl _) hok hf

/-- The loop over the components in `sfr_wind_reduce_weight` does not touch the
component count. -/
theorem reduce_component_foldl_maxcmpte (R : Int → ℚ → ℚ → ℚ) (O : TreeWalkResultWind)
    (mode : Int) :
    ∀ (l : List Nat) (w : winddata),
      (l.foldl (reduce_component R O mode) w).maxcmpte = w.maxcmpte := by
  intro l
  induction l with
  | nil =>
    intro w
    rfl
  | cons a t ih =>
    intro w
    rw [List.foldl_cons, ih]
    rfl

/-- The component count `sfr_wind_reduce_weight` leaves in the WindSample: that
of the result record in mode 0 or when the WindSample has a larger one, its own
otherwise. -/
theorem sfr_wind_reduce_weight_maxcmpte (R : Int → ℚ → ℚ → ℚ) (w : winddata)
    (O : TreeWalkResultWind) (mode : Int) :
    (sfr_wind_reduce_weight R w O mode).maxcmpte =
      if mode = 0 ∨ w.maxcmpte > O.maxcmpte then O.maxcmpte else w.maxcmpte := by
  unfold sfr_wind_reduce_weight
  simp only []
  rw [reduce_component_foldl_maxcmpte]
  by_cases h : mode = 0 ∨ w.maxcmpte > O.maxcmpte
  · rw [if_pos h, if_pos h]
  · rw [if_neg h, if_neg h]

/-! ## Theorems -/

/-- Counterexample to C3 as stated: a timer of 1 and an elapsed time
`dloga / hubble` = 10^-17 > 0, which the subtraction of doubles absorbs
(1 - 10^-17 rounds to 1): the timer after `winds_evolve` is 1, not below 1. -/
theorem winds_evolve_absorbs_small_step :
    ((fun _ => gas0 5 1) 0 : Particle).DelayTime > 0 ∧
    oracle_absorb.get_dloga_for_bin (gas0 5 1).TimeBin (gas0 5 1).Ti_drift / 1 > 0 ∧
    (winds_evolve oracle_absorb (params0 2) (fun _ => gas0 5 1) 0 1 1 0).DelayTime = 1 ∧
    ¬ ((winds_evolve oracle_absorb (params0 2) (fun _ => gas0 5 1) 0 1 1 0).DelayTime <
      ((fun _ => gas0 5 1) 0 : Particle).DelayTime) := by
  have h1 : (winds_evolve oracle_absorb (params0 2) (fun _ => gas0 5 1) 0 1 1 0).DelayTime
      = 1 := by
    norm_num [winds_evolve, DMAX, oracle_absorb, oracle0, params0, gas0]
  refine ⟨by norm_num [gas0], by norm_num [oracle_absorb], h1, ?_⟩
  rw [h1]
  norm_num [gas0]

/-- C3 (amended): timer monotonicity of `winds_evolve`, for a subtraction of
doubles that never returns more than its first operand when the second is
positive.  For a particle with `DelayTime` t > 0 and a step whose proper elapsed
time `dloga / hubble` is positive, the timer after the call is t' with
0 ≤ t' ≤ t, and t' < t exactly when the particle is re-coupled by its density,
or t is above `MaxWindFreeTravelTime`, or the subtraction of the elapsed time
from t returns less than t (the elapsed time is not absorbed); for a particle
whose timer is exactly 0 the call changes nothing at all, and neither does a
second call. -/
theorem winds_evolve_timer_monotone (o : Oracle) (wp : WindParams) (P : Nat → Particle)
    (i : Nat) (a3inv hubble : ℚ)
    (hsub : ∀ a b : ℚ, 0 < b → o.sub_double a b ≤ a) :
    ((P i).DelayTime > 0 →
      o.get_dloga_for_bin (P i).TimeBin (P i).Ti_drift / hubble > 0 →
      0 ≤ (winds_evolve o wp P i a3inv hubble i).DelayTime ∧
      (winds_evolve o wp P i a3inv hubble i).DelayTime ≤ (P i).DelayTime ∧
      ((winds_evolve o wp P i a3inv hubble i).DelayTime < (P i).DelayTime ↔
        ((P i).Density * a3inv < wp.WindFreeTravelDensThresh ∨
          (P i).DelayTime > wp.MaxWindFreeTravelTime ∨
          o.sub_double (P i).DelayTime
            (o.get_dloga_for_bin (P i).TimeBin (P i).Ti_drift / hubble) < (P i).DelayTime))) ∧
    ((P i).DelayTime = 0 →
      winds_evolve o wp P i a3inv hubble = P ∧
      winds_evolve o wp (winds_evolve o wp P i a3inv hubble) i a3inv hubble = P) := by
  have hnoop : (P i).DelayTime = 0 → winds_evolve o wp P i a3inv hubble = P := by
    intro h0
    unfold winds_evolve
    simp [h0]
  constructor
  · intro ht hdt
    by_cases hd : (P i).Density * a3inv < wp.WindFreeTravelDensThresh
    · have hz : (winds_evolve o wp P i a3inv hubble i).DelayTime = 0 := by
        unfold winds_evolve
        simp [ht, hd]
      rw [hz]
      exact ⟨le_refl _, ht.le, fun _ => Or.inl hd, fun _ => ht⟩
    · by_cases hm : (P i).DelayTime > wp.MaxWindFreeTravelTime
      · have hs := hsub wp.MaxWindFreeTravelTime _ hdt
        have hz : (winds_evolve o wp P i a3inv hubble i).DelayTime =
            DMAX (o.sub_double wp.MaxWindFreeTravelTime
              (o.get_dloga_for_bin (P i).TimeBin (P i).Ti_drift / hubble)) 0 := by
          unfold winds_evolve
          simp [ht, hd, hm]
        rw [hz]
        unfold DMAX
        split_ifs with hpos
        · exact ⟨hpos.le, by linarith, fun _ => Or.inr (Or.inl hm), fun _ => by linarith⟩
        · exact ⟨le_refl _, ht.le, fun _ => Or.inr (Or.inl hm), fun _ => ht⟩
      · have hs := hsub (P i).DelayTime _ hdt
        have hz : (winds_evolve o wp P i a3inv hubble i).DelayTime =
            DMAX (o.sub_double (P i).DelayTime
              (o.get_dloga_for_bin (P i).TimeBin (P i).Ti_drift / hubble)) 0 := by
          unfold winds_evolve
          simp [ht, hd, hm]
        rw [hz]
        unfold DMAX
        split_ifs with hpos
        · refine ⟨hpos.le, hs, fun h => Or.inr (Or.inr h), ?_⟩
          rintro (h | h | h)
          · exact absurd h hd
          · exact absurd h hm
          · exact h
        · refine ⟨le_refl _, ht.le, fun _ => Or.inr (Or.inr ?_), fun _ => ht⟩
          linarith [not_lt.mp hpos]
  · intro h0
    refine ⟨hnoop h0, ?_⟩
    rw [hnoop h0]
    exact hnoop h0

/-- Witness of C3 (amended): with an exact subtraction a timer of 3 with unit
elapsed time drops to a value in [0, 3), and a timer of 0 stays put. -/
theorem winds_evolve_timer_monotone_witness :
    (0 ≤ (winds_evolve oracle0 (params0 2) (fun _ => gas0 5 3) 0 1 1 0).DelayTime ∧
      (winds_evolve oracle0 (params0 2) (fun _ => gas0 5 3) 0 1 1 0).DelayTime < 3) ∧
    (winds_evolve oracle0 (params0 2) (fun _ => gas0 5 0) 0 1 1 = (fun _ => gas0 5 0) ∧
      winds_evolve oracle0 (params0 2)
        (winds_evolve oracle0 (params0 2) (fun _ => gas0 5 0) 0 1 1) 0 1 1 =
        (fun _ => gas0 5 0)) :=
  have hsub : ∀ a b : ℚ, 0 < b → oracle0.sub_double a b ≤ a := by
    intro a b hb
    show a - b ≤ a
    linarith
  have h3 := (winds_evolve_timer_monotone oracle0 (params0 2) (fun _ => gas0 5 3) 0 1 1
    hsub).1 (by norm_num [gas0]) (by norm_num [gas0, oracle0])
  ⟨⟨h3.1, h3.2.2.mpr (Or.inr (Or.inr (by
      show (3 : ℚ) - 1 / 1 < 3
      norm_num)))⟩,
   (winds_evolve_timer_monotone oracle0 (params0 2) (fun _ => gas0 5 0) 0 1 1 hsub).2 rfl⟩

/-- C4: re-coupling in `winds_evolve`.  A particle with a positive timer whose
physical density `Density * a3inv` is below `WindFreeTravelDensThresh` has timer
exactly 0 after the call, whatever the timer, time bin and Hubble rate. -/
theorem winds_evolve_recouples (o : Oracle) (wp : WindParams) (P : Nat → Particle)
    (i : Nat) (a3inv hubble : ℚ)
    (ht : (P i).DelayTime > 0)
    (hd : (P i).Density * a3inv < wp.WindFreeTravelDensThresh) :
    (winds_evolve o wp P i a3inv hubble i).DelayTime = 0 := by
  unfold winds_evolve
  simp [ht, hd]

/-- Witness of C4: density 1/2 below the threshold 1, timer 3. -/
theorem winds_evolve_recouples_witness :
    (winds_evolve oracle0 (params0 2) (fun _ => gas0 (1 / 2) 3) 0 1 1 0).DelayTime = 0 :=
  winds_evolve_recouples oracle0 (params0 2) (fun _ => gas0 (1 / 2) 3) 0 1 1
    (by norm_num [gas0]) (by norm_num [gas0, params0])

/-- C1: kick winner uniqueness.  Let `s` be any ordering of the candidate buffer
`buf` that is sorted by `cmp_by_part_id`.  The resolver scan on `s` is the
sequential application of the kept candidates; every kept candidate is a
candidate of the buffer with the smallest `StarDistance` among the candidates of
its target, ties in distance broken by the smallest `StarID`; every target that
occurs in the buffer has exactly one kept candidate; the number of kept
candidates is the number of distinct `part_index` values; and a scan that
returns has counted that many kicks and has given each target the outcome of its
kept candidate. -/
theorem resolver_applies_nearest_star (o : Oracle) (wp : WindParams) (Time : ℚ)
    (P : Nat → Particle) (buf s : List StarKick) (hp : s.Perm buf) (hs : SortedKicks s) :
    resolver_scan o wp Time P s =
        apply_kicks o wp Time { last_part := -1, nkicked := 0, P := P } (kept_kicks (-1) s) ∧
    (∀ k ∈ kept_kicks (-1) s, k ∈ buf ∧
      ∀ c ∈ buf, c.part_index = k.part_index →
        k.StarDistance < c.StarDistance ∨
          (k.StarDistance = c.StarDistance ∧ k.StarID ≤ c.StarID)) ∧
    (∀ c ∈ buf, ((kept_kicks (-1) s).map StarKick.part_index).count c.part_index = 1) ∧
    (kept_kicks (-1) s).length = (buf.map StarKick.part_index).dedup.length ∧
    (∀ st1 : ScanState, resolver_scan o wp Time P s = Except.ok st1 →
      st1.nkicked = ((buf.map StarKick.part_index).dedup.length : Int) ∧
      ∀ k ∈ kept_kicks (-1) s, st1.P k.part_index = resolved_particle o wp Time P k) := by
  obtain ⟨h1, h2, h3⟩ :=
    kept_kicks_sorted s (-1) (sortedKicks_pairwise s hs) (fun c _ => by omega)
  have hnd : ((kept_kicks (-1) s).map StarKick.part_index).Nodup := kept_kicks_nodup s hs
  have hmem : ∀ x : Nat, x ∈ (kept_kicks (-1) s).map StarKick.part_index ↔
      x ∈ buf.map StarKick.part_index := by
    intro x
    constructor
    · intro hx
      obtain ⟨k, hk, rfl⟩ := List.mem_map.mp hx
      exact List.mem_map_of_mem _ (hp.subset (kept_kicks_subset s _ k hk))
    · intro hx
      obtain ⟨c, hc, rfl⟩ := List.mem_map.mp hx
      obtain ⟨k, hk, hkc⟩ := h2 c (hp.symm.subset hc) (by omega)
      exact hkc ▸ List.mem_map_of_mem _ hk
  have hlen : (kept_kicks (-1) s).length = (buf.map StarKick.part_index).dedup.length := by
    have hperm : ((kept_kicks (-1) s).map StarKick.part_index).Perm
        (buf.map StarKick.part_index).dedup := by
      rw [List.perm_ext_iff_of_nodup hnd (List.nodup_dedup _)]
      intro x
      rw [hmem x, List.mem_dedup]
    have := hperm.length_eq
    simpa using this
  refine ⟨?_, ?_, ?_, hlen, ?_⟩
  · unfold resolver_scan
    rw [resolver_loop_eq_apply_kept]
  · intro k hk
    refine ⟨hp.subset (kept_kicks_subset s _ k hk), ?_⟩
    intro c hc hck
    have hle := (cmp_by_part_id_le_iff k c).mp ((h1 k hk).2 c (hp.symm.subset hc) hck)
    rcases hle with hlt | ⟨_, hrest⟩
    · omega
    · exact hrest
  · intro c hc
    exact List.count_eq_one_of_mem hnd ((hmem _).mpr (List.mem_map_of_mem _ hc))
  · intro st1 hst
    have hnf := resolver_scan_ok_not_fatal o wp Time P s hs st1 hst
    obtain ⟨st2, e1, e2, e3, _⟩ := resolver_scan_ok o wp Time P s hs hnf
    rw [hst] at e1
    cases e1
    refine ⟨?_, e3⟩
    rw [e2, hlen]

/-- Witness of C1 on the buffer `[kickB, kickD, kickA, kickC]`, sorted as
`[kickD, kickB, kickC, kickA]`. -/
theorem resolver_applies_nearest_star_witness :
    resolver_scan oracle0 (params0 8) 1 (fun _ => gas0 5 0) [kickD, kickB, kickC, kickA] =
        apply_kicks oracle0 (params0 8) 1
          { last_part := -1, nkicked := 0, P := fun _ => gas0 5 0 }
          (kept_kicks (-1) [kickD, kickB, kickC, kickA]) ∧
    (∀ k ∈ kept_kicks (-1) [kickD, kickB, kickC, kickA], k ∈ [kickB, kickD, kickA, kickC] ∧
      ∀ c ∈ [kickB, kickD, kickA, kickC], c.part_index = k.part_index →
        k.StarDistance < c.StarDistance ∨
          (k.StarDistance = c.StarDistance ∧ k.StarID ≤ c.StarID)) ∧
    (∀ c ∈ [kickB, kickD, kickA, kickC],
      ((kept_kicks (-1) [kickD, kickB, kickC, kickA]).map StarKick.part_index).count
        c.part_index = 1) ∧
    (kept_kicks (-1) [kickD, kickB, kickC, kickA]).length =
      ([kickB, kickD, kickA, kickC].map StarKick.part_index).dedup.length ∧
    (∀ st1 : ScanState,
      resolver_scan oracle0 (params0 8) 1 (fun _ => gas0 5 0) [kickD, kickB, kickC, kickA] =
        Except.ok st1 →
      st1.nkicked = (([kickB, kickD, kickA, kickC].map StarKick.part_index).dedup.length : Int) ∧
      ∀ k ∈ kept_kicks (-1) [kickD, kickB, kickC, kickA],
        st1.P k.part_index = resolved_particle oracle0 (params0 8) 1 (fun _ => gas0 5 0) k) :=
  resolver_applies_nearest_star oracle0 (params0 8) 1 (fun _ => gas0 5 0)
    [kickB, kickD, kickA, kickC] [kickD, kickB, kickC, kickA]
    ((List.Perm.swap kickB kickD [kickC, kickA]).trans
      (((List.Perm.swap kickA kickC []).cons kickD).cons kickB))
    example_sorted

/-- The kept candidates of the example buffer: star 9 for target 1, and for
target 2 the star at distance 1/2 with the smaller identifier, star 3. -/
theorem kept_kicks_example :
    kept_kicks (-1) [kickD, kickB, kickC, kickA] = [kickD, kickB] := by
  simp [kept_kicks, kickA, kickB, kickC, kickD]

/-- Order independence of kick resolution up to the keys.  Let `buf1` and `buf2`
be permutations of one another and `s1`, `s2` orderings of them sorted by
`cmp_by_part_id`.  The kept candidates have the same keys (target, distance,
star identifier) in the same order; and when candidates of the buffer that agree
on the three keys also carry the same kick speed and thermal energy, the kept
candidates are the same and the resolver scans give the same result. -/
theorem resolver_scan_unique_up_to_keys (o : Oracle) (wp : WindParams) (Time : ℚ)
    (P : Nat → Particle) (buf1 buf2 s1 s2 : List StarKick) (hb : buf1.Perm buf2)
    (h1 : s1.Perm buf1) (h2 : s2.Perm buf2) (hs1 : SortedKicks s1) (hs2 : SortedKicks s2) :
    (kept_kicks (-1) s1).map StarKick.key = (kept_kicks (-1) s2).map StarKick.key ∧
    ((∀ a ∈ buf1, ∀ b ∈ buf1, a.key = b.key →
        a.StarKickVelocity = b.StarKickVelocity ∧ a.StarTherm = b.StarTherm) →
      s1 = s2 ∧ kept_kicks (-1) s1 = kept_kicks (-1) s2 ∧
      resolver_scan o wp Time P s1 = resolver_scan o wp Time P s2) := by
  have hp : s1.Perm s2 := (h1.trans hb).trans h2.symm
  refine ⟨kept_kicks_map_key s1 s2 (-1) (sorted_keys_unique s1 s2 hp hs1 hs2), ?_⟩
  intro hpay
  have heq : s1 = s2 := by
    apply sorted_perm_unique _ _ _ hp (sortedKicks_pairwise s1 hs1)
      (sortedKicks_pairwise s2 hs2)
    intro a ha b hb2 hab hba
    have hk := cmp_by_part_id_antisymm_key a b hab hba
    obtain ⟨hv, ht⟩ := hpay a (h1.subset ha) b (h1.subset hb2) hk
    simp only [StarKick.key, Prod.mk.injEq] at hk
    obtain ⟨k1, k2, k3⟩ := hk
    cases a
    cases b
    simp_all
  rw [heq]
  exact ⟨rfl, rfl, rfl⟩

/-- C2: order independence of kick resolution.  Every candidate that
`sfr_wind_feedback_ngbiter` appends for a star query and a visited neighbour is
the candidate `feedback_kick` of that query, neighbour and distance.  Let `buf1`
be a buffer of such candidates, generated at scale factor `Time` for stars of a
particle table with distinct identifiers, each star with its query
`sfr_wind_copy`; let `buf2` be a permutation of `buf1` and `s1`, `s2` orderings
of the two buffers sorted by `cmp_by_part_id`.  Then the two sorted buffers are
the same list, the resolver keeps the same winning candidate for every target,
and the two scans give the same result: the same final particle table
(velocities, entropies and timers), or the same abort. -/
theorem resolver_order_independent (o : Oracle) (wp : WindParams) (BoxSize Time hubble : ℚ)
    (P : Nat → Particle) (W : Nat → winddata) :
    (∀ (I : TreeWalkQueryWind) (iter iter1 : TreeWalkNgbIterWind) (priv priv1 : WindPriv),
      sfr_wind_feedback_ngbiter o wp P I iter priv = Except.ok (iter1, priv1) →
      priv1.nkicks ≠ priv.nkicks →
      priv1.nkicks = priv.nkicks + 1 ∧
      priv1.kicks priv.nkicks = feedback_kick wp priv.Time I iter.other.toNat iter.r) ∧
    (∀ (buf1 buf2 s1 s2 : List StarKick),
      (∀ a b : Nat, (P a).ID = (P b).ID → a = b) →
      (∀ k ∈ buf1, ∃ (place n : Nat) (r : ℚ),
        k = feedback_kick wp Time (sfr_wind_copy o BoxSize hubble P place (W place)) n r) →
      buf1.Perm buf2 → s1.Perm buf1 → s2.Perm buf2 → SortedKicks s1 → SortedKicks s2 →
      s1 = s2 ∧ kept_kicks (-1) s1 = kept_kicks (-1) s2 ∧
      resolver_scan o wp Time P s1 = resolver_scan o wp Time P s2) := by
  constructor
  · intro I iter iter1 priv priv1 h hne
    rcases feedback_ok_appended o wp P I iter iter1 priv priv1 h with hsame | happ
    · exact absurd (by rw [hsame]) hne
    · subst happ
      refine ⟨rfl, ?_⟩
      dsimp only
      rw [Function.update_same]
  · intro buf1 buf2 s1 s2 huniq hgen hb h1 h2 hs1 hs2
    apply (resolver_scan_unique_up_to_keys o wp Time P buf1 buf2 s1 s2 hb h1 h2 hs1 hs2).2
    intro a ha b hb2 hk
    obtain ⟨pa, na, ra, rfl⟩ := hgen a ha
    obtain ⟨pb, nb, rb, rfl⟩ := hgen b hb2
    rw [feedback_kick_key_inj o wp BoxSize Time hubble P W huniq pa pb na nb ra rb hk]
    exact ⟨rfl, rfl⟩

/-- Witness of C2: three candidates of the stars 0 and 1 of `parts_uniq` for the
gas particles 2 and 3, appended in two different orders; both buffers sort to the
same list and the scans agree. -/
theorem resolver_order_independent_witness :
    [kick_uniq 1 2 (1 / 2), kick_uniq 0 2 1, kick_uniq 0 3 (1 / 2)] =
      [kick_uniq 1 2 (1 / 2), kick_uniq 0 2 1, kick_uniq 0 3 (1 / 2)] ∧
    kept_kicks (-1) [kick_uniq 1 2 (1 / 2), kick_uniq 0 2 1, kick_uniq 0 3 (1 / 2)] =
      kept_kicks (-1) [kick_uniq 1 2 (1 / 2), kick_uniq 0 2 1, kick_uniq 0 3 (1 / 2)] ∧
    resolver_scan oracle0 (params0 8) 1 parts_uniq
        [kick_uniq 1 2 (1 / 2), kick_uniq 0 2 1, kick_uniq 0 3 (1 / 2)] =
      resolver_scan oracle0 (params0 8) 1 parts_uniq
        [kick_uniq 1 2 (1 / 2), kick_uniq 0 2 1, kick_uniq 0 3 (1 / 2)] :=
  have hs : SortedKicks [kick_uniq 1 2 (1 / 2), kick_uniq 0 2 1, kick_uniq 0 3 (1 / 2)] := by
    unfold SortedKicks
    simp only [List.chain'_cons, List.chain'_singleton, and_true]
    norm_num [cmp_by_part_id, kick_uniq, feedback_kick]
  (resolver_order_independent oracle0 (params0 8) 100 1 1 parts_uniq
    (fun _ => sample_done)).2
    [kick_uniq 0 2 1, kick_uniq 1 2 (1 / 2), kick_uniq 0 3 (1 / 2)]
    [kick_uniq 0 3 (1 / 2), kick_uniq 0 2 1, kick_uniq 1 2 (1 / 2)]
    [kick_uniq 1 2 (1 / 2), kick_uniq 0 2 1, kick_uniq 0 3 (1 / 2)]
    [kick_uniq 1 2 (1 / 2), kick_uniq 0 2 1, kick_uniq 0 3 (1 / 2)]
    (by
      intro a b hab
      unfold parts_uniq at hab
      split_ifs at hab <;> simp at hab <;> omega)
    (by
      intro k hk
      simp only [List.mem_cons, List.mem_singleton, List.not_mem_nil, or_false] at hk
      rcases hk with rfl | rfl | rfl
      · exact ⟨0, 2, 1, rfl⟩
      · exact ⟨1, 2, 1 / 2, rfl⟩
      · exact ⟨0, 3, 1 / 2, rfl⟩)
    ((List.Perm.cons (kick_uniq 0 2 1)
        (List.Perm.swap (kick_uniq 0 3 (1 / 2)) (kick_uniq 1 2 (1 / 2)) [])).trans
      (List.Perm.swap (kick_uniq 0 3 (1 / 2)) (kick_uniq 0 2 1) [kick_uniq 1 2 (1 / 2)]))
    (List.Perm.swap (kick_uniq 0 2 1) (kick_uniq 1 2 (1 / 2)) [kick_uniq 0 3 (1 / 2)])
    ((List.Perm.cons (kick_uniq 1 2 (1 / 2))
        (List.Perm.swap (kick_uniq 0 3 (1 / 2)) (kick_uniq 0 2 1) [])).trans
      ((List.Perm.swap (kick_uniq 0 3 (1 / 2)) (kick_uniq 1 2 (1 / 2)) [kick_uniq 0 2 1]).trans
        (List.Perm.cons (kick_uniq 0 3 (1 / 2))
          (List.Perm.swap (kick_uniq 0 2 1) (kick_uniq 1 2 (1 / 2)) []))))
    hs hs

/-- C6: kick application.  On a sorted buffer at scale factor `Time > 0`, none of
whose kept candidates trips the fatal check, the resolver scan returns, and for
every kept candidate, of speed v (which is positive), the velocity of its target
afterwards is u + v * d component by component, with u the velocity before and d
the direction `get_wind_dir` gives for the target; when d · d = 1 the velocity
component along d has grown by exactly v. -/
theorem resolver_kick_velocity (o : Oracle) (wp : WindParams) (Time : ℚ)
    (P : Nat → Particle) (s : List StarKick) (hs : SortedKicks s) (hT : Time > 0)
    (hnf : ∀ k ∈ kept_kicks (-1) s, ¬ fatal_kick o wp Time P k) :
    ∃ st1 : ScanState, resolver_scan o wp Time P s = Except.ok st1 ∧
      ∀ k ∈ kept_kicks (-1) s,
        k.StarKickVelocity > 0 ∧
        (st1.P k.part_index).Vel =
          ⟨(P k.part_index).Vel.x0 + k.StarKickVelocity * (get_wind_dir o P k.part_index).x0,
           (P k.part_index).Vel.x1 + k.StarKickVelocity * (get_wind_dir o P k.part_index).x1,
           (P k.part_index).Vel.x2 + k.StarKickVelocity * (get_wind_dir o P k.part_index).x2⟩ ∧
        (Vec3.dot (get_wind_dir o P k.part_index) (get_wind_dir o P k.part_index) = 1 →
          Vec3.dot (st1.P k.part_index).Vel (get_wind_dir o P k.part_index) =
            Vec3.dot (P k.part_index).Vel (get_wind_dir o P k.part_index) + k.StarKickVelocity) := by
  obtain ⟨st1, e1, _, e3, _⟩ := resolver_scan_ok o wp Time P s hs hnf
  refine ⟨st1, e1, ?_⟩
  intro k hk
  have hv : k.StarKickVelocity > 0 := by
    have := hnf k hk
    unfold fatal_kick at this
    push_neg at this
    exact this.1
  have hvel : (st1.P k.part_index).Vel =
      ⟨(P k.part_index).Vel.x0 + k.StarKickVelocity * (get_wind_dir o P k.part_index).x0,
       (P k.part_index).Vel.x1 + k.StarKickVelocity * (get_wind_dir o P k.part_index).x1,
       (P k.part_index).Vel.x2 + k.StarKickVelocity * (get_wind_dir o P k.part_index).x2⟩ := by
    rw [e3 k hk]
    unfold resolved_particle kick_particle
    simp only [hv, hT, and_self, if_true]
    split_ifs <;> rfl
  refine ⟨hv, hvel, ?_⟩
  intro hd
  rw [hvel]
  unfold Vec3.dot at hd ⊢
  simp only []
  linear_combination k.StarKickVelocity * hd

/-- Witness of C6: the example buffer at scale factor 1. -/
theorem resolver_kick_velocity_witness :
    ∃ st1 : ScanState,
      resolver_scan oracle0 (params0 8) 1 (fun _ => gas0 5 0) [kickD, kickB, kickC, kickA] =
        Except.ok st1 ∧
      ∀ k ∈ kept_kicks (-1) [kickD, kickB, kickC, kickA],
        k.StarKickVelocity > 0 ∧
        (st1.P k.part_index).Vel =
          ⟨(gas0 5 0).Vel.x0 +
              k.StarKickVelocity * (get_wind_dir oracle0 (fun _ => gas0 5 0) k.part_index).x0,
           (gas0 5 0).Vel.x1 +
              k.StarKickVelocity * (get_wind_dir oracle0 (fun _ => gas0 5 0) k.part_index).x1,
           (gas0 5 0).Vel.x2 +
              k.StarKickVelocity * (get_wind_dir oracle0 (fun _ => gas0 5 0) k.part_index).x2⟩ ∧
        (Vec3.dot (get_wind_dir oracle0 (fun _ => gas0 5 0) k.part_index)
            (get_wind_dir oracle0 (fun _ => gas0 5 0) k.part_index) = 1 →
          Vec3.dot (st1.P k.part_index).Vel
              (get_wind_dir oracle0 (fun _ => gas0 5 0) k.part_index) =
            Vec3.dot (gas0 5 0).Vel (get_wind_dir oracle0 (fun _ => gas0 5 0) k.part_index) +
              k.StarKickVelocity) :=
  resolver_kick_velocity oracle0 (params0 8) 1 (fun _ => gas0 5 0) [kickD, kickB, kickC, kickA]
    example_sorted
    (by norm_num)
    (by
      intro k hk
      have hk2 : k = kickD ∨ k = kickB := by
        simpa [kept_kicks, kickA, kickB, kickC, kickD] using hk
      rcases hk2 with rfl | rfl
      · simp [fatal_kick, oracle0, kickD]
      · simp [fatal_kick, oracle0, kickB])

/-- C7: timer assignment by the resolver.  On a sorted buffer at scale factor
`Time > 0`, none of whose kept candidates trips the fatal check, the resolver
scan returns, and for every kept candidate, of speed v > 0, the timer of its
target afterwards is min(WindFreeTravelLength / (v / Time), MaxWindFreeTravelTime)
when `winds_ever_decouple` returns 1, and is the timer the target had before
otherwise. -/
theorem resolver_kick_timer (o : Oracle) (wp : WindParams) (Time : ℚ)
    (P : Nat → Particle) (s : List StarKick) (hs : SortedKicks s) (hT : Time > 0)
    (hnf : ∀ k ∈ kept_kicks (-1) s, ¬ fatal_kick o wp Time P k) :
    ∃ st1 : ScanState, resolver_scan o wp Time P s = Except.ok st1 ∧
      ∀ k ∈ kept_kicks (-1) s,
        k.StarKickVelocity > 0 ∧
        (winds_ever_decouple wp = 1 →
          (st1.P k.part_index).DelayTime =
            min (wp.WindFreeTravelLength / (k.StarKickVelocity / Time))
              wp.MaxWindFreeTravelTime) ∧
        (winds_ever_decouple wp ≠ 1 →
          (st1.P k.part_index).DelayTime = (P k.part_index).DelayTime) := by
  obtain ⟨st1, e1, _, e3, _⟩ := resolver_scan_ok o wp Time P s hs hnf
  refine ⟨st1, e1, ?_⟩
  intro k hk
  have hv : k.StarKickVelocity > 0 := by
    have := hnf k hk
    unfold fatal_kick at this
    push_neg at this
    exact this.1
  refine ⟨hv, ?_, ?_⟩
  · intro hdec
    rw [e3 k hk]
    unfold resolved_particle kick_particle
    simp only [hv, hT, and_self, if_true, hdec]
    by_cases hgt : wp.WindFreeTravelLength / (k.StarKickVelocity / Time) >
        wp.MaxWindFreeTravelTime
    · simp [hgt, min_eq_right hgt.le]
    · simp [hgt, min_eq_left (not_lt.mp hgt)]
  · intro hdec
    have h0 : winds_ever_decouple wp = 0 := by
      unfold winds_ever_decouple at hdec ⊢
      split_ifs at hdec ⊢ <;> simp_all
    rw [e3 k hk]
    unfold resolved_particle kick_particle
    simp [hv, hT, h0]

/-- Witness of C7: the example buffer at scale factor 1, with free-travel length
20 and maximum free-travel time 4. -/
theorem resolver_kick_timer_witness :
    ∃ st1 : ScanState,
      resolver_scan oracle0 (params0 8) 1 (fun _ => gas0 5 0) [kickD, kickB, kickC, kickA] =
        Except.ok st1 ∧
      ∀ k ∈ kept_kicks (-1) [kickD, kickB, kickC, kickA],
        k.StarKickVelocity > 0 ∧
        (winds_ever_decouple (params0 8) = 1 →
          (st1.P k.part_index).DelayTime =
            min ((params0 8).WindFreeTravelLength / (k.StarKickVelocity / 1))
              (params0 8).MaxWindFreeTravelTime) ∧
        (winds_ever_decouple (params0 8) ≠ 1 →
          (st1.P k.part_index).DelayTime = (gas0 5 0).DelayTime) :=
  resolver_kick_timer oracle0 (params0 8) 1 (fun _ => gas0 5 0) [kickD, kickB, kickC, kickA]
    example_sorted
    (by norm_num)
    (by
      intro k hk
      have hk2 : k = kickD ∨ k = kickB := by
        simpa [kept_kicks, kickA, kickB, kickC, kickD] using hk
      rcases hk2 with rfl | rfl
      · simp [fatal_kick, oracle0, kickD]
      · simp [fatal_kick, oracle0, kickB])

/-- Counterexample to C9 as stated: under the wind model with only the
fixed-efficiency flag set, the resolver gives a gas particle the positive timer
4, and `winds_is_particle_decoupled` returns 0 for a gas particle with that
timer. -/
theorem decoupled_needs_model_flag :
    (resolved_particle oracle0 (params0 8) 1 (fun _ => gas0 5 0) kickB).DelayTime = 4 ∧
    (gas0 5 4).Type_ = 0 ∧ (gas0 5 4).DelayTime > 0 ∧
    winds_is_particle_decoupled (params0 8) (fun _ => gas0 5 4) 0 = 0 := by
  refine ⟨?_, rfl, ?_, ?_⟩
  · norm_num [resolved_particle, kick_particle, kickB, winds_ever_decouple, params0]
  · norm_num [gas0]
  · have h : HAS (params0 8).WindModel WIND_DECOUPLE_SPH = false := by decide
    simp [winds_is_particle_decoupled, h]

/-- C9 (amended): `winds_is_particle_decoupled(i)` returns 1 exactly when the
wind model has the flag `WIND_DECOUPLE_SPH`, particle i is a gas particle
(type 0) and its timer `DelayTime` is positive; it returns 0 otherwise. -/
theorem winds_is_particle_decoupled_iff (wp : WindParams) (P : Nat → Particle) (i : Nat) :
    (winds_is_particle_decoupled wp P i = 1 ↔
      (HAS wp.WindModel WIND_DECOUPLE_SPH = true ∧ (P i).Type_ = 0 ∧ (P i).DelayTime > 0)) ∧
    (winds_is_particle_decoupled wp P i = 0 ↔
      ¬ (HAS wp.WindModel WIND_DECOUPLE_SPH = true ∧ (P i).Type_ = 0 ∧ (P i).DelayTime > 0)) := by
  unfold winds_is_particle_decoupled
  by_cases h : HAS wp.WindModel WIND_DECOUPLE_SPH = true ∧ (P i).Type_ = 0 ∧ (P i).DelayTime > 0
  · simp only [h, and_self, if_true, not_true_eq_false, iff_false, true_and]
    decide
  · simp only [h, if_false, not_false_eq_true, iff_true, iff_false, true_and, and_true]
    decide

/-- C10: the fatal condition of the resolver.  For one candidate applied from
any loop state: a speed that is not positive aborts the run (error 5) and the
kick block has changed nothing in the particle table; a speed that is not finite
aborts; a timer of the target that is not finite after the kick block aborts; a
speed that is positive and finite with a finite timer does not abort.  For the
whole scan of a sorted buffer: it aborts if some kept candidate meets the fatal
condition and returns if none does. -/
theorem resolver_fatal_condition (o : Oracle) (wp : WindParams) (Time : ℚ) :
    (∀ (st : ScanState) (k : StarKick), k.StarKickVelocity ≤ 0 →
      resolver_kick o wp Time st k = Except.error 5 ∧
      Function.update st.P k.part_index
        (kick_particle o wp Time (get_wind_dir o st.P k.part_index) k (st.P k.part_index)) =
        st.P) ∧
    (∀ (st : ScanState) (k : StarKick), o.isfinite k.StarKickVelocity = false →
      resolver_kick o wp Time st k = Except.error 5) ∧
    (∀ (st : ScanState) (k : StarKick),
      o.isfinite (kick_particle o wp Time (get_wind_dir o st.P k.part_index) k
        (st.P k.part_index)).DelayTime = false →
      resolver_kick o wp Time st k = Except.error 5) ∧
    (∀ (st : ScanState) (k : StarKick), k.StarKickVelocity > 0 →
      o.isfinite k.StarKickVelocity = true →
      o.isfinite (kick_particle o wp Time (get_wind_dir o st.P k.part_index) k
        (st.P k.part_index)).DelayTime = true →
      ∃ st1 : ScanState, resolver_kick o wp Time st k = Except.ok st1) ∧
    (∀ (P : Nat → Particle) (s : List StarKick), SortedKicks s →
      ((∃ k ∈ kept_kicks (-1) s, k.StarKickVelocity ≤ 0 ∨
          o.isfinite k.StarKickVelocity = false ∨
          o.isfinite (resolved_particle o wp Time P k).DelayTime = false) →
        resolver_scan o wp Time P s = Except.error 5) ∧
      ((∀ k ∈ kept_kicks (-1) s, k.StarKickVelocity > 0 ∧
          o.isfinite k.StarKickVelocity = true ∧
          o.isfinite (resolved_particle o wp Time P k).DelayTime = true) →
        ∃ st1 : ScanState, resolver_scan o wp Time P s = Except.ok st1)) := by
  refine ⟨?_, ?_, ?_, ?_, ?_⟩
  · intro st k hv
    constructor
    · rw [resolver_kick_eq]
      have : fatal_kick o wp Time st.P k := Or.inl hv
      simp only [this, if_true]
    · have hk : kick_particle o wp Time (get_wind_dir o st.P k.part_index) k
          (st.P k.part_index) = st.P k.part_index := by
        unfold kick_particle
        simp only [gt_iff_lt, not_lt.mpr hv, false_and, if_false]
      rw [hk, Function.update_eq_self]
  · intro st k hf
    rw [resolver_kick_eq]
    have : fatal_kick o wp Time st.P k := Or.inr (Or.inl hf)
    simp only [this, if_true]
  · intro st k hf
    rw [resolver_kick_eq]
    have : fatal_kick o wp Time st.P k := Or.inr (Or.inr hf)
    simp only [this, if_true]
  · intro st k hv hf1 hf2
    rw [resolver_kick_eq]
    have : ¬ fatal_kick o wp Time st.P k := by
      unfold fatal_kick resolved_particle
      rw [hf1, hf2]
      simp [hv]
    simp only [this, if_false]
    exact ⟨_, rfl⟩
  · intro P s hs
    constructor
    · intro hf
      exact resolver_scan_fatal o wp Time P s hs hf
    · intro hok
      obtain ⟨st1, e1, _⟩ := resolver_scan_ok o wp Time P s hs (by
        intro k hk
        obtain ⟨hv, hf1, hf2⟩ := hok k hk
        unfold fatal_kick
        rw [hf1, hf2]
        simp [hv])
      exact ⟨st1, e1⟩

/-- Witness of C10: with `isfinite` failing above 100, a candidate of speed 0
and one of speed 200 abort the scan, and the example buffer (speeds 2) runs to
the end. -/
theorem resolver_fatal_condition_witness :
    (resolver_kick oracle_bounded (params0 8) 1
        { last_part := -1, nkicked := 0, P := fun _ => gas0 5 0 } kickZero = Except.error 5 ∧
      Function.update (fun _ => gas0 5 0) kickZero.part_index
        (kick_particle oracle_bounded (params0 8) 1
          (get_wind_dir oracle_bounded (fun _ => gas0 5 0) kickZero.part_index) kickZero
          (gas0 5 0)) = (fun _ => gas0 5 0)) ∧
    resolver_kick oracle_bounded (params0 8) 1
        { last_part := -1, nkicked := 0, P := fun _ => gas0 5 0 } kickFast = Except.error 5 ∧
    resolver_scan oracle_bounded (params0 8) 1 (fun _ => gas0 5 0) [kickFast] =
      Except.error 5 ∧
    ∃ st1 : ScanState,
      resolver_scan oracle_bounded (params0 8) 1 (fun _ => gas0 5 0)
        [kickD, kickB, kickC, kickA] = Except.ok st1 :=
  have h := resolver_fatal_condition oracle_bounded (params0 8) 1
  have hs1 : SortedKicks [kickFast] := by
    unfold SortedKicks
    simp
  have hs2 : SortedKicks [kickD, kickB, kickC, kickA] := example_sorted
  ⟨h.1 { last_part := -1, nkicked := 0, P := fun _ => gas0 5 0 } kickZero
      (by norm_num [kickZero]),
   h.2.1 { last_part := -1, nkicked := 0, P := fun _ => gas0 5 0 } kickFast
      (by norm_num [oracle_bounded, kickFast]),
   ((h.2.2.2.2 (fun _ => gas0 5 0) [kickFast] hs1).1
      ⟨kickFast, by simp [kept_kicks, kickFast],
        Or.inr (Or.inl (by norm_num [oracle_bounded, kickFast]))⟩),
   ((h.2.2.2.2 (fun _ => gas0 5 0) [kickD, kickB, kickC, kickA] hs2).2 (by
      intro k hk
      have hk2 : k = kickD ∨ k = kickB := by
        simpa [kept_kicks, kickA, kickB, kickC, kickD] using hk
      rcases hk2 with rfl | rfl
      · norm_num [oracle_bounded, oracle0, kickD, resolved_particle, kick_particle,
          winds_ever_decouple, params0, gas0]
      · norm_num [oracle_bounded, oracle0, kickB, resolved_particle, kick_particle,
          winds_ever_decouple, params0, gas0]))⟩

/-- Counterexample to C8 as stated.  With the subgrid flag set and the draw 1/4
below the ejection probability 1/2: at scale factor 1/2 and wind speed 2 the
velocity gains the vector (0, 0, 1) along the unit direction (0, 0, 1), of
magnitude 1 and not 2; and when `MaxWindFreeTravelTime` is 0 the particle is left
unchanged, with no kick and no timer. -/
theorem subgrid_kick_scales_with_atime :
    HAS (params0 1).WindModel WIND_SUBGRID = true ∧
    oracle0.get_random_number (idplus (gas0 5 0).ID 2) <
      1 - oracle0.exp (-((params0 1).WindEfficiency * 1 / (gas0 5 0).Mass)) ∧
    Vec3.dot (get_wind_dir oracle0 (fun _ => gas0 5 0) 0)
      (get_wind_dir oracle0 (fun _ => gas0 5 0) 0) = 1 ∧
    (gas0 5 0).Vel = ⟨0, 0, 0⟩ ∧
    (winds_make_after_sf oracle0 (params0 1) (fun _ => gas0 5 0) 0 1 (1 / 2) 0).Vel =
      ⟨0, 0, 1⟩ ∧
    (1 : ℚ) ≠ (params0 1).WindSpeed ∧
    HAS (params_nodecouple 1).WindModel WIND_SUBGRID = true ∧
    winds_make_after_sf oracle0 (params_nodecouple 1) (fun _ => gas0 5 0) 0 1 (1 / 2) =
      (fun _ => gas0 5 0) := by
  have hsub : HAS 1 WIND_SUBGRID = true := by decide
  refine ⟨hsub, ?_, ?_, rfl, ?_, ?_, hsub, ?_⟩
  · norm_num [oracle0, params0, gas0]
  · norm_num [Vec3.dot, get_wind_dir, oracle0]
  · norm_num [winds_make_after_sf, params0, hsub, winds_ever_decouple, oracle0, gas0,
      get_wind_dir]
  · norm_num [params0]
  · simp [winds_make_after_sf, params_nodecouple, params0, winds_ever_decouple]

/-- C8 (amended): the subgrid kick.  With the subgrid flag set and
`MaxWindFreeTravelTime > 0`: if the draw keyed by the particle identifier is
below the ejection probability 1 - exp(-WindEfficiency * sm / Mass), then
`winds_make_after_sf` adds `WindSpeed * atime * d` to the velocity of particle i,
component by component, with d the direction of `get_wind_dir` (a vector of
squared magnitude (WindSpeed * atime)^2 when d · d = 1), sets its timer to
exactly WindFreeTravelLength / WindSpeed and changes no other particle; if the
draw is not below the probability nothing changes. -/
theorem winds_make_after_sf_subgrid (o : Oracle) (wp : WindParams) (P : Nat → Particle)
    (i : Nat) (sm atime : ℚ) (hsub : HAS wp.WindModel WIND_SUBGRID = true)
    (hmax : wp.MaxWindFreeTravelTime > 0) :
    (o.get_random_number (idplus (P i).ID 2) <
        1 - o.exp (-(wp.WindEfficiency * sm / (P i).Mass)) →
      (winds_make_after_sf o wp P i sm atime i).Vel =
        ⟨(P i).Vel.x0 + wp.WindSpeed * atime * (get_wind_dir o P i).x0,
         (P i).Vel.x1 + wp.WindSpeed * atime * (get_wind_dir o P i).x1,
         (P i).Vel.x2 + wp.WindSpeed * atime * (get_wind_dir o P i).x2⟩ ∧
      (Vec3.dot (get_wind_dir o P i) (get_wind_dir o P i) = 1 →
        ((winds_make_after_sf o wp P i sm atime i).Vel.x0 - (P i).Vel.x0) ^ 2 +
          ((winds_make_after_sf o wp P i sm atime i).Vel.x1 - (P i).Vel.x1) ^ 2 +
          ((winds_make_after_sf o wp P i sm atime i).Vel.x2 - (P i).Vel.x2) ^ 2 =
          (wp.WindSpeed * atime) ^ 2) ∧
      (winds_make_after_sf o wp P i sm atime i).DelayTime =
        wp.WindFreeTravelLength / wp.WindSpeed ∧
      (∀ q : Nat, q ≠ i → winds_make_after_sf o wp P i sm atime q = P q)) ∧
    (¬ o.get_random_number (idplus (P i).ID 2) <
        1 - o.exp (-(wp.WindEfficiency * sm / (P i).Mass)) →
      winds_make_after_sf o wp P i sm atime = P) := by
  have hdec : winds_ever_decouple wp ≠ 0 := by
    unfold winds_ever_decouple
    simp [hmax]
  constructor
  · intro hdraw
    have hafter : winds_make_after_sf o wp P i sm atime =
        Function.update P i
          { (P i) with
            Vel := ⟨(P i).Vel.x0 + wp.WindSpeed * atime * (get_wind_dir o P i).x0,
                    (P i).Vel.x1 + wp.WindSpeed * atime * (get_wind_dir o P i).x1,
                    (P i).Vel.x2 + wp.WindSpeed * atime * (get_wind_dir o P i).x2⟩
            DelayTime := wp.WindFreeTravelLength / wp.WindSpeed } := by
      unfold winds_make_after_sf
      simp only [hsub, hdec, Bool.true_eq_false, or_self, if_false, hdraw, if_true]
    refine ⟨?_, ?_, ?_, ?_⟩
    · rw [hafter, Function.update_same]
    · intro hd
      rw [hafter, Function.update_same]
      unfold Vec3.dot at hd
      simp only []
      linear_combination (wp.WindSpeed * atime) ^ 2 * hd
    · rw [hafter, Function.update_same]
    · intro q hq
      rw [hafter, Function.update_noteq hq]
  · intro hdraw
    unfold winds_make_after_sf
    simp only [hsub, hdec, Bool.true_eq_false, or_self, if_false, hdraw]

/-- Witness of C8 (amended): subgrid model, draw 1/4 below the probability 1/2,
scale factor 1/2. -/
theorem winds_make_after_sf_subgrid_witness :
    (winds_make_after_sf oracle0 (params0 1) (fun _ => gas0 5 0) 0 1 (1 / 2) 0).Vel =
        ⟨(gas0 5 0).Vel.x0 +
            (params0 1).WindSpeed * (1 / 2) * (get_wind_dir oracle0 (fun _ => gas0 5 0) 0).x0,
         (gas0 5 0).Vel.x1 +
            (params0 1).WindSpeed * (1 / 2) * (get_wind_dir oracle0 (fun _ => gas0 5 0) 0).x1,
         (gas0 5 0).Vel.x2 +
            (params0 1).WindSpeed * (1 / 2) * (get_wind_dir oracle0 (fun _ => gas0 5 0) 0).x2⟩ ∧
    (winds_make_after_sf oracle0 (params0 1) (fun _ => gas0 5 0) 0 1 (1 / 2) 0).DelayTime =
      (params0 1).WindFreeTravelLength / (params0 1).WindSpeed :=
  have h := (winds_make_after_sf_subgrid oracle0 (params0 1) (fun _ => gas0 5 0) 0 1 (1 / 2)
    (by decide) (by norm_num [params0])).1 (by norm_num [oracle0, params0, gas0])
  ⟨h.1, h.2.2.1⟩

/-- Counterexample to C5 as stated: with the subgrid flag set, free-travel
length 20, wind speed 2 and maximum free-travel time 4, a particle whose timer 0
is within [0, MaxWindFreeTravelTime] leaves `winds_make_after_sf` with the timer
10 = `WindFreeTravelLength / WindSpeed`, above the maximum. -/
theorem winds_make_after_sf_exceeds_max :
    0 ≤ (gas0 5 0).DelayTime ∧ (gas0 5 0).DelayTime ≤ (params0 1).MaxWindFreeTravelTime ∧
    (params0 1).WindSpeed > 0 ∧ (params0 1).WindFreeTravelLength ≥ 0 ∧
    (winds_make_after_sf oracle0 (params0 1) (fun _ => gas0 5 0) 0 1 1 0).DelayTime = 10 ∧
    (winds_make_after_sf oracle0 (params0 1) (fun _ => gas0 5 0) 0 1 1 0).DelayTime >
      (params0 1).MaxWindFreeTravelTime := by
  have hsub : HAS 1 WIND_SUBGRID = true := by decide
  have h10 : (winds_make_after_sf oracle0 (params0 1) (fun _ => gas0 5 0) 0 1 1 0).DelayTime
      = 10 := by
    norm_num [winds_make_after_sf, params0, hsub, winds_ever_decouple, oracle0, gas0]
  refine ⟨?_, ?_, ?_, ?_, h10, ?_⟩
  · norm_num [gas0]
  · norm_num [gas0, params0]
  · norm_num [params0]
  · norm_num [params0]
  · rw [h10]
    norm_num [params0]

/-- The kick block of the resolver keeps a timer within
[0, MaxWindFreeTravelTime] there, for a positive speed and a free-travel length
that is not negative. -/
theorem kick_particle_timer_bounds (o : Oracle) (wp : WindParams) (Time : ℚ) (dir : Vec3)
    (k : StarKick) (p : Particle) (hv : k.StarKickVelocity > 0)
    (hL : wp.WindFreeTravelLength ≥ 0)
    (h0 : 0 ≤ p.DelayTime) (h1 : p.DelayTime ≤ wp.MaxWindFreeTravelTime) :
    0 ≤ (kick_particle o wp Time dir k p).DelayTime ∧
    (kick_particle o wp Time dir k p).DelayTime ≤ wp.MaxWindFreeTravelTime := by
  by_cases hT : Time > 0
  · have hq : 0 ≤ wp.WindFreeTravelLength / (k.StarKickVelocity / Time) :=
      div_nonneg hL (div_pos hv hT).le
    by_cases hm : wp.MaxWindFreeTravelTime > 0
    · by_cases hgt : wp.WindFreeTravelLength / (k.StarKickVelocity / Time) >
          wp.MaxWindFreeTravelTime
      · simp only [kick_particle, winds_ever_decouple, hv, hT, hm, hgt, and_self, if_true,
          ne_eq, one_ne_zero, not_false_eq_true]
        exact ⟨hm.le, le_refl _⟩
      · simp only [kick_particle, winds_ever_decouple, hv, hT, hm, hgt, and_self, if_true,
          if_false, ne_eq, one_ne_zero, not_false_eq_true]
        exact ⟨hq, not_lt.mp hgt⟩
    · simp only [kick_particle, winds_ever_decouple, hv, hT, hm, and_self, if_true, if_false,
        ne_eq, not_true_eq_false]
      exact ⟨h0, h1⟩
  · simp only [kick_particle, hv, hT, and_false, if_false]
    exact ⟨h0, h1⟩

/-- After `winds_evolve` a timer that was not negative is within
[0, MaxWindFreeTravelTime], whatever it was before, when the maximum and the
elapsed time are not negative and the subtraction of doubles never returns more
than its first operand. -/
theorem winds_evolve_clamps (o : Oracle) (wp : WindParams) (P : Nat → Particle)
    (i : Nat) (a3inv hubble : ℚ)
    (hsub : ∀ a b : ℚ, 0 ≤ b → o.sub_double a b ≤ a)
    (hdt : o.get_dloga_for_bin (P i).TimeBin (P i).Ti_drift / hubble ≥ 0)
    (h0 : 0 ≤ (P i).DelayTime) (hmax : 0 ≤ wp.MaxWindFreeTravelTime) :
    0 ≤ (winds_evolve o wp P i a3inv hubble i).DelayTime ∧
    (winds_evolve o wp P i a3inv hubble i).DelayTime ≤ wp.MaxWindFreeTravelTime := by
  by_cases ht : (P i).DelayTime > 0
  · by_cases hd : (P i).Density * a3inv < wp.WindFreeTravelDensThresh
    · have hz : (winds_evolve o wp P i a3inv hubble i).DelayTime = 0 := by
        unfold winds_evolve
        simp [ht, hd]
      rw [hz]
      exact ⟨le_refl _, hmax⟩
    · by_cases hm : (P i).DelayTime > wp.MaxWindFreeTravelTime
      · have hs := hsub wp.MaxWindFreeTravelTime _ hdt
        have hz : (winds_evolve o wp P i a3inv hubble i).DelayTime =
            DMAX (o.sub_double wp.MaxWindFreeTravelTime
              (o.get_dloga_for_bin (P i).TimeBin (P i).Ti_drift / hubble)) 0 := by
          unfold winds_evolve
          simp [ht, hd, hm]
        rw [hz]
        unfold DMAX
        split_ifs with hpos
        · exact ⟨hpos.le, hs⟩
        · exact ⟨le_refl _, hmax⟩
      · have hs := hsub (P i).DelayTime _ hdt
        have hz : (winds_evolve o wp P i a3inv hubble i).DelayTime =
            DMAX (o.sub_double (P i).DelayTime
              (o.get_dloga_for_bin (P i).TimeBin (P i).Ti_drift / hubble)) 0 := by
          unfold winds_evolve
          simp [ht, hd, hm]
        rw [hz]
        unfold DMAX
        split_ifs with hpos
        · exact ⟨hpos.le, le_trans hs (not_lt.mp hm)⟩
        · exact ⟨le_refl _, hmax⟩
  · have hz0 : (P i).DelayTime = 0 := le_antisymm (not_lt.mp ht) h0
    have hz : (winds_evolve o wp P i a3inv hubble i).DelayTime = 0 := by
      unfold winds_evolve
      simp [hz0]
    rw [hz]
    exact ⟨le_refl _, hmax⟩

/-- The timer, time bin and drift time that `winds_make_after_sf` leaves: the
time bin and the drift time are untouched, the timer is as it was or is
`WindFreeTravelLength / WindSpeed`. -/
theorem winds_make_after_sf_timer (o : Oracle) (wp : WindParams) (P : Nat → Particle)
    (i : Nat) (sm atime : ℚ) :
    (winds_make_after_sf o wp P i sm atime i).TimeBin = (P i).TimeBin ∧
    (winds_make_after_sf o wp P i sm atime i).Ti_drift = (P i).Ti_drift ∧
    ((winds_make_after_sf o wp P i sm atime i).DelayTime = (P i).DelayTime ∨
      (winds_make_after_sf o wp P i sm atime i).DelayTime =
        wp.WindFreeTravelLength / wp.WindSpeed) := by
  unfold winds_make_after_sf
  by_cases hg : HAS wp.WindModel WIND_SUBGRID = false ∨ winds_ever_decouple wp = 0
  · rw [if_pos hg]
    exact ⟨rfl, rfl, Or.inl rfl⟩
  · rw [if_neg hg]
    by_cases hr : o.get_random_number (idplus (P i).ID 2) <
        1 - o.exp (-(wp.WindEfficiency * sm / (P i).Mass))
    · rw [if_pos hr, Function.update_same]
      exact ⟨rfl, rfl, Or.inr rfl⟩
    · rw [if_neg hr]
      exact ⟨rfl, rfl, Or.inl rfl⟩

/-- C5 (amended): the bounds of the free-streaming timer, operation by
operation, for a free-travel length that is not negative and a subtraction of
doubles that never returns more than its first operand.  A timer within
[0, MaxWindFreeTravelTime] stays there under the kick block of the resolver (for
a kick speed > 0) and under `winds_evolve` (for an elapsed time >= 0).
`winds_make_after_sf` (for `WindSpeed` > 0) leaves the timer as it was or sets it
to `WindFreeTravelLength / WindSpeed`: the result is not negative, and it is
within the maximum when `WindFreeTravelLength / WindSpeed` is; it is not clamped
there.  The next `winds_evolve` brings the timer back within
[0, MaxWindFreeTravelTime].  So the timer never becomes negative. -/
theorem timer_within_bounds (o : Oracle) (wp : WindParams)
    (hL : wp.WindFreeTravelLength ≥ 0)
    (hsub : ∀ a b : ℚ, 0 ≤ b → o.sub_double a b ≤ a) :
    (∀ (Time : ℚ) (dir : Vec3) (k : StarKick) (p : Particle),
      k.StarKickVelocity > 0 → 0 ≤ p.DelayTime → p.DelayTime ≤ wp.MaxWindFreeTravelTime →
      0 ≤ (kick_particle o wp Time dir k p).DelayTime ∧
      (kick_particle o wp Time dir k p).DelayTime ≤ wp.MaxWindFreeTravelTime) ∧
    (∀ (P : Nat → Particle) (i : Nat) (a3inv hubble : ℚ),
      o.get_dloga_for_bin (P i).TimeBin (P i).Ti_drift / hubble ≥ 0 →
      0 ≤ (P i).DelayTime → (P i).DelayTime ≤ wp.MaxWindFreeTravelTime →
      0 ≤ (winds_evolve o wp P i a3inv hubble i).DelayTime ∧
      (winds_evolve o wp P i a3inv hubble i).DelayTime ≤ wp.MaxWindFreeTravelTime) ∧
    (∀ (P : Nat → Particle) (i : Nat) (sm atime : ℚ),
      wp.WindSpeed > 0 → 0 ≤ (P i).DelayTime →
      0 ≤ (winds_make_after_sf o wp P i sm atime i).DelayTime ∧
      ((winds_make_after_sf o wp P i sm atime i).DelayTime = (P i).DelayTime ∨
        (winds_make_after_sf o wp P i sm atime i).DelayTime =
          wp.WindFreeTravelLength / wp.WindSpeed) ∧
      ((P i).DelayTime ≤ wp.MaxWindFreeTravelTime →
        wp.WindFreeTravelLength / wp.WindSpeed ≤ wp.MaxWindFreeTravelTime →
        (winds_make_after_sf o wp P i sm atime i).DelayTime ≤ wp.MaxWindFreeTravelTime)) ∧
    (∀ (P : Nat → Particle) (i : Nat) (sm atime a3inv hubble : ℚ),
      wp.WindSpeed > 0 →
      o.get_dloga_for_bin (P i).TimeBin (P i).Ti_drift / hubble ≥ 0 →
      0 ≤ (P i).DelayTime → (P i).DelayTime ≤ wp.MaxWindFreeTravelTime →
      0 ≤ (winds_evolve o wp (winds_make_after_sf o wp P i sm atime) i a3inv hubble
        i).DelayTime ∧
      (winds_evolve o wp (winds_make_after_sf o wp P i sm atime) i a3inv hubble
        i).DelayTime ≤ wp.MaxWindFreeTravelTime) := by
  have hsf : ∀ (P : Nat → Particle) (i : Nat) (sm atime : ℚ),
      wp.WindSpeed > 0 → 0 ≤ (P i).DelayTime →
      0 ≤ (winds_make_after_sf o wp P i sm atime i).DelayTime := by
    intro P i sm atime hw h0
    rcases (winds_make_after_sf_timer o wp P i sm atime).2.2 with h | h
    · rw [h]
      exact h0
    · rw [h]
      exact div_nonneg hL hw.le
  refine ⟨?_, ?_, ?_, ?_⟩
  · intro Time dir k p hv h0 h1
    exact kick_particle_timer_bounds o wp Time dir k p hv hL h0 h1
  · intro P i a3inv hubble hdt h0 h1
    exact winds_evolve_clamps o wp P i a3inv hubble hsub hdt h0 (le_trans h0 h1)
  · intro P i sm atime hw h0
    refine ⟨hsf P i sm atime hw h0, (winds_make_after_sf_timer o wp P i sm atime).2.2, ?_⟩
    intro h1 h2
    rcases (winds_make_after_sf_timer o wp P i sm atime).2.2 with h | h
    · rw [h]
      exact h1
    · rw [h]
      exact h2
  · intro P i sm atime a3inv hubble hw hdt h0 h1
    obtain ⟨e1, e2, _⟩ := winds_make_after_sf_timer o wp P i sm atime
    exact winds_evolve_clamps o wp (winds_make_after_sf o wp P i sm atime) i a3inv hubble
      hsub (by rw [e1, e2]; exact hdt) (hsf P i sm atime hw h0) (le_trans h0 h1)

/-- Witness of C5 (amended): the particle of the failing case, whose timer the
subgrid kick sets to 10, above the maximum 4; after the next `winds_evolve` with
unit elapsed time the timer is within [0, 4]. -/
theorem timer_within_bounds_witness :
    0 ≤ (winds_evolve oracle0 (params0 1)
      (winds_make_after_sf oracle0 (params0 1) (fun _ => gas0 5 0) 0 1 1) 0 1 1 0).DelayTime ∧
    (winds_evolve oracle0 (params0 1)
      (winds_make_after_sf oracle0 (params0 1) (fun _ => gas0 5 0) 0 1 1) 0 1 1 0).DelayTime ≤
      (params0 1).MaxWindFreeTravelTime :=
  (timer_within_bounds oracle0 (params0 1) (by norm_num [params0])
    (by
      intro a b hb
      show a - b ≤ a
      linarith)).2.2.2 (fun _ => gas0 5 0) 0 1 1 1 1 (by norm_num [params0])
    (by norm_num [oracle0]) (by norm_num [gas0]) (by norm_num [gas0, params0])

/-- C18: `cmp_by_part_id` is a total-order comparator for the ascending
lexicographic order on (part_index, StarDistance, StarID).  It returns -1, 0 or
1; it is antisymmetric, cmp(a, b) = -cmp(b, a); it is transitive, in its weak and
in its strict form; it returns 0 exactly when the two candidates agree on all
three key fields; and it is negative exactly when the key of the first is
lexicographically smaller. -/
theorem cmp_by_part_id_total_order :
    (∀ a b : StarKick, cmp_by_part_id a b = -1 ∨ cmp_by_part_id a b = 0 ∨
      cmp_by_part_id a b = 1) ∧
    (∀ a b : StarKick, cmp_by_part_id a b = -cmp_by_part_id b a) ∧
    (∀ a b c : StarKick, cmp_by_part_id a b ≤ 0 → cmp_by_part_id b c ≤ 0 →
      cmp_by_part_id a c ≤ 0) ∧
    (∀ a b c : StarKick, cmp_by_part_id a b < 0 → cmp_by_part_id b c < 0 →
      cmp_by_part_id a c < 0) ∧
    (∀ a b : StarKick, cmp_by_part_id a b = 0 ↔
      (a.part_index = b.part_index ∧ a.StarDistance = b.StarDistance ∧
        a.StarID = b.StarID)) ∧
    (∀ a b : StarKick, cmp_by_part_id a b < 0 ↔
      (a.part_index < b.part_index ∨
        (a.part_index = b.part_index ∧
          (a.StarDistance < b.StarDistance ∨
            (a.StarDistance = b.StarDistance ∧ a.StarID < b.StarID))))) := by
  have hval : ∀ a b : StarKick, cmp_by_part_id a b = -1 ∨ cmp_by_part_id a b = 0 ∨
      cmp_by_part_id a b = 1 := by
    intro a b
    unfold cmp_by_part_id
    split_ifs <;> simp
  have hanti : ∀ a b : StarKick, cmp_by_part_id a b = -cmp_by_part_id b a := by
    intro a b
    unfold cmp_by_part_id
    split_ifs <;> first | rfl | (exfalso; omega) | (exfalso; linarith)
  have hzero : ∀ a b : StarKick, cmp_by_part_id a b = 0 ↔
      (a.part_index = b.part_index ∧ a.StarDistance = b.StarDistance ∧
        a.StarID = b.StarID) := by
    intro a b
    constructor
    · intro h
      have h1 : cmp_by_part_id a b ≤ 0 := by omega
      have h2 : cmp_by_part_id b a ≤ 0 := by
        have := hanti b a
        omega
      have hk := cmp_by_part_id_antisymm_key a b h1 h2
      simpa [StarKick.key] using hk
    · rintro ⟨h1, h2, h3⟩
      unfold cmp_by_part_id
      simp [h1, h2, h3]
  have hneg : ∀ a b : StarKick, cmp_by_part_id a b < 0 ↔
      (a.part_index < b.part_index ∨
        (a.part_index = b.part_index ∧
          (a.StarDistance < b.StarDistance ∨
            (a.StarDistance = b.StarDistance ∧ a.StarID < b.StarID)))) := by
    intro a b
    have hle := cmp_by_part_id_le_iff a b
    have hz := hzero a b
    constructor
    · intro h
      have hne : ¬ (a.part_index = b.part_index ∧ a.StarDistance = b.StarDistance ∧
          a.StarID = b.StarID) := fun hc => by
        have := hz.mpr hc
        omega
      rcases hle.mp (by omega) with h1 | ⟨h1, h2 | ⟨h2, h3⟩⟩
      · exact Or.inl h1
      · exact Or.inr ⟨h1, Or.inl h2⟩
      · refine Or.inr ⟨h1, Or.inr ⟨h2, ?_⟩⟩
        rcases Nat.lt_or_ge a.StarID b.StarID with h4 | h4
        · exact h4
        · exact absurd ⟨h1, h2, by omega⟩ hne
    · intro h
      have h0 : cmp_by_part_id a b ≤ 0 := by
        apply hle.mpr
        rcases h with h1 | ⟨h1, h2 | ⟨h2, h3⟩⟩
        · exact Or.inl h1
        · exact Or.inr ⟨h1, Or.inl h2⟩
        · exact Or.inr ⟨h1, Or.inr ⟨h2, h3.le⟩⟩
      have hne : cmp_by_part_id a b ≠ 0 := by
        intro hc
        obtain ⟨e1, e2, e3⟩ := hz.mp hc
        rcases h with h1 | ⟨_, h2 | ⟨_, h3⟩⟩
        · omega
        · exact absurd e2 (ne_of_lt h2)
        · omega
      omega
  refine ⟨hval, hanti, cmp_by_part_id_trans, ?_, hzero, hneg⟩
  intro a b c hab hbc
  have hac : cmp_by_part_id a c ≤ 0 :=
    cmp_by_part_id_trans a b c (by omega) (by omega)
  have hne : cmp_by_part_id a c ≠ 0 := by
    intro hc
    have hca : cmp_by_part_id c a ≤ 0 := by
      have := hanti c a
      omega
    have hcb : cmp_by_part_id c b ≤ 0 := cmp_by_part_id_trans c a b hca (by omega)
    have := hanti b c
    omega
  omega

/-- C19: the candidate generation decision.  For a visited neighbour n under one
of the two wind models and with room in the buffer, `sfr_wind_feedback_ngbiter`
appends a kick candidate (into slot `nkicks`, raising the counter) when the
neighbour is within the smoothing radius of the star, is a gas particle that is
neither garbage nor swallowed, has no positive timer, the star has non-zero
`TotalWeight` and positive `Vdisp`, the draw keyed by star ID + gas ID is below
p = efficiency * star mass / TotalWeight and the floored wind speed is positive;
and it leaves the buffer and the counter unchanged when one of these fails. -/
theorem feedback_candidate_decision (o : Oracle) (wp : WindParams) (P : Nat → Particle)
    (I : TreeWalkQueryWind) (iter : TreeWalkNgbIterWind) (priv : WindPriv) (n : Nat)
    (hother : iter.other = (n : Int))
    (hmodel : HAS wp.WindModel WIND_FIXED_EFFICIENCY = true ∨
      HAS wp.WindModel WIND_USE_HALO = true)
    (hroom : priv.nkicks < priv.maxkicks) :
    (spec_candidate_accepted o wp priv.Time P I n iter.r →
      sfr_wind_feedback_ngbiter o wp P I iter priv =
        Except.ok (iter,
          { priv with
            nkicks := priv.nkicks + 1
            kicks := Function.update priv.kicks priv.nkicks
              { part_index := n, StarDistance := iter.r, StarID := I.ID,
                StarKickVelocity :=
                  max (spec_model_speed wp priv.Time I) (wp.MinWindVelocity * priv.Time),
                StarTherm := wp.WindThermalFactor * (3 / 2) * I.Vdisp * I.Vdisp } })) ∧
    (¬ spec_candidate_accepted o wp priv.Time P I n iter.r →
      sfr_wind_feedback_ngbiter o wp P I iter priv = Except.ok (iter, priv)) := by
  have hne : ¬ iter.other = -1 := by
    rw [hother]
    omega
  have htn : iter.other.toNat = n := by
    rw [hother]
    simp
  rw [sfr_wind_feedback_ngbiter_eq o wp P I iter priv hne hmodel, htn]
  constructor
  · rintro ⟨h1, h2, h3, h4, h5, h6, h7, h8, h9⟩
    have hr : ¬ iter.r > I.Hsml := not_lt.mpr h1
    have hd : ¬ (P n).DelayTime > 0 := not_lt.mpr h5
    have hw : ¬ (I.TotalWeight = 0 ∨ I.Vdisp ≤ 0) := by
      rintro (h | h)
      · exact h6 h
      · exact absurd h7 (not_lt.mpr h)
    have ht : ¬ ((P n).Type_ ≠ 0 ∨ (P n).IsGarbage = true ∨ (P n).Swallowed = true) := by
      rintro (h | h | h)
      · exact h h2
      · rw [h3] at h
        cases h
      · rw [h4] at h
        cases h
    have hroom1 : ¬ priv.nkicks ≥ priv.maxkicks := not_le.mpr hroom
    rw [if_neg hr, if_neg hd, if_neg hw, if_neg ht, if_pos ⟨h8, h9⟩, if_neg hroom1]
  · intro hna
    by_cases hr : iter.r > I.Hsml
    · rw [if_pos hr]
    · rw [if_neg hr]
      by_cases hd : (P n).DelayTime > 0
      · rw [if_pos hd]
      · rw [if_neg hd]
        by_cases hw : I.TotalWeight = 0 ∨ I.Vdisp ≤ 0
        · rw [if_pos hw]
        · rw [if_neg hw]
          by_cases ht : (P n).Type_ ≠ 0 ∨ (P n).IsGarbage = true ∨ (P n).Swallowed = true
          · rw [if_pos ht]
          · rw [if_neg ht]
            by_cases hp : o.get_random_number (idplus I.ID (P n).ID) <
                spec_wind_efficiency o wp priv.Time I * I.Mass / I.TotalWeight ∧
                max (spec_model_speed wp priv.Time I) (wp.MinWindVelocity * priv.Time) > 0
            · exfalso
              apply hna
              push_neg at hw ht
              refine ⟨not_lt.mp hr, ht.1, ?_, ?_, not_lt.mp hd, hw.1, hw.2, hp.1, hp.2⟩
              · simpa using ht.2.1
              · simpa using ht.2.2
            · rw [if_neg hp]

/-- Witness of C19: under the fixed-efficiency model with efficiency 2, star mass
1 and total weight 4 the probability is 1/2 and the draw 1/4 is below it; a gas
neighbour at distance 5 within the smoothing length 10 is appended with speed 2,
and the same neighbour at distance 11 is not. -/
theorem feedback_candidate_decision_witness :
    sfr_wind_feedback_ngbiter oracle0 (params0 8) (fun _ => gas0 5 0) query0 (iter0 5)
        (priv0 4) =
      Except.ok (iter0 5,
        { priv0 4 with
          nkicks := 1
          kicks := Function.update (priv0 4).kicks 0
            { part_index := 3, StarDistance := 5, StarID := 11, StarKickVelocity := 2,
              StarTherm := 6 } }) ∧
    sfr_wind_feedback_ngbiter oracle0 (params0 8) (fun _ => gas0 5 0) query0 (iter0 11)
        (priv0 4) =
      Except.ok (iter0 11, priv0 4) := by
  have hfix : HAS (params0 8).WindModel WIND_FIXED_EFFICIENCY = true := by decide
  have h5 := (feedback_candidate_decision oracle0 (params0 8) (fun _ => gas0 5 0) query0
    (iter0 5) (priv0 4) 3 rfl (Or.inl hfix) (by decide)).1 (by
      unfold spec_candidate_accepted spec_wind_efficiency spec_model_speed
      rw [if_pos hfix, if_pos hfix]
      norm_num [iter0, query0, gas0, oracle0, params0, priv0])
  have h11 := (feedback_candidate_decision oracle0 (params0 8) (fun _ => gas0 5 0) query0
    (iter0 11) (priv0 4) 3 rfl (Or.inl hfix) (by decide)).2 (by
      unfold spec_candidate_accepted
      norm_num [iter0, query0])
  refine ⟨?_, h11⟩
  rw [h5]
  have hv : max (spec_model_speed (params0 8) (priv0 4).Time query0)
      ((params0 8).MinWindVelocity * (priv0 4).Time) = 2 := by
    unfold spec_model_speed
    rw [if_pos hfix]
    norm_num [params0, priv0]
  rw [hv]
  norm_num [iter0, query0, params0, priv0]

/-- C20: the speed floor.  Whenever `sfr_wind_feedback_ngbiter` returns with the
kick counter changed, it has appended exactly one candidate, in slot `nkicks`,
one of the two wind models is selected, and the recorded `StarKickVelocity` is
max(model speed, MinWindVelocity * Time), where the model speed is
`WindSpeed * Time` in the fixed-efficiency model and `WindSpeedFactor * Vdisp` in
the halo-scaling model; so the recorded speed is at least
`MinWindVelocity * Time` in both. -/
theorem feedback_speed_floor (o : Oracle) (wp : WindParams) (P : Nat → Particle)
    (I : TreeWalkQueryWind) (iter iter1 : TreeWalkNgbIterWind) (priv priv1 : WindPriv)
    (h : sfr_wind_feedback_ngbiter o wp P I iter priv = Except.ok (iter1, priv1))
    (happ : priv1.nkicks ≠ priv.nkicks) :
    priv1.nkicks = priv.nkicks + 1 ∧
    (HAS wp.WindModel WIND_FIXED_EFFICIENCY = true ∨ HAS wp.WindModel WIND_USE_HALO = true) ∧
    (priv1.kicks priv.nkicks).StarKickVelocity =
      max (if HAS wp.WindModel WIND_FIXED_EFFICIENCY = true then wp.WindSpeed * priv.Time
           else wp.WindSpeedFactor * I.Vdisp)
        (wp.MinWindVelocity * priv.Time) ∧
    (priv1.kicks priv.nkicks).StarKickVelocity ≥ wp.MinWindVelocity * priv.Time := by
  have hunch : ¬ (Except.ok (iter, priv) : Except Nat (TreeWalkNgbIterWind × WindPriv)) =
      Except.ok (iter1, priv1) := by
    intro hc
    simp only [Except.ok.injEq, Prod.mk.injEq] at hc
    exact happ (by rw [← hc.2])
  by_cases hs : iter.other = -1
  · exfalso
    unfold sfr_wind_feedback_ngbiter at h
    simp only [hs, if_true, Except.ok.injEq, Prod.mk.injEq] at h
    exact happ (by rw [← h.2])
  · have hmodel : HAS wp.WindModel WIND_FIXED_EFFICIENCY = true ∨
        HAS wp.WindModel WIND_USE_HALO = true := by
      by_contra hno
      push_neg at hno
      have h1 : HAS wp.WindModel WIND_FIXED_EFFICIENCY = false := by simpa using hno.1
      have h2 : HAS wp.WindModel WIND_USE_HALO = false := by simpa using hno.2
      unfold sfr_wind_feedback_ngbiter at h
      simp only [hs, if_false, h1, h2, Bool.false_eq_true] at h
      split_ifs at h <;> exact hunch h
    rw [sfr_wind_feedback_ngbiter_eq o wp P I iter priv hs hmodel] at h
    split_ifs at h with c1 c2 c3 c4 c5 c6
    all_goals first
      | exact absurd h hunch
      | (cases h; done)
      | (simp only [Except.ok.injEq, Prod.mk.injEq] at h
         obtain ⟨_, hp⟩ := h
         subst hp
         refine ⟨rfl, hmodel, ?_, ?_⟩
         · dsimp only
           rw [Function.update_same]
           rfl
         · dsimp only
           rw [Function.update_same]
           exact le_max_right _ _)

/-- Witness of C20: the candidate appended on the example query records the
speed 2 = max(WindSpeed * Time, MinWindVelocity * Time) = max(2, 0). -/
theorem feedback_speed_floor_witness :
    priv0_appended.nkicks = (priv0 4).nkicks + 1 ∧
    (HAS (params0 8).WindModel WIND_FIXED_EFFICIENCY = true ∨
      HAS (params0 8).WindModel WIND_USE_HALO = true) ∧
    (priv0_appended.kicks (priv0 4).nkicks).StarKickVelocity =
      max (if HAS (params0 8).WindModel WIND_FIXED_EFFICIENCY = true then
             (params0 8).WindSpeed * (priv0 4).Time
           else (params0 8).WindSpeedFactor * query0.Vdisp)
        ((params0 8).MinWindVelocity * (priv0 4).Time) ∧
    (priv0_appended.kicks (priv0 4).nkicks).StarKickVelocity ≥
      (params0 8).MinWindVelocity * (priv0 4).Time :=
  feedback_speed_floor oracle0 (params0 8) (fun _ => gas0 5 0) query0 (iter0 5) (iter0 5)
    (priv0 4) priv0_appended feedback_example_run (by decide)

/-- Counterexample to C12 as stated: a star with `Left = 0`, `Right = 1` (below
0.99 of the box size 100) and `DMRadius = 10`.  The source replaces the lower
bound 0 by `0.1 * DMRadius = 1`, so every trial radius is `pow(1, 1/3) = 1` with
cube 1, whereas `Left^3 + (i+1)/(NWINDHSML+1) * (Right^3 - Left^3)` is
(i+1)/6, which is not 1 for any index below `NWINDHSML`. -/
theorem effdmradius_left_zero_replaced :
    (sample0 0 1 10 40).Left = 0 ∧ (sample0 0 1 10 40).Right ≤ (99 / 100) * 100 ∧
    oracle_cube.pow 1 (1 / 3) ^ 3 = 1 ∧
    (∀ i : Nat, i < NWINDHSML →
      effdmradius oracle_cube 100 (sample0 0 1 10 40) i ^ 3 = 1 ∧
      (sample0 0 1 10 40).Left ^ 3 + ((i : ℚ) + 1) / ((NWINDHSML : ℚ) + 1) *
        ((sample0 0 1 10 40).Right ^ 3 - (sample0 0 1 10 40).Left ^ 3) = ((i : ℚ) + 1) / 6 ∧
      effdmradius oracle_cube 100 (sample0 0 1 10 40) i ^ 3 ≠
        (sample0 0 1 10 40).Left ^ 3 + ((i : ℚ) + 1) / ((NWINDHSML : ℚ) + 1) *
          ((sample0 0 1 10 40).Right ^ 3 - (sample0 0 1 10 40).Left ^ 3)) := by
  refine ⟨rfl, by norm_num [sample0], by norm_num [oracle_cube], ?_⟩
  intro i hi
  have h1 : effdmradius oracle_cube 100 (sample0 0 1 10 40) i ^ 3 = 1 := by
    norm_num [effdmradius, sample0, oracle_cube, NWINDHSML]
  have h2 : (sample0 0 1 10 40).Left ^ 3 + ((i : ℚ) + 1) / ((NWINDHSML : ℚ) + 1) *
      ((sample0 0 1 10 40).Right ^ 3 - (sample0 0 1 10 40).Left ^ 3) = ((i : ℚ) + 1) / 6 := by
    norm_num [sample0, NWINDHSML]
  refine ⟨h1, h2, ?_⟩
  rw [h1, h2]
  intro hc
  have hi5 : (i : ℚ) < 5 := by
    have : i < 5 := hi
    exact_mod_cast this
  linarith

/-- C12 (amended): volume-even sampling.  For a `pow` that is exact on the
exponent 3, the trial radius `effdmradius(i)` is `pow(V, 1/3)` for the volume
V = l^3 + (i+1)/(NWINDHSML+1) * (r^3 - l^3), so that its cube equals V wherever
`pow(., 1/3)` is an exact cube root of V; here r is `Right`, replaced by the
current `DMRadius` only when `Right` is above 0.99 of the box size, and l is
`Left`, replaced by a tenth of `DMRadius` when `Left` is exactly 0. -/
theorem effdmradius_volume_even (o : Oracle) (BoxSize : ℚ) (w : winddata) (i : Nat)
    (hpow3 : ∀ x : ℚ, o.pow x 3 = x ^ 3) :
    effdmradius o BoxSize w i =
      o.pow (eff_left w ^ 3 +
        ((i : ℚ) + 1) / ((NWINDHSML : ℚ) + 1) *
          (eff_right BoxSize w ^ 3 - eff_left w ^ 3)) (1 / 3) ∧
    (o.pow (eff_left w ^ 3 +
        ((i : ℚ) + 1) / ((NWINDHSML : ℚ) + 1) *
          (eff_right BoxSize w ^ 3 - eff_left w ^ 3)) (1 / 3) ^ 3 =
        eff_left w ^ 3 +
          ((i : ℚ) + 1) / ((NWINDHSML : ℚ) + 1) * (eff_right BoxSize w ^ 3 - eff_left w ^ 3) →
      effdmradius o BoxSize w i ^ 3 =
        eff_left w ^ 3 +
          ((i : ℚ) + 1) / ((NWINDHSML : ℚ) + 1) *
            (eff_right BoxSize w ^ 3 - eff_left w ^ 3)) ∧
    eff_right BoxSize w = (if w.Right > (99 / 100) * BoxSize then w.DMRadius else w.Right) ∧
    eff_left w = (if w.Left = 0 then (1 / 10) * w.DMRadius else w.Left) := by
  refine ⟨effdmradius_eq o BoxSize w i hpow3, ?_, rfl, rfl⟩
  intro hc
  rw [effdmradius_eq o BoxSize w i hpow3]
  exact hc

/-- Witness of C12 (amended): the bracket [1, 1] in a box of size 100, where
every trial radius is the exact cube root 1 of the volume 1. -/
theorem effdmradius_volume_even_witness :
    effdmradius oracle_cube 100 (sample0 1 1 1 40) 2 =
      oracle_cube.pow (eff_left (sample0 1 1 1 40) ^ 3 +
        (((2 : Nat) : ℚ) + 1) / ((NWINDHSML : ℚ) + 1) *
          (eff_right 100 (sample0 1 1 1 40) ^ 3 - eff_left (sample0 1 1 1 40) ^ 3)) (1 / 3) ∧
    effdmradius oracle_cube 100 (sample0 1 1 1 40) 2 ^ 3 =
      eff_left (sample0 1 1 1 40) ^ 3 +
        (((2 : Nat) : ℚ) + 1) / ((NWINDHSML : ℚ) + 1) *
          (eff_right 100 (sample0 1 1 1 40) ^ 3 - eff_left (sample0 1 1 1 40) ^ 3) :=
  have h := effdmradius_volume_even oracle_cube 100 (sample0 1 1 1 40) 2
    (by intro x; simp [oracle_cube])
  ⟨h.1, h.2.1 (by norm_num [oracle_cube, eff_left, eff_right, sample0, NWINDHSML])⟩

/-- Counterexample to C13 as stated: with `Left = Right = 1` (so that
0 ≤ Left ≤ Right) the radicand is the same for every index, and trial radius 0
is not below trial radius 1, whatever `pow` is. -/
theorem effdmradius_collapsed_bracket :
    (0 : ℚ) ≤ (sample0 1 1 1 40).Left ∧ (sample0 1 1 1 40).Left ≤ (sample0 1 1 1 40).Right ∧
    (0 : Nat) < 1 ∧ 1 < NWINDHSML ∧
    (∀ o : Oracle, effdmradius o 100 (sample0 1 1 1 40) 0 =
      effdmradius o 100 (sample0 1 1 1 40) 1) ∧
    (∀ o : Oracle, ¬ effdmradius o 100 (sample0 1 1 1 40) 0 <
      effdmradius o 100 (sample0 1 1 1 40) 1) := by
  have heq : ∀ o : Oracle, effdmradius o 100 (sample0 1 1 1 40) 0 =
      effdmradius o 100 (sample0 1 1 1 40) 1 := by
    intro o
    norm_num [effdmradius, sample0]
  refine ⟨by norm_num [sample0], by norm_num [sample0], by decide, by decide, heq, ?_⟩
  intro o
  rw [heq o]
  exact lt_irrefl _

/-- C13 (amended): trial radii strictly increase with the index whenever the
effective bounds are in order.  For a `pow` that is exact on the exponent 3 and
strictly increasing in its first argument on the exponent 1/3 (from 0 on), a
star state with 0 ≤ l < r, where l and r are the bounds `effdmradius`
interpolates between, and indices i < j: `effdmradius(i) < effdmradius(j)`; and
so are the entries i < j < NWINDHSML of the query array `DMRadius` filled by
`sfr_wind_copy`. -/
theorem effdmradius_strict_mono (o : Oracle) (BoxSize hubble : ℚ) (P : Nat → Particle)
    (place : Nat) (w : winddata) (i j : Nat)
    (hpow3 : ∀ x : ℚ, o.pow x 3 = x ^ 3)
    (hmono : ∀ x y : ℚ, 0 ≤ x → x < y → o.pow x (1 / 3) < o.pow y (1 / 3))
    (h0 : 0 ≤ eff_left w) (hlr : eff_left w < eff_right BoxSize w) (hij : i < j) :
    effdmradius o BoxSize w i < effdmradius o BoxSize w j ∧
    (j < NWINDHSML →
      (sfr_wind_copy o BoxSize hubble P place w).DMRadius i <
        (sfr_wind_copy o BoxSize hubble P place w).DMRadius j) := by
  have hlt : effdmradius o BoxSize w i < effdmradius o BoxSize w j := by
    rw [effdmradius_eq o BoxSize w i hpow3, effdmradius_eq o BoxSize w j hpow3]
    exact hmono _ _ (trial_volume_nonneg _ _ i h0 hlr)
      (trial_volume_strict_mono _ _ i j h0 hlr hij)
  refine ⟨hlt, ?_⟩
  intro hj
  have hi : i < NWINDHSML := lt_trans hij hj
  simp only [sfr_wind_copy, hi, hj, if_true]
  exact hlt

/-- Witness of C13 (amended): the bracket [1, 2] in a box of size 100, trial
radii 0 and 1. -/
theorem effdmradius_strict_mono_witness :
    effdmradius oracle_cube 100 (sample0 1 2 1 40) 0 <
      effdmradius oracle_cube 100 (sample0 1 2 1 40) 1 ∧
    ((1 : Nat) < NWINDHSML →
      (sfr_wind_copy oracle_cube 100 1 (fun _ => star0) 0 (sample0 1 2 1 40)).DMRadius 0 <
        (sfr_wind_copy oracle_cube 100 1 (fun _ => star0) 0 (sample0 1 2 1 40)).DMRadius 1) :=
  effdmradius_strict_mono oracle_cube 100 1 (fun _ => star0) 0 (sample0 1 2 1 40) 0 1
    (by intro x; simp [oracle_cube])
    (by
      intro x y _ hxy
      have h3 : ¬ ((1 : ℚ) / 3 = 3) := by norm_num
      simp only [oracle_cube, h3, if_false]
      exact hxy)
    (by norm_num [eff_left, sample0])
    (by norm_num [eff_left, eff_right, sample0])
    (by decide)

/-- C11: the redo decision of the radius search.  Called on a star,
`sfr_wind_weight_postprocess` returns, with the bracket `ngb_narrow_down` wrote;
it appends the star to the redo queue exactly when the dark-matter count of the
chosen bucket is below 38 or above 42 and `Right - Left > 1/100`, and leaves the
queue as it was otherwise; so a star that is not re-queued has a count in
[38, 42] at its chosen bucket or a bracket width of at most 1/100. -/
theorem postprocess_redo_decision (o : Oracle) (sqrt : ℚ → ℚ)
    (ngb_narrow_down : ℚ → ℚ → List ℚ → (Nat → ℚ) → Int → Nat → ℚ → NarrowDown)
    (BoxSize : ℚ) (P : Nat → Particle) (i : Nat) (w : winddata) (tw : TreeWalkRedo)
    (hstar : (P i).Type_ = 4) :
    ∃ (w1 : winddata) (tw1 : TreeWalkRedo),
      sfr_wind_weight_postprocess o sqrt ngb_narrow_down BoxSize P i w tw =
        Except.ok (w1, tw1) ∧
      w1.Right = (postprocess_narrow o ngb_narrow_down BoxSize w).Right ∧
      w1.Left = (postprocess_narrow o ngb_narrow_down BoxSize w).Left ∧
      (tw1.NPRedo = tw.NPRedo ++ [i] ↔
        ((w.Ngb (postprocess_narrow o ngb_narrow_down BoxSize w).close < 38 ∨
            w.Ngb (postprocess_narrow o ngb_narrow_down BoxSize w).close > 42) ∧
          w1.Right - w1.Left > 1 / 100)) ∧
      (tw1.NPRedo = tw.NPRedo ↔
        ¬ ((w.Ngb (postprocess_narrow o ngb_narrow_down BoxSize w).close < 38 ∨
            w.Ngb (postprocess_narrow o ngb_narrow_down BoxSize w).close > 42) ∧
          w1.Right - w1.Left > 1 / 100)) ∧
      (tw1.NPRedo = tw.NPRedo →
        (38 ≤ w.Ngb (postprocess_narrow o ngb_narrow_down BoxSize w).close ∧
          w.Ngb (postprocess_narrow o ngb_narrow_down BoxSize w).close ≤ 42) ∨
        w1.Right - w1.Left ≤ 1 / 100) := by
  have hne : ∀ l : List Nat, ¬ l ++ [i] = l := by
    intro l hl
    have := congrArg List.length hl
    simp at this
  have h38 : ((NUMDMNGB - MAXDMDEVIATION : Nat) : ℚ) = 38 := by
    norm_num [NUMDMNGB, MAXDMDEVIATION]
  have h42 : ((NUMDMNGB + MAXDMDEVIATION : Nat) : ℚ) = 42 := by
    norm_num [NUMDMNGB, MAXDMDEVIATION]
  have key : ∃ (w1 : winddata) (tw1 : TreeWalkRedo),
      sfr_wind_weight_postprocess o sqrt ngb_narrow_down BoxSize P i w tw =
        Except.ok (w1, tw1) ∧
      w1.Right = (postprocess_narrow o ngb_narrow_down BoxSize w).Right ∧
      w1.Left = (postprocess_narrow o ngb_narrow_down BoxSize w).Left ∧
      tw1.NPRedo =
        if (w.Ngb (postprocess_narrow o ngb_narrow_down BoxSize w).close < 38 ∨
              w.Ngb (postprocess_narrow o ngb_narrow_down BoxSize w).close > 42) ∧
            (postprocess_narrow o ngb_narrow_down BoxSize w).Right -
              (postprocess_narrow o ngb_narrow_down BoxSize w).Left > 1 / 100
        then tw.NPRedo ++ [i] else tw.NPRedo := by
    unfold sfr_wind_weight_postprocess postprocess_narrow
    simp only [hstar, ne_eq, not_true_eq_false, if_false, h38, h42]
    generalize ngb_narrow_down w.Right w.Left
        ((List.range w.maxcmpte.toNat).map (fun j => effdmradius o BoxSize w j))
        w.Ngb w.maxcmpte NUMDMNGB BoxSize = nd
    by_cases hc : (w.Ngb nd.close < 38 ∨ w.Ngb nd.close > 42) ∧ nd.Right - nd.Left > 1 / 100
    · simp only [hc, and_self, if_true]
      refine ⟨_, _, rfl, rfl, rfl, ?_⟩
      split_ifs <;> rfl
    · simp only [hc, if_false]
      generalize w.V2sum nd.close / w.Ngb nd.close -
        o.pow ((w.V1sum nd.close).x0 / w.Ngb nd.close) 2 -
        o.pow ((w.V1sum nd.close).x1 / w.Ngb nd.close) 2 -
        o.pow ((w.V1sum nd.close).x2 / w.Ngb nd.close) 2 = v
      by_cases hv : v > 0
      · simp only [hv, if_true]
        refine ⟨_, _, rfl, rfl, rfl, ?_⟩
        split_ifs <;> rfl
      · simp only [hv, if_false]
        refine ⟨_, _, rfl, rfl, rfl, ?_⟩
        split_ifs <;> rfl
  obtain ⟨w1, tw1, e1, e2, e3, e4⟩ := key
  refine ⟨w1, tw1, e1, e2, e3, ?_, ?_, ?_⟩
  · rw [e4, e2, e3]
    split_ifs with hc
    · exact ⟨fun _ => hc, fun _ => rfl⟩
    · exact ⟨fun h => absurd h.symm (hne _), fun h => absurd h hc⟩
  · rw [e4, e2, e3]
    split_ifs with hc
    · exact ⟨fun h => absurd h (hne _), fun h => absurd hc h⟩
    · exact ⟨fun _ => hc, fun _ => rfl⟩
  · rw [e4, e2, e3]
    split_ifs with hc
    · intro h
      exact absurd h (hne _)
    · intro _
      by_cases hw : (postprocess_narrow o ngb_narrow_down BoxSize w).Right -
          (postprocess_narrow o ngb_narrow_down BoxSize w).Left > 1 / 100
      · left
        have hn : ¬ (w.Ngb (postprocess_narrow o ngb_narrow_down BoxSize w).close < 38 ∨
            w.Ngb (postprocess_narrow o ngb_narrow_down BoxSize w).close > 42) :=
          fun h => hc ⟨h, hw⟩
        push_neg at hn
        exact hn
      · right
        exact not_lt.mp hw

/-- Witness of C11: with 50 neighbours in the chosen bucket and the bracket
[0, 100] the star is put on the redo queue; with 40 neighbours it is not. -/
theorem postprocess_redo_decision_witness :
    (∃ (w1 : winddata) (tw1 : TreeWalkRedo),
      sfr_wind_weight_postprocess oracle0 id narrow_keep 100 (fun _ => star0) 0
        (sample0 0 100 20 50) redo0 = Except.ok (w1, tw1) ∧
      tw1.NPRedo = [0]) ∧
    (∃ (w1 : winddata) (tw1 : TreeWalkRedo),
      sfr_wind_weight_postprocess oracle0 id narrow_keep 100 (fun _ => star0) 0
        (sample0 0 100 20 40) redo0 = Except.ok (w1, tw1) ∧
      tw1.NPRedo = []) := by
  constructor
  · obtain ⟨w1, tw1, e1, e2, e3, e4, _, _⟩ :=
      postprocess_redo_decision oracle0 id narrow_keep 100 (fun _ => star0) 0
        (sample0 0 100 20 50) redo0 rfl
    refine ⟨w1, tw1, e1, ?_⟩
    have h := e4.mpr ⟨Or.inr (by norm_num [sample0]), by
      rw [e2, e3]
      norm_num [postprocess_narrow, narrow_keep, sample0]⟩
    simpa [redo0] using h
  · obtain ⟨w1, tw1, e1, _, _, _, e5, _⟩ :=
      postprocess_redo_decision oracle0 id narrow_keep 100 (fun _ => star0) 0
        (sample0 0 100 20 40) redo0 rfl
    refine ⟨w1, tw1, e1, ?_⟩
    have h := e5.mpr (by
      rintro ⟨h1 | h1, _⟩
      · norm_num [sample0] at h1
      · norm_num [sample0] at h1)
    simpa [redo0] using h

/-- C14: buffer safety.  The part of `winds_and_feedback` that sizes and fills
the kick buffer is run on any particle table, any candidates of the traversal
for each new star and any assignment of the queries to threads below the number
of threads (which is at least 1), with whatever the redo rounds add to the visit
counters and leave in the WindSamples; the `int` visit counters do not overflow
(the gas visits of the first weight round, plus those the redo rounds add, plus
2, are below 2^31); `pow` is exact on the exponent 3 and its value on the
exponent 1/3 is not below any number whose cube is at most the argument, the box
size is positive and no new star has a negative smoothing length.  Then the
buffer-exhaustion abort (error 5) is never reached: the run aborts only on an
unknown wind model (error 1); otherwise it returns with `maxkicks` equal to the
sum over the threads of the visit counters plus 2 and with the number of
appended candidates at most `maxkicks - 2`. -/
theorem kick_buffer_never_exhausted (o : Oracle) (wp : WindParams) (BoxSize Time hubble : ℚ)
    (P : Nat → Particle) (ngb : Nat → List Candidate) (thread_of : Nat → Nat)
    (nthreads : Nat) (NewStars : List Nat) (W0 Wf : Nat → winddata)
    (later_visits : Nat → Nat) (kicks0 : Nat → StarKick)
    (hpos : 0 < nthreads)
    (hth : ∀ n ∈ NewStars, thread_of n < nthreads)
    (hsmall : (total_eligible P ngb NewStars : Int) +
      (∑ t in Finset.range nthreads, (later_visits t : Int)) + 2 < 2147483648)
    (hpow3 : ∀ x : ℚ, o.pow x 3 = x ^ 3)
    (hcbrt : ∀ y h : ℚ, 0 ≤ h → h ^ 3 ≤ y → h ≤ o.pow y (1 / 3))
    (hbox : 0 < BoxSize) (hH : ∀ n ∈ NewStars, 0 ≤ (P n).Hsml) :
    (¬ (HAS wp.WindModel WIND_FIXED_EFFICIENCY = true ∨
          HAS wp.WindModel WIND_USE_HALO = true) ∧
      winds_and_feedback_kicks o wp BoxSize Time hubble P ngb thread_of nthreads NewStars
        W0 Wf later_visits kicks0 = Except.error 1) ∨
    ∃ priv1 : WindPriv,
      winds_and_feedback_kicks o wp BoxSize Time hubble P ngb thread_of nthreads NewStars
        W0 Wf later_visits kicks0 = Except.ok priv1 ∧
      (priv1.maxkicks : Int) = sum_nvisited nthreads priv1.nvisited + 2 ∧
      priv1.nkicks + 2 ≤ priv1.maxkicks :=
  kick_buffer_bound_of_radii o wp BoxSize Time hubble P ngb thread_of nthreads NewStars W0 Wf
    later_visits kicks0 hpos hth hsmall
    (fun n hn i _ => first_round_radius o BoxSize P n (W0 n) i hpow3 hcbrt hbox (hH n hn))

/-- Witness of C14: one new star of smoothing length 1 with one gas neighbour at
distance 1/2, one thread, the fixed-efficiency model, a box of size 100: the run
returns with at least 2 slots of the buffer left. -/
theorem kick_buffer_never_exhausted_witness :
    ∃ priv1 : WindPriv,
      winds_and_feedback_kicks oracle_root (params0 8) 100 1 1 parts0 ngb0 (fun _ => 0) 1 [0]
        (fun _ => sample0 0 2 1 40) (fun _ => sample_done) (fun _ => 0)
        (fun _ => kickZero) = Except.ok priv1 ∧
      (priv1.maxkicks : Int) = sum_nvisited 1 priv1.nvisited + 2 ∧
      priv1.nkicks + 2 ≤ priv1.maxkicks :=
  (kick_buffer_never_exhausted oracle_root (params0 8) 100 1 1 parts0 ngb0 (fun _ => 0) 1 [0]
    (fun _ => sample0 0 2 1 40) (fun _ => sample_done) (fun _ => 0) (fun _ => kickZero)
    (by decide)
    (by intro n _; exact Nat.zero_lt_one)
    (by
      have h1 : total_eligible parts0 ngb0 [0] = 1 := by
        norm_num [total_eligible, eligible_gas, ngb0, parts0, gas0, List.countP_cons]
      rw [h1]
      simp)
    (by intro x; simp [oracle_root])
    (by
      intro y h h0 hle
      have h3 : ¬ ((1 : ℚ) / 3 = 3) := by norm_num
      simp only [oracle_root, h3, if_false]
      by_cases h1 : h ≤ 1
      · exact le_max_of_le_right h1
      · apply le_max_of_le_left
        have h1b : 1 ≤ h := le_of_lt (not_le.mp h1)
        have hsq : 0 ≤ h * (h - 1) * (h + 1) :=
          mul_nonneg (mul_nonneg h0 (by linarith)) (by linarith)
        have hcube : h ^ 3 = h + h * (h - 1) * (h + 1) := by ring
        linarith)
    (by norm_num)
    (by
      intro n hn
      have h0 : n = 0 := by simpa using hn
      subst h0
      norm_num [parts0])).resolve_left
    (by
      intro h
      exact h.1 (Or.inl (by decide)))

/-- C21: the dispersion formula.  For a star that `sfr_wind_weight_postprocess`
does not put on the redo queue, whose chosen bucket has a count N > 0 and a
positive variance `(V2sum - |V1sum|^2 / N) / N`, with `pow` exact on the exponent
2: the call returns, the queue is as it was, and the resolved `Vdisp` is `sqrt`
of `(V2sum - |V1sum|^2 / N) / N / 3`; so `Vdisp^2` differs from
`(V2sum - |V1sum|^2 / N) / N / 3` by exactly what the square of `sqrt` differs
from its argument there, and `Vdisp^2 = (V2sum - |V1sum|^2 / N) / N / 3` where
`sqrt` squares back to its argument. -/
theorem dispersion_formula (o : Oracle) (sqrt : ℚ → ℚ)
    (ngb_narrow_down : ℚ → ℚ → List ℚ → (Nat → ℚ) → Int → Nat → ℚ → NarrowDown)
    (BoxSize : ℚ) (P : Nat → Particle) (i : Nat) (w : winddata) (tw : TreeWalkRedo)
    (hstar : (P i).Type_ = 4)
    (hpow2 : ∀ x : ℚ, o.pow x 2 = x ^ 2)
    (hfinal : ¬ ((w.Ngb (postprocess_narrow o ngb_narrow_down BoxSize w).close < 38 ∨
        w.Ngb (postprocess_narrow o ngb_narrow_down BoxSize w).close > 42) ∧
      (postprocess_narrow o ngb_narrow_down BoxSize w).Right -
        (postprocess_narrow o ngb_narrow_down BoxSize w).Left > 1 / 100))
    (hN : 0 < w.Ngb (postprocess_narrow o ngb_narrow_down BoxSize w).close)
    (hvar : 0 < spec_variance w (postprocess_narrow o ngb_narrow_down BoxSize w).close) :
    ∃ (w1 : winddata) (tw1 : TreeWalkRedo),
      sfr_wind_weight_postprocess o sqrt ngb_narrow_down BoxSize P i w tw =
        Except.ok (w1, tw1) ∧
      tw1.NPRedo = tw.NPRedo ∧
      w1.Vdisp =
        sqrt ((w.V2sum (postprocess_narrow o ngb_narrow_down BoxSize w).close -
          ((w.V1sum (postprocess_narrow o ngb_narrow_down BoxSize w).close).x0 ^ 2 +
            (w.V1sum (postprocess_narrow o ngb_narrow_down BoxSize w).close).x1 ^ 2 +
            (w.V1sum (postprocess_narrow o ngb_narrow_down BoxSize w).close).x2 ^ 2) /
            w.Ngb (postprocess_narrow o ngb_narrow_down BoxSize w).close) /
          w.Ngb (postprocess_narrow o ngb_narrow_down BoxSize w).close / 3) ∧
      w1.Vdisp ^ 2 -
          spec_variance w (postprocess_narrow o ngb_narrow_down BoxSize w).close / 3 =
        sqrt (spec_variance w (postprocess_narrow o ngb_narrow_down BoxSize w).close / 3) ^ 2 -
          spec_variance w (postprocess_narrow o ngb_narrow_down BoxSize w).close / 3 ∧
      (sqrt (spec_variance w (postprocess_narrow o ngb_narrow_down BoxSize w).close / 3) ^ 2 =
          spec_variance w (postprocess_narrow o ngb_narrow_down BoxSize w).close / 3 →
        w1.Vdisp ^ 2 =
          (w.V2sum (postprocess_narrow o ngb_narrow_down BoxSize w).close -
            ((w.V1sum (postprocess_narrow o ngb_narrow_down BoxSize w).close).x0 ^ 2 +
              (w.V1sum (postprocess_narrow o ngb_narrow_down BoxSize w).close).x1 ^ 2 +
              (w.V1sum (postprocess_narrow o ngb_narrow_down BoxSize w).close).x2 ^ 2) /
              w.Ngb (postprocess_narrow o ngb_narrow_down BoxSize w).close) /
            w.Ngb (postprocess_narrow o ngb_narrow_down BoxSize w).close / 3) := by
  obtain ⟨w1, tw1, e1, _, e3, e4⟩ :=
    postprocess_sample o sqrt ngb_narrow_down BoxSize P i w tw hstar
  have hv : postprocess_vdisp o w (postprocess_narrow o ngb_narrow_down BoxSize w).close =
      spec_variance w (postprocess_narrow o ngb_narrow_down BoxSize w).close :=
    postprocess_vdisp_eq o w _ hpow2 (ne_of_gt hN)
  rw [if_neg hfinal] at e3 e4
  rw [hv, if_pos hvar] at e4
  refine ⟨w1, tw1, e1, e3, e4, ?_, ?_⟩
  · rw [e4]
  · intro hsqrt
    rw [e4, hsqrt]
    rfl

/-- Witness of C21: 40 neighbours whose velocities sum to 0 and whose squared
velocities sum to 480: the variance is 12, `Vdisp` is `sqrt 4` and, with a
`sqrt` that is exact at 4, `Vdisp^2` is 4. -/
theorem dispersion_formula_witness :
    ∃ (w1 : winddata) (tw1 : TreeWalkRedo),
      sfr_wind_weight_postprocess oracle_square sqrt_four narrow_keep 100 (fun _ => star0) 0
        sample_disp redo0 = Except.ok (w1, tw1) ∧
      tw1.NPRedo = [] ∧ w1.Vdisp = sqrt_four 4 ∧ w1.Vdisp ^ 2 = 4 := by
  obtain ⟨w1, tw1, e1, e2, e3, _, e5⟩ :=
    dispersion_formula oracle_square sqrt_four narrow_keep 100 (fun _ => star0) 0
      sample_disp redo0 rfl
      (by intro x; simp [oracle_square])
      (by norm_num [postprocess_narrow, narrow_keep, sample_disp, sample0])
      (by norm_num [postprocess_narrow, narrow_keep, sample_disp, sample0])
      (by norm_num [spec_variance, postprocess_narrow, narrow_keep, sample_disp, sample0])
  refine ⟨w1, tw1, e1, e2, ?_, ?_⟩
  · rw [e3]
    norm_num [postprocess_narrow, narrow_keep, sample_disp, sample0]
  · rw [e5 (by
      norm_num [spec_variance, postprocess_narrow, narrow_keep, sample_disp, sample0,
        sqrt_four])]
    norm_num [postprocess_narrow, narrow_keep, sample_disp, sample0]

/-- C22: a dispersion that is left unset is whatever the slot held.  The
WindSample `sample_stale` of the star 0 of `parts0` holds the dispersion 1 from
before the event; the initialisation of `winds_and_feedback` leaves that field as
it is; the variance at finalisation is 0, so `sfr_wind_weight_postprocess`
finalises the star (no redo) without writing the dispersion, which stays 1; and
`sfr_wind_feedback_ngbiter`, called for that star on the gas neighbour 3 at
distance 1/2, appends a kick candidate. -/
theorem unset_dispersion_keeps_stale_value :
    (winddata_init 100 parts0 0 sample_stale).Vdisp = 1 ∧
    postprocess_vdisp oracle0 sample_stale
      (postprocess_narrow oracle0 narrow_keep 100 sample_stale).close = 0 ∧
    ∃ (w1 : winddata) (tw1 : TreeWalkRedo),
      sfr_wind_weight_postprocess oracle0 id narrow_keep 100 parts0 0 sample_stale redo0 =
        Except.ok (w1, tw1) ∧
      tw1.NPRedo = [] ∧ w1.Vdisp = 1 ∧
      ∃ priv1 : WindPriv,
        sfr_wind_feedback_ngbiter oracle0 (params0 8) parts0
          (sfr_wind_copy oracle0 100 1 parts0 0 w1) (iter0 (1 / 2)) (priv0 4) =
          Except.ok (iter0 (1 / 2), priv1) ∧
        priv1.nkicks = 1 ∧ (priv1.kicks 0).part_index = 3 := by
  have hv : postprocess_vdisp oracle0 sample_stale
      (postprocess_narrow oracle0 narrow_keep 100 sample_stale).close = 0 := by
    norm_num [postprocess_vdisp, postprocess_narrow, narrow_keep, sample_stale, sample0,
      oracle0]
  refine ⟨rfl, hv, ?_⟩
  obtain ⟨w1, tw1, e1, e2, e3, e4⟩ :=
    postprocess_sample oracle0 id narrow_keep 100 parts0 0 sample_stale redo0
      (by simp [parts0])
  have hfinal : ¬ ((sample_stale.Ngb
        (postprocess_narrow oracle0 narrow_keep 100 sample_stale).close < 38 ∨
      sample_stale.Ngb (postprocess_narrow oracle0 narrow_keep 100 sample_stale).close > 42) ∧
      (postprocess_narrow oracle0 narrow_keep 100 sample_stale).Right -
        (postprocess_narrow oracle0 narrow_keep 100 sample_stale).Left > 1 / 100) := by
    norm_num [postprocess_narrow, narrow_keep, sample_stale, sample0]
  rw [if_neg hfinal] at e3 e4
  rw [hv, if_neg (lt_irrefl 0)] at e4
  have hV : w1.Vdisp = 1 := by
    rw [e4]
    rfl
  have hT : w1.TotalWeight = 4 := by
    rw [e2]
    rfl
  refine ⟨w1, tw1, e1, by rw [e3]; rfl, hV, ?_⟩
  have hfix : HAS (params0 8).WindModel WIND_FIXED_EFFICIENCY = true := by decide
  rw [sfr_wind_feedback_ngbiter_eq oracle0 (params0 8) parts0 _ (iter0 (1 / 2)) (priv0 4)
    (by decide) (Or.inl hfix)]
  unfold spec_wind_efficiency spec_model_speed
  rw [if_pos hfix, if_pos hfix]
  refine ⟨{ priv0 4 with
      nkicks := 1
      kicks := Function.update (priv0 4).kicks 0 ⟨3, 1 / 2, 7, 2, 3 / 2⟩ }, ?_, rfl, ?_⟩
  · norm_num [iter0, sfr_wind_copy, hV, hT, parts0, gas0, oracle0, params0, priv0, idplus]
    rfl
  · simp

/-- Counterexample to C23 as stated: the component count after the
initialisation.  For the star 0 of `parts0` in a box of size 100, the
initialisation loop of `winds_and_feedback` leaves `maxcmpte` = `NUMDMNGB` = 40
in the WindSample, which is above `NWINDHSML` = 5. -/
theorem winddata_init_component_count :
    (winddata_init 100 parts0 0 sample_stale).maxcmpte = 40 ∧
    ¬ ((winddata_init 100 parts0 0 sample_stale).maxcmpte ≤ (NWINDHSML : Int)) := by
  constructor
  · rfl
  · show ¬ ((NUMDMNGB : Int) ≤ (NWINDHSML : Int))
    decide

/-- C23 (amended): the bound on the active component count.  The first-call
setup of `sfr_wind_weight_ngbiter` sets the count of the result record to
`NWINDHSML`; every later call of the callback in the walk keeps
1 <= maxcmpte <= NWINDHSML and does not raise the count.  After
`sfr_wind_reduce_weight` has merged a result record with such a count, the
WindSample has 1 <= maxcmpte <= NWINDHSML (in mode 0 whatever it held before,
in the other modes when it held at least 1), a reduce in a mode other than 0
does not raise the count of the WindSample, and on the WindSample as initialised
(count `NUMDMNGB`) the reduce leaves the count of the result record in every
mode.  With a count of at most `NWINDHSML` every index of the loop of
`sfr_wind_reduce_weight` is below `NWINDHSML` and `sfr_wind_weight_postprocess`
fills at most `NWINDHSML` entries of `evaldmradius`. -/
theorem maxcmpte_within_bounds :
    (∀ (P : Nat → Particle) (I : TreeWalkQueryWind) (O : TreeWalkResultWind)
        (iter : TreeWalkNgbIterWind) (priv : WindPriv) (tid : Nat),
      iter.other = -1 →
      (sfr_wind_weight_ngbiter P I O iter priv tid).1.maxcmpte = (NWINDHSML : Int) ∧
      maxcmpte_ok (sfr_wind_weight_ngbiter P I O iter priv tid).1) ∧
    (∀ (P : Nat → Particle) (I : TreeWalkQueryWind) (O : TreeWalkResultWind)
        (iter : TreeWalkNgbIterWind) (priv : WindPriv) (tid : Nat),
      ¬ iter.other = -1 → maxcmpte_ok O →
      maxcmpte_ok (sfr_wind_weight_ngbiter P I O iter priv tid).1 ∧
      1 ≤ (sfr_wind_weight_ngbiter P I O iter priv tid).1.maxcmpte ∧
      (sfr_wind_weight_ngbiter P I O iter priv tid).1.maxcmpte ≤ (NWINDHSML : Int) ∧
      (sfr_wind_weight_ngbiter P I O iter priv tid).1.maxcmpte ≤ O.maxcmpte) ∧
    (∀ (R : Int → ℚ → ℚ → ℚ) (w : winddata) (O : TreeWalkResultWind) (mode : Int),
      1 ≤ O.maxcmpte → O.maxcmpte ≤ (NWINDHSML : Int) →
      (mode = 0 ∨ 1 ≤ w.maxcmpte) →
      1 ≤ (sfr_wind_reduce_weight R w O mode).maxcmpte ∧
      (sfr_wind_reduce_weight R w O mode).maxcmpte ≤ (NWINDHSML : Int) ∧
      (mode ≠ 0 → (sfr_wind_reduce_weight R w O mode).maxcmpte ≤ w.maxcmpte)) ∧
    (∀ (R : Int → ℚ → ℚ → ℚ) (BoxSize : ℚ) (P : Nat → Particle) (n : Nat) (w : winddata)
        (O : TreeWalkResultWind) (mode : Int),
      O.maxcmpte ≤ (NWINDHSML : Int) →
      (sfr_wind_reduce_weight R (winddata_init BoxSize P n w) O mode).maxcmpte =
        O.maxcmpte) ∧
    (∀ (O : TreeWalkResultWind), O.maxcmpte ≤ (NWINDHSML : Int) →
      ∀ i ∈ List.range O.maxcmpte.toNat, i < NWINDHSML) ∧
    (∀ (o : Oracle) (BoxSize : ℚ) (w : winddata), w.maxcmpte ≤ (NWINDHSML : Int) →
      ((List.range w.maxcmpte.toNat).map (fun j => effdmradius o BoxSize w j)).length ≤
        NWINDHSML) := by
  have hN5 : (NWINDHSML : Int) = 5 := rfl
  refine ⟨?_, ?_, ?_, ?_, ?_, ?_⟩
  · intro P I O iter priv tid hs
    have h : (sfr_wind_weight_ngbiter P I O iter priv tid).1.maxcmpte = (NWINDHSML : Int) := by
      unfold sfr_wind_weight_ngbiter
      simp only [hs, if_true]
    exact ⟨h, by rw [h, hN5]; decide, le_of_eq h, Or.inl h⟩
  · intro P I O iter priv tid hne hok
    obtain ⟨h1, h2⟩ := weight_ngbiter_maxcmpte P I O iter priv tid hne hok
    exact ⟨h1, h1.1, h1.2.1, h2⟩
  · intro R w O mode h1 h5 hw
    rw [sfr_wind_reduce_weight_maxcmpte]
    by_cases h : mode = 0 ∨ w.maxcmpte > O.maxcmpte
    · rw [if_pos h]
      refine ⟨h1, h5, fun hm => ?_⟩
      rcases h with h | h
      · exact absurd h hm
      · exact h.le
    · rw [if_neg h]
      push_neg at h
      rcases hw with hw | hw
      · exact absurd hw h.1
      · exact ⟨hw, le_trans h.2 h5, fun _ => le_refl _⟩
  · intro R BoxSize P n w O mode h5
    rw [sfr_wind_reduce_weight_maxcmpte]
    have hinit : (winddata_init BoxSize P n w).maxcmpte = 40 := rfl
    rw [if_pos (Or.inr (by rw [hinit]; omega))]
  · intro O h5 i hi
    have := List.mem_range.mp hi
    show i < 5
    omega
  · intro o BoxSize w h5
    rw [List.length_map, List.length_range]
    show w.maxcmpte.toNat ≤ 5
    omega

/-- Witness of C23 (amended): the WindSample of the star 0 of `parts0` as
initialised (count 40), merged in mode 0 with a result record of count 5, with
`TREEWALK_REDUCE` assigning in mode 0 and adding otherwise: the count is 5. -/
theorem maxcmpte_within_bounds_witness :
    (sfr_wind_reduce_weight (fun mode a b => if mode = 0 then b else a + b)
      (winddata_init 100 parts0 0 sample_stale) { result_zero with maxcmpte := 5 } 0).maxcmpte =
      5 :=
  maxcmpte_within_bounds.2.2.2.1 (fun mode a b => if mode = 0 then b else a + b) 100 parts0 0
    sample_stale { result_zero with maxcmpte := 5 } 0 (by decide)

/-- C24: positive speed at resolution.  A call of `sfr_wind_feedback_ngbiter`
that returns leaves the counter as it was or raises it by one, and the candidate
it then wrote in the new slot has `StarKickVelocity > 0`; so a buffer whose
candidates all have a positive speed keeps that property.  For a candidate of
positive speed the resolver aborts, from any loop state, exactly when the speed
or the timer of the target after the kick is not finite; and the scan of a
sorted buffer of candidates of positive speed aborts exactly when a kept
candidate has a speed or a resulting timer that is not finite: the test
`v <= 0` of the fatal check never holds. -/
theorem enqueued_speed_positive (o : Oracle) (wp : WindParams) (Time : ℚ) :
    (∀ (P : Nat → Particle) (I : TreeWalkQueryWind) (iter iter1 : TreeWalkNgbIterWind)
        (priv priv1 : WindPriv),
      sfr_wind_feedback_ngbiter o wp P I iter priv = Except.ok (iter1, priv1) →
      (priv1.nkicks = priv.nkicks ∨
        (priv1.nkicks = priv.nkicks + 1 ∧
          (priv1.kicks priv.nkicks).StarKickVelocity > 0)) ∧
      ((∀ j : Nat, j < priv.nkicks → (priv.kicks j).StarKickVelocity > 0) →
        ∀ j : Nat, j < priv1.nkicks → (priv1.kicks j).StarKickVelocity > 0)) ∧
    (∀ (st : ScanState) (k : StarKick), k.StarKickVelocity > 0 →
      ¬ k.StarKickVelocity ≤ 0 ∧
      (resolver_kick o wp Time st k = Except.error 5 ↔
        (o.isfinite k.StarKickVelocity = false ∨
          o.isfinite (resolved_particle o wp Time st.P k).DelayTime = false)) ∧
      (¬ (o.isfinite k.StarKickVelocity = false ∨
          o.isfinite (resolved_particle o wp Time st.P k).DelayTime = false) →
        ∃ st1 : ScanState, resolver_kick o wp Time st k = Except.ok st1)) ∧
    (∀ (P : Nat → Particle) (s : List StarKick), SortedKicks s →
      (∀ k ∈ s, k.StarKickVelocity > 0) →
      (resolver_scan o wp Time P s = Except.error 5 ↔
        ∃ k ∈ kept_kicks (-1) s, o.isfinite k.StarKickVelocity = false ∨
          o.isfinite (resolved_particle o wp Time P k).DelayTime = false) ∧
      ((∀ k ∈ kept_kicks (-1) s, o.isfinite k.StarKickVelocity = true ∧
          o.isfinite (resolved_particle o wp Time P k).DelayTime = true) →
        ∃ st1 : ScanState, resolver_scan o wp Time P s = Except.ok st1)) := by
  have hfatal : ∀ (P : Nat → Particle) (k : StarKick), k.StarKickVelocity > 0 →
      (fatal_kick o wp Time P k ↔
        (o.isfinite k.StarKickVelocity = false ∨
          o.isfinite (resolved_particle o wp Time P k).DelayTime = false)) := by
    intro P k hk
    unfold fatal_kick
    constructor
    · rintro (h | h)
      · exact absurd hk (not_lt.mpr h)
      · exact h
    · intro h
      exact Or.inr h
  refine ⟨?_, ?_, ?_⟩
  · intro P I iter iter1 priv priv1 h
    rcases feedback_ok_outcome o wp P I iter iter1 priv priv1 h with
      hsame | ⟨_, k, hk, happ⟩
    · subst hsame
      exact ⟨Or.inl rfl, fun hall => hall⟩
    · subst happ
      refine ⟨Or.inr ⟨rfl, ?_⟩, ?_⟩
      · dsimp only
        rw [Function.update_same]
        exact hk
      · intro hall j hj
        have hj1 : j < priv.nkicks + 1 := hj
        dsimp only
        by_cases hjn : j = priv.nkicks
        · rw [hjn, Function.update_same]
          exact hk
        · rw [Function.update_noteq hjn]
          exact hall j (by omega)
  · intro st k hk
    refine ⟨not_le.mpr hk, ?_, ?_⟩
    · rw [resolver_kick_eq, ← hfatal st.P k hk]
      by_cases hf : fatal_kick o wp Time st.P k
      · rw [if_pos hf]
        exact ⟨fun _ => hf, fun _ => rfl⟩
      · rw [if_neg hf]
        constructor
        · intro hc
          cases hc
        · intro hc
          exact absurd hc hf
    · intro hnf
      rw [resolver_kick_eq, if_neg (fun hf => hnf ((hfatal st.P k hk).mp hf))]
      exact ⟨_, rfl⟩
  · intro P s hs hpos
    have hkept : ∀ k ∈ kept_kicks (-1) s, k.StarKickVelocity > 0 :=
      fun k hk => hpos k (kept_kicks_subset s (-1) k hk)
    constructor
    · constructor
      · intro herr
        by_contra hno
        push_neg at hno
        obtain ⟨st1, e1, _⟩ := resolver_scan_ok o wp Time P s hs (by
          intro k hk hf
          have h1 := (hfatal P k (hkept k hk)).mp hf
          have h2 := hno k hk
          rcases h1 with h1 | h1
          · exact h2.1 h1
          · exact h2.2 h1)
        rw [e1] at herr
        cases herr
      · rintro ⟨k, hk, hf⟩
        exact resolver_scan_fatal o wp Time P s hs
          ⟨k, hk, (hfatal P k (hkept k hk)).mpr hf⟩
    · intro hfin
      obtain ⟨st1, e1, _⟩ := resolver_scan_ok o wp Time P s hs (by
        intro k hk hf
        have h1 := (hfatal P k (hkept k hk)).mp hf
        obtain ⟨g1, g2⟩ := hfin k hk
        rcases h1 with h1 | h1
        · rw [g1] at h1
          cases h1
        · rw [g2] at h1
          cases h1)
      exact ⟨st1, e1⟩

/-- C25: the bounded append.  When `sfr_wind_feedback_ngbiter` accepts a
candidate for the visited neighbour n while the counter is at `nkicks`: with
`nkicks >= maxkicks` it aborts (error 5) and nothing is written; with
`nkicks < maxkicks` it returns with the counter at `nkicks + 1` and the capacity
as it was, slot `nkicks` holds the target index, the distance, the star ID, the
speed and the thermal energy of the candidate, and every other slot, the slots
below `nkicks` among them, is as it was; and a further accepted candidate goes
into slot `nkicks + 1` and leaves slot `nkicks` as the first call wrote it. -/
theorem feedback_bounded_append (o : Oracle) (wp : WindParams) (P : Nat → Particle)
    (I : TreeWalkQueryWind) (iter : TreeWalkNgbIterWind) (priv : WindPriv) (n : Nat)
    (hother : iter.other = (n : Int))
    (hmodel : HAS wp.WindModel WIND_FIXED_EFFICIENCY = true ∨
      HAS wp.WindModel WIND_USE_HALO = true)
    (hacc : spec_candidate_accepted o wp priv.Time P I n iter.r) :
    (priv.nkicks ≥ priv.maxkicks →
      sfr_wind_feedback_ngbiter o wp P I iter priv = Except.error 5) ∧
    (priv.nkicks < priv.maxkicks →
      ∃ priv1 : WindPriv,
        sfr_wind_feedback_ngbiter o wp P I iter priv = Except.ok (iter, priv1) ∧
        priv1.nkicks = priv.nkicks + 1 ∧ priv1.maxkicks = priv.maxkicks ∧
        priv1.kicks priv.nkicks =
          { part_index := n, StarDistance := iter.r, StarID := I.ID,
            StarKickVelocity :=
              max (spec_model_speed wp priv.Time I) (wp.MinWindVelocity * priv.Time),
            StarTherm := wp.WindThermalFactor * (3 / 2) * I.Vdisp * I.Vdisp } ∧
        (∀ j : Nat, j ≠ priv.nkicks → priv1.kicks j = priv.kicks j) ∧
        ∀ (I2 : TreeWalkQueryWind) (iter2 : TreeWalkNgbIterWind) (n2 : Nat),
          iter2.other = (n2 : Int) →
          spec_candidate_accepted o wp priv1.Time P I2 n2 iter2.r →
          priv1.nkicks < priv1.maxkicks →
          ∃ priv2 : WindPriv,
            sfr_wind_feedback_ngbiter o wp P I2 iter2 priv1 = Except.ok (iter2, priv2) ∧
            priv2.nkicks = priv.nkicks + 2 ∧
            priv2.kicks priv.nkicks = priv1.kicks priv.nkicks ∧
            (priv2.kicks (priv.nkicks + 1)).part_index = n2 ∧
            (priv2.kicks (priv.nkicks + 1)).StarID = I2.ID ∧
            (priv2.kicks (priv.nkicks + 1)).StarDistance = iter2.r) := by
  have h := feedback_accepted_eq o wp P I iter priv n hother hmodel hacc
  constructor
  · intro hfull
    rw [h, if_pos hfull]
  · intro hroom
    rw [h, if_neg (not_le.mpr hroom)]
    refine ⟨_, rfl, rfl, rfl, ?_, ?_, ?_⟩
    · dsimp only
      rw [Function.update_same]
    · intro j hj
      dsimp only
      rw [Function.update_noteq hj]
    · intro I2 iter2 n2 hother2 hacc2 hroom2
      have h2 := feedback_accepted_eq o wp P I2 iter2 _ n2 hother2 hmodel hacc2
      rw [h2, if_neg (not_le.mpr hroom2)]
      refine ⟨_, rfl, rfl, ?_, ?_, ?_, ?_⟩
      · dsimp only
        rw [Function.update_noteq (Nat.ne_of_lt (Nat.lt_succ_self _))]
      · dsimp only
        rw [Function.update_same]
      · dsimp only
        rw [Function.update_same]
      · dsimp only
        rw [Function.update_same]

/-- Witness of C25: the example query with an empty buffer of capacity 4 (the
candidate goes into slot 0) and of capacity 0 (the run aborts). -/
theorem feedback_bounded_append_witness :
    (∃ priv1 : WindPriv,
      sfr_wind_feedback_ngbiter oracle0 (params0 8) (fun _ => gas0 5 0) query0 (iter0 5)
        (priv0 4) = Except.ok (iter0 5, priv1) ∧
      priv1.nkicks = 1 ∧ (priv1.kicks 0).part_index = 3 ∧
      (priv1.kicks 0).StarDistance = 5 ∧ (priv1.kicks 0).StarID = 11) ∧
    sfr_wind_feedback_ngbiter oracle0 (params0 8) (fun _ => gas0 5 0) query0 (iter0 5)
      (priv0 0) = Except.error 5 := by
  have hacc : ∀ cap : Nat, spec_candidate_accepted oracle0 (params0 8) (priv0 cap).Time
      (fun _ => gas0 5 0) query0 3 (iter0 5).r := by
    intro cap
    have hfix : HAS (params0 8).WindModel WIND_FIXED_EFFICIENCY = true := by decide
    unfold spec_candidate_accepted spec_wind_efficiency spec_model_speed
    rw [if_pos hfix, if_pos hfix]
    norm_num [iter0, query0, gas0, oracle0, params0, priv0]
  constructor
  · obtain ⟨priv1, e1, e2, _, e4, _, _⟩ :=
      (feedback_bounded_append oracle0 (params0 8) (fun _ => gas0 5 0) query0 (iter0 5)
        (priv0 4) 3 rfl (Or.inl (by decide)) (hacc 4)).2 (by decide)
    refine ⟨priv1, e1, e2, ?_, ?_, ?_⟩
    · have h0 : (priv0 4).nkicks = 0 := rfl
      rw [h0] at e4
      rw [e4]
    · have h0 : (priv0 4).nkicks = 0 := rfl
      rw [h0] at e4
      rw [e4]
      rfl
    · have h0 : (priv0 4).nkicks = 0 := rfl
      rw [h0] at e4
      rw [e4]
      rfl
  · exact (feedback_bounded_append oracle0 (params0 8) (fun _ => gas0 5 0) query0 (iter0 5)
      (priv0 0) 3 rfl (Or.inl (by decide)) (hacc 0)).1 (by decide)

end Winds

namespace TimeBinMgr

/-! ## Lemmas on the sync points -/

/-- What the loop of `find_next_sync_point` returns: the first index at or after
`i` whose time is above `ti`, or nothing when there is none among the `n`
entries scanned. -/
theorem find_next_from_spec (S : Nat → SyncPoint) (ti : Int) :
    ∀ (n i : Nat),
      (∀ k : Nat, find_next_from S ti n i = some k →
        i ≤ k ∧ k < i + n ∧ (S k).ti > ti ∧ ∀ j : Nat, i ≤ j → j < k → ¬ (S j).ti > ti) ∧
      (find_next_from S ti n i = none → ∀ j : Nat, i ≤ j → j < i + n → ¬ (S j).ti > ti) := by
  intro n
  induction n with
  | zero =>
    intro i
    constructor
    · intro k hk
      simp [find_next_from] at hk
    · intro _ j h1 h2
      omega
  | succ n ih =>
    intro i
    by_cases hi : (S i).ti > ti
    · constructor
      · intro k hk
        simp only [find_next_from, hi, if_true, Option.some.injEq] at hk
        subst hk
        exact ⟨le_refl _, by omega, hi, fun j h1 h2 => by omega⟩
      · intro hn
        simp [find_next_from, hi] at hn
    · obtain ⟨ih1, ih2⟩ := ih (i + 1)
      constructor
      · intro k hk
        simp only [find_next_from, hi, if_false] at hk
        obtain ⟨h1, h2, h3, h4⟩ := ih1 k hk
        refine ⟨by omega, by omega, h3, ?_⟩
        intro j hj1 hj2
        rcases Nat.eq_or_lt_of_le hj1 with rfl | hlt
        · exact hi
        · exact h4 j hlt hj2
      · intro hn
        simp only [find_next_from, hi, if_false] at hn
        intro j hj1 hj2
        rcases Nat.eq_or_lt_of_le hj1 with rfl | hlt
        · exact hi
        · exact ih2 hn j hlt (by omega)

/-- The integer times `setup_sync_points` assigns: entry i of the table gets
i * 2^TIMEBINS. -/
theorem setup_sync_points_ti (log : ℚ → ℚ) (TIMEBINS : Nat) (All : AllParams)
    (S0 : Nat → SyncPoint) (i : Nat)
    (hi : i < (setup_sync_points log TIMEBINS All S0).NSyncPoints) :
    ((setup_sync_points log TIMEBINS All S0).SyncPoints i).ti = (i : Int) * 2 ^ TIMEBINS := by
  unfold setup_sync_points at hi ⊢
  simp only [] at hi ⊢
  rw [if_pos hi]

/-! ## Theorems on the sync points -/

/-- C17: `find_next_sync_point` on the table `setup_sync_points` has built.  The
integer time of entry i is i * 2^TIMEBINS, strictly increasing in i;
`find_next_sync_point(ti)` returns an entry of the table whose time is above
`ti` and is the smallest such time; and it returns `NULL` exactly when no entry
of the table has a time above `ti`. -/
theorem find_next_sync_point_spec (log : ℚ → ℚ) (TIMEBINS : Nat) (All : AllParams)
    (S0 : Nat → SyncPoint) (ti : Int) :
    (∀ i : Nat, i < (setup_sync_points log TIMEBINS All S0).NSyncPoints →
      ((setup_sync_points log TIMEBINS All S0).SyncPoints i).ti = (i : Int) * 2 ^ TIMEBINS) ∧
    (∀ i j : Nat, i < j → j < (setup_sync_points log TIMEBINS All S0).NSyncPoints →
      ((setup_sync_points log TIMEBINS All S0).SyncPoints i).ti <
        ((setup_sync_points log TIMEBINS All S0).SyncPoints j).ti) ∧
    (∀ k : Nat, find_next_sync_point (setup_sync_points log TIMEBINS All S0) ti = some k →
      k < (setup_sync_points log TIMEBINS All S0).NSyncPoints ∧
      ((setup_sync_points log TIMEBINS All S0).SyncPoints k).ti > ti ∧
      ∀ j : Nat, j < (setup_sync_points log TIMEBINS All S0).NSyncPoints →
        ((setup_sync_points log TIMEBINS All S0).SyncPoints j).ti > ti →
        ((setup_sync_points log TIMEBINS All S0).SyncPoints k).ti ≤
          ((setup_sync_points log TIMEBINS All S0).SyncPoints j).ti) ∧
    (find_next_sync_point (setup_sync_points log TIMEBINS All S0) ti = none ↔
      ∀ j : Nat, j < (setup_sync_points log TIMEBINS All S0).NSyncPoints →
        ((setup_sync_points log TIMEBINS All S0).SyncPoints j).ti ≤ ti) := by
  have hti := setup_sync_points_ti log TIMEBINS All S0
  have hpow : (0 : Int) < 2 ^ TIMEBINS := by positivity
  have hmono : ∀ i j : Nat, i < j →
      j < (setup_sync_points log TIMEBINS All S0).NSyncPoints →
      ((setup_sync_points log TIMEBINS All S0).SyncPoints i).ti <
        ((setup_sync_points log TIMEBINS All S0).SyncPoints j).ti := by
    intro i j hij hj
    rw [hti i (lt_trans hij hj), hti j hj]
    have : (i : Int) < (j : Int) := by exact_mod_cast hij
    exact mul_lt_mul_of_pos_right this hpow
  obtain ⟨hs, hn⟩ := find_next_from_spec (setup_sync_points log TIMEBINS All S0).SyncPoints ti
    (setup_sync_points log TIMEBINS All S0).NSyncPoints 0
  refine ⟨hti, hmono, ?_, ?_⟩
  · intro k hk
    obtain ⟨_, h2, h3, h4⟩ := hs k hk
    refine ⟨by omega, h3, ?_⟩
    intro j hj hjt
    rcases Nat.lt_trichotomy j k with hlt | heq | hgt
    · exact absurd hjt (h4 j (Nat.zero_le _) hlt)
    · rw [heq]
    · exact (hmono k j hgt hj).le
  · constructor
    · intro hnone j hj
      exact not_lt.mp (hn hnone j (Nat.zero_le _) (by omega))
    · intro hall
      cases hfind : find_next_sync_point (setup_sync_points log TIMEBINS All S0) ti with
      | none => rfl
      | some k =>
        obtain ⟨_, h2, h3, _⟩ := hs k hfind
        exact absurd h3 (not_lt.mpr (hall k (by omega)))

/-- C15, the failing case: a run from `TimeInit = 1/10` to `TimeMax = 1`.  With
the one output time 1/2 the table has three entries, of which the last is not
the entry of `TimeMax` but the zero-initialised slot behind the table, with
`write_snapshot = 0`: `memmove` has copied slot 2 over the `TimeMax` entry in
slot 1 instead of moving that entry up.  With the output times 1/2 and 1/4 the
table has four entries and the last two carry the same `loga`, so it is not
strictly ascending. -/
theorem setup_sync_points_drops_timemax :
    (run0 [1 / 2]).TimeInit < 1 / 2 ∧ (1 / 2 : ℚ) < (run0 [1 / 2]).TimeMax ∧
    (setup_sync_points log0 20 (run0 [1 / 2]) zero_table).NSyncPoints = 3 ∧
    ((setup_sync_points log0 20 (run0 [1 / 2]) zero_table).SyncPoints 0).loga =
      log0 (1 / 10) ∧
    ((setup_sync_points log0 20 (run0 [1 / 2]) zero_table).SyncPoints 1).loga =
      log0 (1 / 2) ∧
    ((setup_sync_points log0 20 (run0 [1 / 2]) zero_table).SyncPoints 2).loga = 0 ∧
    ((setup_sync_points log0 20 (run0 [1 / 2]) zero_table).SyncPoints 2).write_snapshot = 0 ∧
    (setup_sync_points log0 20 (run0 [1 / 2, 1 / 4]) zero_table).NSyncPoints = 4 ∧
    ((setup_sync_points log0 20 (run0 [1 / 2, 1 / 4]) zero_table).SyncPoints 2).loga =
      ((setup_sync_points log0 20 (run0 [1 / 2, 1 / 4]) zero_table).SyncPoints 3).loga ∧
    ((setup_sync_points log0 20 (run0 [1 / 2, 1 / 4]) zero_table).SyncPoints 3).write_snapshot
      = 0 := by
  refine ⟨?_, ?_, ?_, ?_, ?_, ?_, ?_, ?_, ?_, ?_⟩ <;>
    norm_num [setup_sync_points, insert_output, scan_slot, memmove_sync, run0, log0,
      zero_table, Function.update]

/-- C16, the failing case: a run from `TimeInit = 1/10` to `TimeMax = 1` with the
output times 1/2 and 1/4, both within the run.  After the first insertion the
table holds an entry for 1/2 with `write_snapshot = 1`; after the second the
four entries have `loga` equal to log(1/10), log(1/4), 0 and 0, so that no entry
is left for the output time 1/2. -/
theorem setup_sync_points_loses_output :
    ((setup_sync_points log0 20 (run0 [1 / 2]) zero_table).SyncPoints 1).loga =
      log0 (1 / 2) ∧
    ((setup_sync_points log0 20 (run0 [1 / 2]) zero_table).SyncPoints 1).write_snapshot = 1 ∧
    (setup_sync_points log0 20 (run0 [1 / 2, 1 / 4]) zero_table).NSyncPoints = 4 ∧
    ((setup_sync_points log0 20 (run0 [1 / 2, 1 / 4]) zero_table).SyncPoints 0).loga =
      log0 (1 / 10) ∧
    ((setup_sync_points log0 20 (run0 [1 / 2, 1 / 4]) zero_table).SyncPoints 1).loga =
      log0 (1 / 4) ∧
    ((setup_sync_points log0 20 (run0 [1 / 2, 1 / 4]) zero_table).SyncPoints 2).loga = 0 ∧
    ((setup_sync_points log0 20 (run0 [1 / 2, 1 / 4]) zero_table).SyncPoints 3).loga = 0 ∧
    (∀ i : Nat, i < (setup_sync_points log0 20 (run0 [1 / 2, 1 / 4]) zero_table).NSyncPoints →
      ((setup_sync_points log0 20 (run0 [1 / 2, 1 / 4]) zero_table).SyncPoints i).loga ≠
        log0 (1 / 2)) := by
  have hN : (setup_sync_points log0 20 (run0 [1 / 2, 1 / 4]) zero_table).NSyncPoints = 4 := by
    norm_num [setup_sync_points, insert_output, scan_slot, memmove_sync, run0, log0,
      zero_table, Function.update]
  have h0 : ((setup_sync_points log0 20 (run0 [1 / 2, 1 / 4]) zero_table).SyncPoints 0).loga =
      log0 (1 / 10) := by
    norm_num [setup_sync_points, insert_output, scan_slot, memmove_sync, run0, log0,
      zero_table, Function.update]
  have h1 : ((setup_sync_points log0 20 (run0 [1 / 2, 1 / 4]) zero_table).SyncPoints 1).loga =
      log0 (1 / 4) := by
    norm_num [setup_sync_points, insert_output, scan_slot, memmove_sync, run0, log0,
      zero_table, Function.update]
  have h2 : ((setup_sync_points log0 20 (run0 [1 / 2, 1 / 4]) zero_table).SyncPoints 2).loga =
      0 := by
    norm_num [setup_sync_points, insert_output, scan_slot, memmove_sync, run0, log0,
      zero_table, Function.update]
  have h3 : ((setup_sync_points log0 20 (run0 [1 / 2, 1 / 4]) zero_table).SyncPoints 3).loga =
      0 := by
    norm_num [setup_sync_points, insert_output, scan_slot, memmove_sync, run0, log0,
      zero_table, Function.update]
  refine ⟨?_, ?_, hN, h0, h1, h2, h3, ?_⟩
  · norm_num [setup_sync_points, insert_output, scan_slot, memmove_sync, run0, log0,
      zero_table, Function.update]
  · norm_num [setup_sync_points, insert_output, scan_slot, memmove_sync, run0, log0,
      zero_table, Function.update]
  · intro i hi
    rw [hN] at hi
    have hcases : i = 0 ∨ i = 1 ∨ i = 2 ∨ i = 3 := by omega
    rcases hcases with rfl | rfl | rfl | rfl
    · rw [h0]
      norm_num [log0]
    · rw [h1]
      norm_num [log0]
    · rw [h2]
      norm_num [log0]
    · rw [h3]
      norm_num [log0]

/-- Shifting a power of two right by one bit. -/
theorem two_pow_succ_shiftRight (k : Nat) : ((2 : Int) ^ (k + 1)) >>> (1 : Nat) = 2 ^ k := by
  rw [Int.shiftRight_eq_div_pow]
  norm_num [pow_succ]

/-- The loop of `round_down_power_of_two` entered with `ti_min = 2^k` and
`dti >= 1`: with fuel for `k + 1` tests it exits on a power of two `2^m`,
`m <= k`, that is at most `dti`, and `m = k` or `dti < 2^(m+1)`. -/
theorem round_down_loop_spec (dti : Int) (hdti : 1 ≤ dti) :
    ∀ (k fuel : Nat), k + 1 ≤ fuel →
      ∃ m : Nat, m ≤ k ∧ round_down_loop fuel (2 ^ k) dti = some (2 ^ m) ∧
        (2 : Int) ^ m ≤ dti ∧ (m = k ∨ dti < 2 ^ (m + 1)) := by
  intro k
  induction k with
  | zero =>
    intro fuel hfuel
    obtain ⟨f, rfl⟩ : ∃ f, fuel = f + 1 := ⟨fuel - 1, by omega⟩
    refine ⟨0, le_refl _, ?_, by simpa using hdti, Or.inl rfl⟩
    rw [round_down_loop, if_neg (by simpa using hdti)]
  | succ k ih =>
    intro fuel hfuel
    obtain ⟨f, rfl⟩ : ∃ f, fuel = f + 1 := ⟨fuel - 1, by omega⟩
    by_cases hgt : (2 : Int) ^ (k + 1) > dti
    · obtain ⟨m, hm, e, hle, hmax⟩ := ih f (by omega)
      refine ⟨m, by omega, ?_, hle, ?_⟩
      · rw [round_down_loop, if_pos hgt, two_pow_succ_shiftRight]
        exact e
      · rcases hmax with h | h
        · right
          rw [h]
          exact hgt
        · exact Or.inr h
    · refine ⟨k + 1, le_refl _, ?_, not_lt.mp hgt, Or.inl rfl⟩
      rw [round_down_loop, if_neg hgt]

/-- C26: `round_down_power_of_two` on `dti >= 1`, with `TIMEBASE = 2^TIMEBINS`.
The loop terminates (within `TIMEBINS + 1` tests of its condition) and the
result is a power of two `2^m`, `m <= TIMEBINS`, that is at most `dti`; it is at
most min(dti, TIMEBASE), and every power of two that is at most
min(dti, TIMEBASE) is at most the result. -/
theorem round_down_power_of_two_spec (TIMEBINS fuel : Nat) (TIMEBASE dti : Int)
    (hbase : TIMEBASE = 2 ^ TIMEBINS) (hdti : 1 ≤ dti) (hfuel : TIMEBINS + 1 ≤ fuel) :
    ∃ m : Nat, m ≤ TIMEBINS ∧
      round_down_power_of_two fuel TIMEBASE dti = some (2 ^ m) ∧
      (2 : Int) ^ m ≤ dti ∧ (2 : Int) ^ m ≤ min dti TIMEBASE ∧
      ∀ j : Nat, (2 : Int) ^ j ≤ min dti TIMEBASE → (2 : Int) ^ j ≤ 2 ^ m := by
  subst hbase
  obtain ⟨m, hm, e, hle, hmax⟩ := round_down_loop_spec dti hdti TIMEBINS fuel hfuel
  have hmono : (2 : Int) ^ m ≤ 2 ^ TIMEBINS :=
    pow_le_pow_right₀ (by norm_num) hm
  refine ⟨m, hm, e, hle, le_min hle hmono, ?_⟩
  intro j hj
  rcases hmax with h | h
  · rw [h]
    exact le_trans hj (min_le_right _ _)
  · have hlt : (2 : Int) ^ j < 2 ^ (m + 1) := lt_of_le_of_lt (le_trans hj (min_le_left _ _)) h
    have hjm : j < m + 1 := (pow_lt_pow_iff_right₀ (by norm_num)).mp hlt
    exact pow_le_pow_right₀ (by norm_num) (by omega)

/-- Witness of C26: with `TIMEBASE = 2^4`, `dti = 5` is rounded down to 4 and
`dti = 100` to `TIMEBASE` = 16. -/
theorem round_down_power_of_two_spec_witness :
    (∃ m : Nat, m ≤ 4 ∧
      round_down_power_of_two 5 16 5 = some (2 ^ m) ∧
      (2 : Int) ^ m ≤ 5 ∧ (2 : Int) ^ m ≤ min 5 16 ∧
      ∀ j : Nat, (2 : Int) ^ j ≤ min 5 16 → (2 : Int) ^ j ≤ 2 ^ m) ∧
    round_down_power_of_two 5 16 5 = some 4 ∧
    round_down_power_of_two 5 16 100 = some 16 :=
  ⟨round_down_power_of_two_spec 4 5 16 5 (by norm_num) (by norm_num) (by norm_num),
    by decide, by decide⟩

end TimeBinMgr
